import Mathlib

/-!
# go-config, package `docker`: a shallow embedding

The development follows the Go sources under `pkg/docker`:

* `types.go`          the data model (`Volume`, `RunContext`, `Run`, `Dockerfile`, `ResponseMessage`);
* `dockerfile.go`     `IsValid`, `Build`, `Push` and the build/push stream decoder;
* `docker_run.go`     the container runner (`Run.Run`, `Destroy`, copy-in / copy-out, the pull decoder).

Go strings are Lean `String`s; loops over bytes work on `List Char`.  Calls to the container
runtime, the credential store and the file system are recorded in a log, and what the outside
world answers is given by an environment record, so that every statement quantifies over all
possible answers.
-/

deriving instance DecidableEq for Except

namespace Docker

/-! ## Go standard library: `strings` -/

/-- Go `strings.HasPrefix` on byte lists. -/
def hasPrefixL : List Char → List Char → Bool
  | _, [] => true
  | [], _ :: _ => false
  | a :: as, b :: bs => a == b && hasPrefixL as bs

/-- Go `strings.Contains` on byte lists: some suffix of `s` starts with `sub`. -/
def containsL : List Char → List Char → Bool
  | [], sub => hasPrefixL [] sub
  | a :: as, sub => hasPrefixL (a :: as) sub || containsL as sub

/-- Go `strings.HasPrefix`. -/
def HasPrefix (s pre : String) : Bool := hasPrefixL s.data pre.data

/-- Go `strings.Contains`. -/
def Contains (s sub : String) : Bool := containsL s.data sub.data

/-- Go `unicode.IsSpace`, as used by `strings.TrimSpace`: the code points with the Unicode
property White Space. -/
def isSpace (c : Char) : Bool :=
  c = ' ' || c = '\t' || c = '\n' || c = '\x0b' || c = '\x0c' || c = '\r' ||
    c = '\x85' || c = '\xa0' || c.toNat = 0x1680 || (0x2000 ≤ c.toNat && c.toNat ≤ 0x200a) ||
    c.toNat = 0x2028 || c.toNat = 0x2029 || c.toNat = 0x202f || c.toNat = 0x205f ||
    c.toNat = 0x3000

/-- Go `strings.TrimSpace`. -/
def TrimSpace (s : String) : String :=
  String.mk ((s.data.dropWhile isSpace).reverse.dropWhile isSpace).reverse

/-! ## Go standard library: `path` and `path/filepath` (Unix) -/

/-- The output buffer of `path.Clean` (`lazybuf`), kept as a plain buffer: the first `w` cells
of `buf` are the output written so far. -/
structure lazybuf where
  buf : List Char
  w : Nat
deriving Repr, DecidableEq

/-- The call `out.index(i)`. -/
def lazybuf.index (b : lazybuf) (i : Nat) : Char := b.buf.getD i ' '

/-- The call `out.append(c)`. -/
def lazybuf.append (b : lazybuf) (c : Char) : lazybuf :=
  { buf := b.buf.take b.w ++ [c], w := b.w + 1 }

/-- The call `out.string()`. -/
def lazybuf.string (b : lazybuf) : List Char := b.buf.take b.w

/-- Appends all bytes of `cs`, in order. -/
def lazybuf.appendAll (b : lazybuf) (cs : List Char) : lazybuf := cs.foldl lazybuf.append b

/-- The loop `for out.w > dotdot && out.index(out.w) != '/' { out.w-- }` of `path.Clean`,
on the write index. -/
def cleanBackup (b : lazybuf) (dotdot : Nat) : Nat → Nat
  | 0 => 0
  | w + 1 => if dotdot < w + 1 ∧ b.index (w + 1) ≠ '/' then cleanBackup b dotdot w else w + 1

/-- The main loop of `path.Clean`: `r` is the read index into `path`, `out` the output buffer
and `dotdot` the index where a `..` must stop.  Every round advances `r`, so `path.length`
rounds of fuel are enough. -/
def cleanLoop (path : List Char) (rooted : Bool) : Nat → Nat → lazybuf → Nat → lazybuf
  | 0, _, out, _ => out
  | fuel + 1, r, out, dotdot =>
    let n := path.length
    if r < n then
      if path.getD r ' ' = '/' then
        cleanLoop path rooted fuel (r + 1) out dotdot
      else if path.getD r ' ' = '.' ∧ (r + 1 = n ∨ path.getD (r + 1) ' ' = '/') then
        cleanLoop path rooted fuel (r + 1) out dotdot
      else if path.getD r ' ' = '.' ∧ path.getD (r + 1) ' ' = '.' ∧
          (r + 2 = n ∨ path.getD (r + 2) ' ' = '/') then
        if dotdot < out.w then
          cleanLoop path rooted fuel (r + 2)
            { out with w := cleanBackup out dotdot (out.w - 1) } dotdot
        else if ¬ rooted then
          let out1 := if 0 < out.w then out.append '/' else out
          let out2 := (out1.append '.').append '.'
          cleanLoop path rooted fuel (r + 2) out2 out2.w
        else
          cleanLoop path rooted fuel (r + 2) out dotdot
      else
        let out1 := if (rooted ∧ out.w ≠ 1) ∨ (¬ rooted ∧ out.w ≠ 0) then out.append '/' else out
        let elem := (path.drop r).takeWhile (fun c => c ≠ '/')
        cleanLoop path rooted fuel (r + elem.length) (out1.appendAll elem) dotdot
    else out

/-- Go `path.Clean` on byte lists. -/
def cleanL (path : List Char) : List Char :=
  if path = [] then ['.']
  else
    let rooted : Bool := path.getD 0 ' ' = '/'
    let out0 : lazybuf := { buf := [], w := 0 }
    let out := if rooted then cleanLoop path rooted (path.length + 1) 1 (out0.append '/') 1
      else cleanLoop path rooted (path.length + 1) 0 out0 0
    if out.w = 0 then ['.'] else out.string

/-- Go `path.Clean` (and `filepath.Clean` on Unix). -/
def Clean (path : String) : String := String.mk (cleanL path.data)

/-- Go `path.Base` on byte lists: strip trailing slashes, keep what follows the last slash. -/
def baseL (path : List Char) : List Char :=
  if path = [] then ['.']
  else
    let p1 := (path.reverse.dropWhile (fun c => c = '/')).reverse
    let p2 := (p1.reverse.takeWhile (fun c => c ≠ '/')).reverse
    if p2 = [] then ['/'] else p2

/-- Go `path.Base` (and `filepath.Base` on Unix). -/
def Base (path : String) : String := String.mk (baseL path.data)

/-- Go `path.Dir` on byte lists: everything up to the last slash, cleaned. -/
def dirL (path : List Char) : List Char :=
  cleanL (path.reverse.dropWhile (fun c => c ≠ '/')).reverse

/-- Go `path.Dir` (and `filepath.Dir` on Unix). -/
def Dir (path : String) : String := String.mk (dirL path.data)

/-- The element-matching loop of `filepath.Rel`: positions `base[b0:bi]` and `targ[t0:ti]` at
the first differing elements.  Returns `(b0, bi, t0, ti)`.  Every round advances `bi`, so
`base.length` rounds of fuel are enough. -/
def relLoop (base targ : List Char) : Nat → Nat → Nat → Nat → Nat → Nat × Nat × Nat × Nat
  | 0, b0, bi, t0, ti => (b0, bi, t0, ti)
  | fuel + 1, b0, bi, t0, ti =>
    if bi < base.length ∧ ti < targ.length then
      let bi1 := bi + ((base.drop bi).takeWhile (fun c => c ≠ '/')).length
      let ti1 := ti + ((targ.drop ti).takeWhile (fun c => c ≠ '/')).length
      if (targ.drop t0).take (ti1 - t0) ≠ (base.drop b0).take (bi1 - b0) then
        (b0, bi1, t0, ti1)
      else
        let bi2 := if bi1 < base.length then bi1 + 1 else bi1
        let ti2 := if ti1 < targ.length then ti1 + 1 else ti1
        relLoop base targ fuel bi2 bi2 ti2 ti2
    else (b0, bi, t0, ti)

/-- Go `filepath.Rel` on Unix (no volume names, case-sensitive `sameWord`). -/
def Rel (basepath targpath : String) : Except String String :=
  let base0 := cleanL basepath.data
  let targ := cleanL targpath.data
  if targ = base0 then .ok "."
  else
    let base := if base0 = ['.'] then [] else base0
    let baseSlashed : Bool := 0 < base.length ∧ base.getD 0 ' ' = '/'
    let targSlashed : Bool := 0 < targ.length ∧ targ.getD 0 ' ' = '/'
    if baseSlashed ≠ targSlashed then
      .error ("Rel: can't make " ++ targpath ++ " relative to " ++ basepath)
    else
      let bl := base.length
      let tl := targ.length
      match relLoop base targ (bl + 1) 0 0 0 0 with
      | (b0, bi, t0, _) =>
        if (base.drop b0).take (bi - b0) = ['.', '.'] then
          .error ("Rel: can't make " ++ targpath ++ " relative to " ++ basepath)
        else if b0 ≠ bl then
          let seps := ((base.drop b0).take (bl - b0)).count '/'
          let ups := ['.', '.'] ++ (List.replicate seps ['/', '.', '.']).flatten
          if t0 ≠ tl then .ok (String.mk (ups ++ ['/'] ++ targ.drop t0))
          else .ok (String.mk ups)
        else .ok (String.mk (targ.drop t0))

/-! ## `types.go`: the data model -/

/-- Type `TagDigest`: a tag pushed to a repository. -/
structure TagDigest where
  Tag : String := ""
  Digest : String := ""
  Size : Int := 0
deriving Repr, DecidableEq

/-- Type `Dockerfile`.  Go maps are association lists; the runtime client handle is the
environment record passed to each operation. -/
structure Dockerfile where
  FilePath : String := ""
  Tags : List String := []
  Args : List (String × Option String) := []
  ID : String := ""
  TagDigests : List (String × TagDigest) := []
deriving Repr, DecidableEq

/-- Type `VolumeMode`, a string. -/
abbrev VolumeMode := String

/-- Type `Volume`: a volume to attach to the container. -/
structure Volume where
  HostPath : String := ""
  ContPath : String := ""
  Mode : VolumeMode := ""
deriving Repr, DecidableEq

/-- Method `VolumeMode.IsRW`. -/
def VolumeMode.IsRW (m : VolumeMode) : Bool := m = "rw"

/-- The aux part of a daemon message. -/
structure Aux where
  ID : String := ""
  Tag : String := ""
  Digest : String := ""
  Size : Int := 0
deriving Repr, DecidableEq

/-- The error detail part of a daemon message. -/
structure ErrorDetail where
  Code : Int := 0
  Message : String := ""
deriving Repr, DecidableEq

/-- The progress detail part of a daemon message. -/
structure ProgressDetail where
  Current : Int := 0
  Total : Int := 0
deriving Repr, DecidableEq

/-- Type `ResponseMessage`: a message from the Docker daemon.  The default value of every
field is the Go zero value. -/
structure ResponseMessage where
  Id : String := ""
  Status : String := ""
  Stream : String := ""
  Aux : Aux := {}
  ErrorDetail : ErrorDetail := {}
  ProgressDetail : ProgressDetail := {}
  Progress : String := ""
  Error : String := ""
  summary : String := ""
deriving Repr, DecidableEq

/-- What the decoders send on the message channel (`readerNextMessage`): a message, the
end-of-stream mark, or an error (`none` is Go `nil`). -/
structure readerNextMessage where
  Message : ResponseMessage := {}
  EOF : Bool := false
  Error : Option String := none
deriving Repr, DecidableEq

/-- The reader handed back by `Build` and `Push` (`chanMsgReader`): the channel itself is
the list of delivered messages, the reader keeps how many end-of-stream marks it expects. -/
structure chanMsgReader where
  expectedEOFs : Nat := 0
deriving Repr, DecidableEq

/-- Type `Registry`. -/
structure Registry where
  AuthHeader : String := ""
deriving Repr, DecidableEq

/-- Go map lookup `m[k]` on an association list: the first binding of `k`, if any. -/
def mapGet {α : Type} (m : List (String × α)) (k : String) : Option α :=
  (m.find? (fun p => p.1 = k)).map (fun p => p.2)

/-- Go map assignment `m[k] = v`. -/
def mapSet {α : Type} (m : List (String × α)) (k : String) (v : α) : List (String × α) :=
  (k, v) :: m.filter (fun p => p.1 ≠ k)

/-! ## Go standard library: `bufio` -/

/-- The errors a read can return; the in-memory streams of this development only end. -/
inductive ioError where
  | EOF
deriving Repr, DecidableEq

/-- Go `bufio.Reader.ReadString(delim)` on an in-memory stream: the bytes up to and
including the first `delim`, no error, and the rest of the stream; when the stream ends
before a `delim`, the bytes read so far together with `io.EOF`. -/
def ReadString (delim : Char) : List Char → List Char × Option ioError × List Char
  | [] => ([], some ioError.EOF, [])
  | c :: cs =>
    if c = delim then ([c], none, cs)
    else
      match ReadString delim cs with
      | (line, err, rest) => (c :: line, err, rest)

/-! ## `dockerfile.go` -/

/-- The build options `Build` passes to the runtime (`types.ImageBuildOptions`). -/
structure ImageBuildOptions where
  SuppressOutput : Bool
  PullParent : Bool
  Tags : List String
  NoCache : Bool
  Dockerfile : String
  BuildArgs : List (String × Option String)
deriving Repr, DecidableEq

/-- The push options `Push` passes to the runtime (`types.ImagePushOptions`). -/
structure ImagePushOptions where
  RegistryAuth : String
deriving Repr, DecidableEq

/-- The calls `dockerfile.go` makes to the outside world, in the order they are logged. -/
inductive BuildCall where
  | readFile (path : String)
  | tarWithOptions (dir : String)
  | imageBuild (options : ImageBuildOptions)
  | registryFromImageReference (tag : String)
  | imagePush (tag : String) (options : ImagePushOptions)
  | goStreamMessagesToChannel (fullTag : String)
deriving Repr, DecidableEq

/-- What the outside world answers to the calls of `dockerfile.go`, given the calls made so
far: the file system, the container runtime and the credential lookup. -/
structure BuildEnv where
  readFile : List BuildCall → String → Except String String
  imageBuild : List BuildCall → ImageBuildOptions → Except String (List Char)
  registryFromImageReference : List BuildCall → String → Except String Registry
  imagePush : List BuildCall → String → ImagePushOptions → Except String (List Char)

/-- Method `Dockerfile.IsValid`: reads the file and looks for `FROM `. -/
def Dockerfile.IsValid (env : BuildEnv) (dockerFile : Dockerfile) (log : List BuildCall) :
    Except String Bool × List BuildCall :=
  match env.readFile log dockerFile.FilePath with
  | .error err =>
    (.error ("failed to read Dockerfile from " ++ dockerFile.FilePath ++ ": " ++ err),
      log ++ [.readFile dockerFile.FilePath])
  | .ok bytes => (.ok (Contains bytes "FROM "), log ++ [.readFile dockerFile.FilePath])

/-- The options `Build` assembles. -/
def Dockerfile.buildOptions (dockerFile : Dockerfile) : ImageBuildOptions :=
  { SuppressOutput := false
    PullParent := true
    Tags := dockerFile.Tags
    NoCache := true
    Dockerfile := Base dockerFile.FilePath
    BuildArgs := dockerFile.Args }

/-- Method `Dockerfile.Build`: packs the directory of the Dockerfile, calls `ImageBuild`
and, when that succeeds, starts the decoder task.  `.error e` is the Go result `(nil, e)`. -/
def Dockerfile.Build (env : BuildEnv) (dockerFile : Dockerfile) (log : List BuildCall) :
    Except String chanMsgReader × List BuildCall :=
  let msgReader : chanMsgReader := { expectedEOFs := 1 }
  let buildOptions := dockerFile.buildOptions
  let log1 := log ++ [.tarWithOptions (Dir dockerFile.FilePath)]
  match env.imageBuild log1 buildOptions with
  | .error err => (.error err, log1 ++ [.imageBuild buildOptions])
  | .ok _ => (.ok msgReader, log1 ++ [.imageBuild buildOptions, .goStreamMessagesToChannel ""])

/-- The loop over the tags in `Dockerfile.Push`: per tag one credential lookup, one
`ImagePush` and one decoder task; the first error ends the loop. -/
def Dockerfile.pushTags (env : BuildEnv) : List String → List BuildCall →
    Option String × List BuildCall
  | [], log => (none, log)
  | tag :: tags, log =>
    let log1 := log ++ [.registryFromImageReference tag]
    match env.registryFromImageReference log tag with
    | .error err => (some err, log1)
    | .ok registry =>
      let pushOpts : ImagePushOptions := { RegistryAuth := registry.AuthHeader }
      let log2 := log1 ++ [.imagePush tag pushOpts]
      match env.imagePush log1 tag pushOpts with
      | .error err => (some err, log2)
      | .ok _ => Dockerfile.pushTags env tags (log2 ++ [.goStreamMessagesToChannel tag])

/-- Method `Dockerfile.Push`.  `.error e` is the Go result `(nil, e)`. -/
def Dockerfile.Push (env : BuildEnv) (dockerFile : Dockerfile) (log : List BuildCall) :
    Except String chanMsgReader × List BuildCall :=
  if dockerFile.Tags.length = 0 then
    (.error "no tags provided, hence could not push image", log)
  else
    let msgReader : chanMsgReader := { expectedEOFs := dockerFile.Tags.length }
    match Dockerfile.pushTags env dockerFile.Tags log with
    | (some err, log1) => (.error err, log1)
    | (none, log1) => (.ok msgReader, log1)

/-- One round of the build/push decoder after a line was read: what is sent on the
channel and how the Dockerfile changes.  `unmarshal` is `json.Unmarshal` into a fresh
`ResponseMessage`. -/
def Dockerfile.handleLine (unmarshal : String → Except String ResponseMessage)
    (fullTag : String) (dockerFile : Dockerfile) (line : List Char) :
    Dockerfile × List readerNextMessage :=
  match unmarshal (String.mk line) with
  | .error err => (dockerFile, [{ Error := some err }])
  | .ok msg =>
    if msg.Aux.ID ≠ "" then
      ({ dockerFile with ID := msg.Aux.ID }, [])
    else if msg.Aux.Digest ≠ "" ∧ msg.Aux.Tag ≠ "" then
      let tagDigest : TagDigest :=
        { Tag := msg.Aux.Tag, Digest := msg.Aux.Digest, Size := msg.Aux.Size }
      ({ dockerFile with TagDigests := mapSet dockerFile.TagDigests fullTag tagDigest }, [])
    else if msg.Error ≠ "" then
      (dockerFile, [{ Error := some msg.Error }])
    else
      (dockerFile, [{ Message := msg }])

/-- The loop of `Dockerfile.streamMessagesToChannel`: reads a line; at end of input sends
the end-of-stream mark and stops; otherwise handles the line and goes on.  Every round that
does not stop consumes at least one byte, so `reader.length + 1` rounds of fuel are enough. -/
def Dockerfile.streamLoop (unmarshal : String → Except String ResponseMessage)
    (fullTag : String) : Nat → List Char → Dockerfile → Dockerfile × List readerNextMessage
  | 0, _, dockerFile => (dockerFile, [])
  | fuel + 1, reader, dockerFile =>
    match ReadString '\n' reader with
    | (_, some ioError.EOF, _) => (dockerFile, [{ EOF := true }])
    | (line, none, rest) =>
      match Dockerfile.handleLine unmarshal fullTag dockerFile line with
      | (dockerFile1, sent1) =>
        match Dockerfile.streamLoop unmarshal fullTag fuel rest dockerFile1 with
        | (dockerFile2, sent2) => (dockerFile2, sent1 ++ sent2)

/-- Method `Dockerfile.streamMessagesToChannel`: the final Dockerfile and the messages
sent on the channel, in order. -/
def Dockerfile.streamMessagesToChannel (unmarshal : String → Except String ResponseMessage)
    (dockerFile : Dockerfile) (reader : List Char) (fullTag : String) :
    Dockerfile × List readerNextMessage :=
  Dockerfile.streamLoop unmarshal fullTag (reader.length + 1) reader dockerFile

/-! ## `docker_run.go`: constants, contexts and the outside world -/

/-- Constant `ContainersLabelName`. -/
def ContainersLabelName : String := "AtlasBuildContainerID"

/-- Constant `DefaultContainerCommand`. -/
def DefaultContainerCommand : String := "sleep 100000"

/-- Constant `DockerSockPath`. -/
def DockerSockPath : String := "/var/run/docker.sock"

/-- The class `[a-z_]` of `ValidUsernameRegexString`. -/
def usernameHead (c : Char) : Bool := ('a' ≤ c ∧ c ≤ 'z') ∨ c = '_'

/-- The class `[a-z0-9_-]` of `ValidUsernameRegexString`. -/
def usernameTail (c : Char) : Bool :=
  ('a' ≤ c ∧ c ≤ 'z') ∨ ('0' ≤ c ∧ c ≤ '9') ∨ c = '_' ∨ c = '-'

/-- The call `ValidUsernameRegex.Match` for the pattern
`^[a-z_]([a-z0-9_-]{0,31}|[a-z0-9_-]{0,30}\$)$`. -/
def ValidUsernameRegexMatch (user : String) : Bool :=
  match user.data with
  | [] => false
  | c :: rest =>
    usernameHead c &&
      ((rest.all usernameTail && decide (rest.length ≤ 31)) ||
        (match rest.reverse with
          | '$' :: body => body.all usernameTail && decide (body.length ≤ 30)
          | _ => false))

/-- An output sink (`io.WriteCloser`): the process streams or a sink of the caller. -/
inductive Writer where
  | osStdout
  | osStderr
  | custom (name : String)
deriving Repr, DecidableEq

/-- Type `RunContext`.  `none` for a sink or for `Stdin` is Go `nil`. -/
structure RunContext where
  Prefix : String := ""
  User : String := ""
  Privileged : Bool := false
  DockerInDocker : Bool := false
  Stdout : Option Writer := none
  Stderr : Option Writer := none
  Stdin : Option String := none
  WorkDir : String := ""
  Silent : Bool := false
  Debug : Bool := false
  Tty : Bool := false
deriving Repr, DecidableEq

/-- Method `RunContext.isDebug`. -/
def RunContext.isDebug (ctx : RunContext) : Bool := !ctx.Silent && ctx.Debug

/-- Method `RunContext.Clone`: the fields that are not listed keep their zero value. -/
def RunContext.Clone (ctx : RunContext) : RunContext :=
  { User := ctx.User
    Privileged := ctx.Privileged
    DockerInDocker := ctx.DockerInDocker
    Stdout := ctx.Stdout
    Stderr := ctx.Stderr
    Prefix := ctx.Prefix
    WorkDir := ctx.WorkDir
    Silent := ctx.Silent
    Debug := ctx.Debug }

/-- Type `Run`. -/
structure Run where
  RunID : String := ""
  Reference : String := ""
  Volumes : List Volume := []
  Env : List String := []
  containerID : String := ""
deriving Repr, DecidableEq

/-- A container as listed by the runtime (`types.Container`): its id and its labels. -/
structure Container where
  ID : String := ""
  Labels : List (String × String) := []
deriving Repr, DecidableEq

/-- The container configuration of `ContainerCreate` (`container.Config`). -/
structure ContainerConfig where
  Image : String
  Labels : List (String × String)
  Cmd : List String
  Entrypoint : List String
  Env : List String
deriving Repr, DecidableEq

/-- The host configuration of `ContainerCreate` (`container.HostConfig`). -/
structure HostConfig where
  NetworkMode : String
  Privileged : Bool
  Binds : List String
deriving Repr, DecidableEq

/-- The exec configuration of `ContainerExecCreate` (`types.ExecConfig`). -/
structure ExecConfig where
  User : String := ""
  Privileged : Bool := false
  Tty : Bool := false
  AttachStdin : Bool := false
  AttachStderr : Bool := false
  AttachStdout : Bool := false
  Detach : Bool := false
  Cmd : List String := []
  WorkingDir : String := ""
deriving Repr, DecidableEq

/-- The configuration handed to `dockerext.InteractiveExec`; `prefixed` tells whether the
sinks are wrapped by `textio.NewPrefixWriter`. -/
structure InteractiveExecCfg where
  ExecID : String
  Stderr : Writer
  Stdout : Writer
  prefixed : Bool
  linePrefix : String
  Stdin : Option String
  ExecConfig : ExecConfig
deriving Repr, DecidableEq

/-- The source description handed to `archive.CopyTo` (`archive.CopyInfo`). -/
structure CopyInfo where
  Path : String
  Exists : Bool
  IsDir : Bool
  RebaseName : String
deriving Repr, DecidableEq

/-- What `ContainerStatPath` tells about a path: whether it is a symbolic link
(`Mode&os.ModeSymlink != 0`) and the link target. -/
structure ContainerPathStat where
  isSymlink : Bool := false
  LinkTarget : String := ""
  IsDir : Bool := false
deriving Repr, DecidableEq

/-- The outcome of `os.Stat` on a host path: the file info (is it a directory), or an error
together with what `os.IsNotExist` and `os.IsPermission` say about it. -/
inductive HostStat where
  | info (isDir : Bool)
  | failed (err : String) (isNotExist isPermission : Bool)
deriving Repr, DecidableEq

/-- How an operation of the runner can stop short: with a Go `error`, with a run-time panic
(a call on a nil sink or on a nil file info), or blocked forever on a channel nobody
reads. -/
inductive Failure where
  | error (err : String)
  | panic (msg : String)
  | deadlock
deriving Repr, DecidableEq

/-- Go `errors.Wrapf(err, msg)`: only an `error` is wrapped. -/
def Failure.Wrapf (f : Failure) (msg : String) : Failure :=
  match f with
  | .error err => .error (msg ++ ": " ++ err)
  | other => other

/-- The calls `docker_run.go` makes to the outside world, named as in the source.  The two
entries `Destroy` and `copyFromContainer` record that the method of `Run` with that name was
entered, with its arguments. -/
inductive RunCall where
  | Destroy
  | copyFromContainer (contPath hostPath : String)
  | ContainerList
  | ContainerStop (id : String) (timeoutSeconds : Nat)
  | ContainerKill (id : String) (signal : String)
  | ContainerRemove (id : String) (RemoveVolumes Force : Bool)
  | ImageList (reference : String)
  | ImagePull (reference : String)
  | Listen
  | ReadFile (path : String)
  | ContainerCreate (config : ContainerConfig) (hostConfig : HostConfig) (name : String)
  | ContainerStart (id : String)
  | ContainerExecCreate (containerID : String) (config : ExecConfig)
  | InteractiveExec (cfg : InteractiveExecCfg)
  | ContainerDiff (containerID : String)
  | ContainerStatPath (containerID path : String)
  | CopyFromContainer (containerID path : String)
  | ioCopy (dst : Option Writer)
  | archiveCopyTo (srcInfo : CopyInfo) (hostPath : String)
  | osStat (hostPath : String)
  | TarWithOptions (hostPath : String)
  | CopyToContainer (containerID dstDir : String)
  | Write (sink : Writer) (text : String)
  | Close (sink : Writer)
deriving Repr, DecidableEq

/-- What the outside world answers to the calls of `docker_run.go`, given the calls made so
far.  An `Option String` answer is a Go `error` (`none` is `nil`); `ioCopy` answers with the
outcome of `io.Copy` into the given sink.  The last two fields are library functions of other
packages: `util.SafeSplit`, and the link resolution of `copyFromContainer` (`system.IsAbs`,
`archive.SplitPathDirEntry`, `filepath.Join` and `archive.GetRebaseName`), which maps the
path and the link target to the path to copy and the rebase name.  `rangeVar` is the
scheduler of the tasks of `Destroy`: the tasks are closures over the one variable `c` of
the loop and run next to the loop, and `rangeVar log i` tells by how many rounds the loop
has moved on when the task started in round `i` reads `c` after the calls `log`. -/
structure RunEnv where
  rangeVar : List RunCall → Nat → Nat := fun _ _ => 0
  ContainerList : List RunCall → Option String := fun _ => none
  ContainerRemove : List RunCall → String → Option String := fun _ _ => none
  ImageList : List RunCall → String → Except String Nat := fun _ _ => .ok 1
  ImagePull : List RunCall → String → Except String (List Char) := fun _ _ => .ok []
  Listen : List RunCall → Option String := fun _ => none
  ReadFile : List RunCall → String → Except String String := fun _ _ => .error "no such file"
  ContainerCreate : List RunCall → ContainerConfig → HostConfig → String →
    Except String String := fun _ _ _ _ => .ok "c0"
  ContainerStart : List RunCall → String → Option String := fun _ _ => none
  ContainerExecCreate : List RunCall → String → ExecConfig → Except String String :=
    fun _ _ _ => .ok "e0"
  InteractiveExec : List RunCall → InteractiveExecCfg → Option String := fun _ _ => none
  ContainerDiff : List RunCall → String → Except String (List String) := fun _ _ => .ok []
  ContainerStatPath : List RunCall → String → String → Except String ContainerPathStat :=
    fun _ _ _ => .ok {}
  CopyFromContainer : List RunCall → String → String → Except String ContainerPathStat :=
    fun _ _ _ => .ok {}
  ioCopy : List RunCall → Option Writer → Option Failure := fun _ _ => none
  archiveCopyTo : List RunCall → CopyInfo → String → Option String := fun _ _ _ => none
  osStat : List RunCall → String → HostStat := fun _ _ => .info true
  TarWithOptions : List RunCall → String → Option String := fun _ _ => none
  CopyToContainer : List RunCall → String → String → Option String := fun _ _ _ => none
  Write : List RunCall → Writer → String → Option String := fun _ _ _ => none
  SafeSplit : String → List String := fun s => [s]
  followLink : String → String → String × String := fun _ target => (target, "")

/-- The state of the outside world: the containers the runtime holds and the calls made so
far.  `ContainerCreate` adds a container with the labels of its configuration and a
successful `ContainerRemove` removes the container with that id; no other call of the
runner changes the set of containers. -/
structure World where
  containers : List Container := []
  log : List RunCall := []
deriving Repr, DecidableEq

/-- Records a call. -/
def World.call (w : World) (c : RunCall) : World := { w with log := w.log ++ [c] }

/-! ## `docker_run.go`: the operations of `Run` -/

/-- Method `Run.IsRunningInDocker`: reads `/proc/1/cgroup` and looks for `docker` or
`kubepods`. -/
def Run.IsRunningInDocker (env : RunEnv) (w : World) : Bool × World :=
  match env.ReadFile w.log "/proc/1/cgroup" with
  | .error _ => (false, w.call (.ReadFile "/proc/1/cgroup"))
  | .ok bytes =>
    (Contains bytes "docker" || Contains bytes "kubepods", w.call (.ReadFile "/proc/1/cgroup"))

/-- A statement `_, _ = runCtx.Stdout.Write(text)`: the result of the write is dropped, a
nil sink panics. -/
def RunContext.writeStdout (runCtx : RunContext) (text : String) (w : World) :
    Option Failure × World :=
  match runCtx.Stdout with
  | none => (some (.panic "invalid memory address or nil pointer dereference"), w)
  | some out => (none, w.call (.Write out text))

/-- The exec configuration `execSingleCommand` assembles for a command. -/
def Run.execConfig (runCtx : RunContext) (command : String) : ExecConfig :=
  let command := TrimSpace command
  let execConfig : ExecConfig :=
    { Privileged := true
      Cmd := ["/bin/sh", "-c", command]
      AttachStdout := true
      AttachStderr := true
      AttachStdin := true
      Detach := false
      Tty := runCtx.Tty }
  let execConfig :=
    if runCtx.WorkDir ≠ "" then { execConfig with WorkingDir := runCtx.WorkDir } else execConfig
  if runCtx.User ≠ "" ∧ ValidUsernameRegexMatch runCtx.User then
    { execConfig with User := runCtx.User }
  else execConfig

/-- Method `Run.execSingleCommand`. -/
def Run.execSingleCommand (env : RunEnv) (runCtx : RunContext) (containerID : String)
    (command : String) (svcCmd : Bool) (w : World) : Option Failure × World :=
  let stdout := runCtx.Stdout.getD Writer.osStdout
  let stderr := runCtx.Stderr.getD Writer.osStderr
  let execConfig := Run.execConfig runCtx command
  let banner := "CMD `" ++ TrimSpace command ++ "`\n"
  let announce : Option String × World :=
    if !svcCmd && runCtx.isDebug then (env.Write w.log stdout banner, w.call (.Write stdout banner))
    else (none, w)
  match announce with
  | (some err, w1) => (some (.error err), w1)
  | (none, w1) =>
    let w2 := w1.call (.ContainerExecCreate containerID execConfig)
    match env.ContainerExecCreate w1.log containerID execConfig with
    | .error err => (some (.error err), w2)
    | .ok execID =>
      let cfg : InteractiveExecCfg :=
        { ExecID := execID
          Stderr := stderr
          Stdout := stdout
          prefixed := !runCtx.Tty
          linePrefix := runCtx.Prefix
          Stdin := runCtx.Stdin
          ExecConfig := execConfig }
      match env.InteractiveExec w2.log cfg with
      | some err => (some (.error err), w2.call (.InteractiveExec cfg))
      | none => (none, w2.call (.InteractiveExec cfg))

/-- The round of the loop of `Destroy` whose container the loop variable `c` holds when the
task started in round `i` reads it after the calls `log`: a round from `atLeast` on, which
is the round an earlier read of the task saw, and at most the last round, where the
variable stays when the loop has ended. -/
def Run.rangeRound (env : RunEnv) (listed : List Container) (i atLeast : Nat)
    (log : List RunCall) : Nat :=
  min (max atLeast (i + env.rangeVar log i)) (listed.length - 1)

/-- The task `Destroy` starts in round `i` of its loop over the listed containers: stop and
kill (results dropped), then remove with volumes, forced, each on the container that the
loop variable holds when the call reads `c.ID`.  A successful remove takes the container
out of the runtime. -/
def Run.destroyContainer (env : RunEnv) (listed : List Container) (i : Nat) (w : World) :
    Option String × World :=
  let j1 := Run.rangeRound env listed i i w.log
  let w1 := w.call (.ContainerStop (listed.getD j1 {}).ID 10)
  let j2 := Run.rangeRound env listed i j1 w1.log
  let w2 := w1.call (.ContainerKill (listed.getD j2 {}).ID "KILL")
  let j3 := Run.rangeRound env listed i j2 w2.log
  let id := (listed.getD j3 {}).ID
  match env.ContainerRemove w2.log id with
  | some err => (some err, w2.call (.ContainerRemove id true true))
  | none =>
    (none, { containers := w2.containers.filter (fun c => c.ID ≠ id)
             log := w2.log ++ [.ContainerRemove id true true] })

/-- The loop of `Destroy` over the listed containers, from round `i` on, with the tasks of
the error group run one after the other in the order they are started; `eg.Wait()` gives
the first error. -/
def Run.destroyContainers (env : RunEnv) (runID : String) (listed : List Container) :
    Nat → List Container → World → Option String × World
  | _, [], w => (none, w)
  | i, c :: cs, w =>
    if (mapGet c.Labels ContainersLabelName).getD "" = runID then
      match Run.destroyContainer env listed i w with
      | (err1, w1) =>
        match Run.destroyContainers env runID listed (i + 1) cs w1 with
        | (err2, w2) => (err1.orElse (fun _ => err2), w2)
    else Run.destroyContainers env runID listed (i + 1) cs w

/-- Method `Run.Destroy`: lists all containers and removes those whose label
`AtlasBuildContainerID` reads as the run id. -/
def Run.Destroy (env : RunEnv) (run : Run) (w : World) : Option String × World :=
  let w0 := w.call .Destroy
  match env.ContainerList w0.log with
  | some err => (some err, w0.call .ContainerList)
  | none =>
    Run.destroyContainers env run.RunID w0.containers 0 w0.containers
      (w0.call .ContainerList)

/-- Method `Run.makeSureImagePulled`.  The pull decoder writes to an unbuffered channel that
only `Listen` reads, and `Listen` is called only with a non-nil `Stdout`: without it the
decoder task and `eg.Wait()` block forever.  `Listen` belongs to a source file that is not
at hand; it is taken to drain the channel and its answer comes from the environment. -/
def Run.makeSureImagePulled (env : RunEnv) (run : Run) (runCtx : RunContext) (w : World) :
    Option Failure × World :=
  let w1 := w.call (.ImageList run.Reference)
  match env.ImageList w.log run.Reference with
  | .error err => (some (.error err), w1)
  | .ok images =>
    if images = 0 then
      let w2 := w1.call (.ImagePull run.Reference)
      match env.ImagePull w1.log run.Reference with
      | .error err => (some (.error err), w2)
      | .ok _ =>
        match runCtx.Stdout with
        | none => (some .deadlock, w2)
        | some _ =>
          match env.Listen w2.log with
          | some err => (some (.error err), w2.call .Listen)
          | none => (none, w2.call .Listen)
    else (none, w1)

/-- Method `Run.makeSureUserExists`. -/
def Run.makeSureUserExists (env : RunEnv) (runCtx : RunContext) (containerID : String)
    (w : World) : Option Failure × World :=
  if runCtx.User = "" ∨ ¬ ValidUsernameRegexMatch runCtx.User then (none, w)
  else
    let rootCtx := { runCtx.Clone with User := "root", WorkDir := "/" }
    let addUserCmd := "sh -c 'id -u " ++ runCtx.User ++ " 2>/dev/null || " ++
      "adduser -D " ++ runCtx.User ++ " >/dev/null 2>&1  || " ++
      "adduser --disabled-password --gecos \"\" " ++ runCtx.User ++ " >/dev/null 2>&1'"
    match Run.execSingleCommand env rootCtx containerID addUserCmd true w with
    | (some err, w1) => (some err, w1)
    | (none, w1) =>
      let homeDir := if runCtx.User = "root" then "/root" else "/home/" ++ runCtx.User
      let chown : Option Failure × World :=
        if runCtx.User ≠ "root" then
          Run.execSingleCommand env rootCtx containerID
            ("chown -R " ++ runCtx.User ++ ":" ++ runCtx.User ++ " " ++ homeDir) true w1
        else (none, w1)
      match chown with
      | (some err, w2) => (some err, w2)
      | (none, w2) =>
        if runCtx.DockerInDocker then
          Run.execSingleCommand env rootCtx containerID ("chmod +rx " ++ DockerSockPath) true w2
        else (none, w2)

/-- Method `Run.copyToContainer`. -/
def Run.copyToContainer (env : RunEnv) (run : Run) (runCtx : RunContext)
    (hostPath contPath : String) (w : World) : Option Failure × World :=
  let debug : Option Failure × World :=
    if !runCtx.Silent && runCtx.Debug then
      runCtx.writeStdout ("COPY " ++ hostPath ++ " " ++ run.containerID ++ ":" ++ contPath ++ "\n") w
    else (none, w)
  match debug with
  | (some f, w1) => (some f, w1)
  | (none, w1) =>
    let w2 := w1.call (.osStat hostPath)
    let stat : Except Failure Bool :=
      match env.osStat w1.log hostPath with
      | .info isDir => .ok isDir
      | .failed err isNotExist isPermission =>
        if isNotExist then
          .error (.error ("path " ++ hostPath ++ " does not exist in the host container: " ++ err))
        else if isPermission then
          .error (.error ("path " ++ hostPath ++ " is not accessible in the host container: " ++ err))
        else .error (.panic "invalid memory address or nil pointer dereference")
    match stat with
    | .error f => (some f, w2)
    | .ok isDir =>
      let srcFileName := Base hostPath
      let dstFileName := Base contPath
      let dstDirPath := if !isDir then Dir contPath else contPath
      let rootCtx := { runCtx.Clone with User := "root", WorkDir := "/" }
      let mkdirCmd := "mkdir -p " ++ dstDirPath
      let mkdirCmd :=
        if runCtx.User ≠ "" ∧ runCtx.User ≠ "root" then
          mkdirCmd ++ " && chown " ++ runCtx.User ++ ":" ++ runCtx.User ++ " " ++ dstDirPath
        else mkdirCmd
      let mkdir : Option Failure × World :=
        if dstDirPath ≠ DockerSockPath then
          Run.execSingleCommand env rootCtx run.containerID mkdirCmd true w2
        else (none, w2)
      match mkdir with
      | (some f, w3) => (some f, w3)
      | (none, w3) =>
        let w4 := w3.call (.TarWithOptions hostPath)
        match env.TarWithOptions w3.log hostPath with
        | some err =>
          (some (.error ("failed to create tar archive out of the path: " ++ hostPath ++
            ": " ++ err)), w4)
        | none =>
          let w5 := w4.call (.CopyToContainer run.containerID dstDirPath)
          match env.CopyToContainer w4.log run.containerID dstDirPath with
          | some err =>
            (some (.error ("failed to copy files into container " ++ run.containerID ++
              " from path: " ++ hostPath ++ ": " ++ err)), w5)
          | none =>
            if !isDir ∧ dstFileName ≠ srcFileName then
              let renameCmd := "mv " ++ dstDirPath ++ "/" ++ srcFileName ++ " " ++
                dstDirPath ++ "/" ++ dstFileName
              Run.execSingleCommand env rootCtx run.containerID renameCmd true w5
            else (none, w5)

/-- The loop of `Run.copyVolumesToContainer` over the volumes. -/
def Run.copyVolumesToContainerLoop (env : RunEnv) (run : Run) (runCtx : RunContext) :
    List Volume → World → Option Failure × World
  | [], w => (none, w)
  | v :: vs, w =>
    match Run.copyToContainer env run runCtx v.HostPath v.ContPath w with
    | (some f, w1) =>
      (some (f.Wrapf ("could not copy volume " ++ v.HostPath ++ ":" ++ v.ContPath ++
        " to container " ++ run.containerID)), w1)
    | (none, w1) => Run.copyVolumesToContainerLoop env run runCtx vs w1

/-- Method `Run.copyVolumesToContainer`. -/
def Run.copyVolumesToContainer (env : RunEnv) (run : Run) (runCtx : RunContext) (w : World) :
    Option Failure × World :=
  let debug : Option Failure × World :=
    if runCtx.isDebug then
      runCtx.writeStdout "Docker In Docker mode activated: copying volumes into container!\n" w
    else (none, w)
  match debug with
  | (some f, w1) => (some f, w1)
  | (none, w1) => Run.copyVolumesToContainerLoop env run runCtx run.Volumes w1

/-- Method `Run.copyFromContainer`.  Closing the content stream is not recorded. -/
def Run.copyFromContainer (env : RunEnv) (run : Run) (runCtx : RunContext)
    (contPath hostPath : String) (w : World) : Option Failure × World :=
  let w0 := w.call (.copyFromContainer contPath hostPath)
  let debug : Option Failure × World :=
    if runCtx.isDebug then
      runCtx.writeStdout ("COPY " ++ run.containerID ++ ":" ++ contPath ++ " " ++ hostPath ++ "\n") w0
    else (none, w0)
  match debug with
  | (some f, w1) => (some f, w1)
  | (none, w1) =>
    let w2 := w1.call (.ContainerStatPath run.containerID contPath)
    let followed : String × String :=
      match env.ContainerStatPath w1.log run.containerID contPath with
      | .ok contStat =>
        if contStat.isSymlink then env.followLink contPath contStat.LinkTarget else (contPath, "")
      | .error _ => (contPath, "")
    let contPath1 := followed.1
    let rebaseName := followed.2
    let w3 := w2.call (.CopyFromContainer run.containerID contPath1)
    match env.CopyFromContainer w2.log run.containerID contPath1 with
    | .error err => (some (.error err), w3)
    | .ok stat =>
      if hostPath = "-" then
        (env.ioCopy w3.log runCtx.Stdout, w3.call (.ioCopy runCtx.Stdout))
      else
        let srcInfo : CopyInfo :=
          { Path := contPath1, Exists := true, IsDir := stat.IsDir, RebaseName := rebaseName }
        match env.archiveCopyTo w3.log srcInfo hostPath with
        | some err => (some (.error err), w3.call (.archiveCopyTo srcInfo hostPath))
        | none => (none, w3.call (.archiveCopyTo srcInfo hostPath))

/-- The inner loop of `Run.copyVolumesFromContainer`: the changed paths, for one read-write
volume `v`. -/
def Run.copyVolumeFromContainer (env : RunEnv) (run : Run) (runCtx : RunContext) (v : Volume) :
    List String → World → Option Failure × World
  | [], w => (none, w)
  | diffPath :: diffPaths, w =>
    let partOfVolume : Bool :=
      HasPrefix diffPath (Clean v.ContPath ++ "/") || diffPath = Clean v.ContPath
    if partOfVolume then
      let contPath := diffPath
      match Rel (Clean v.ContPath) contPath with
      | .error err =>
        (some (.error ("failed to calculate relative path of changed container mount " ++
          diffPath ++ " off " ++ v.ContPath ++ ": " ++ err)), w)
      | .ok relPath =>
        if Contains relPath "/" || contPath = v.ContPath then
          Run.copyVolumeFromContainer env run runCtx v diffPaths w
        else
          match Run.copyFromContainer env run runCtx contPath v.HostPath w with
          | (some f, w1) =>
            (some (f.Wrapf ("could not copy file " ++ relPath ++ " of volume " ++ v.HostPath ++
              ":" ++ v.ContPath ++ " back from container")), w1)
          | (none, w1) => Run.copyVolumeFromContainer env run runCtx v diffPaths w1
    else Run.copyVolumeFromContainer env run runCtx v diffPaths w

/-- The outer loop of `Run.copyVolumesFromContainer` over the volumes: only read-write
volumes are looked at. -/
def Run.copyVolumesFromContainerLoop (env : RunEnv) (run : Run) (runCtx : RunContext)
    (diffPaths : List String) : List Volume → World → Option Failure × World
  | [], w => (none, w)
  | v :: vs, w =>
    if v.Mode.IsRW then
      match Run.copyVolumeFromContainer env run runCtx v diffPaths w with
      | (some f, w1) => (some f, w1)
      | (none, w1) => Run.copyVolumesFromContainerLoop env run runCtx diffPaths vs w1
    else Run.copyVolumesFromContainerLoop env run runCtx diffPaths vs w

/-- Method `Run.copyVolumesFromContainer`. -/
def Run.copyVolumesFromContainer (env : RunEnv) (run : Run) (runCtx : RunContext) (w : World) :
    Option Failure × World :=
  let debug : Option Failure × World :=
    if runCtx.isDebug then
      runCtx.writeStdout "Docker In Docker mode activated: copying volumes from container!\n" w
    else (none, w)
  match debug with
  | (some f, w1) => (some f, w1)
  | (none, w1) =>
    let w2 := w1.call (.ContainerDiff run.containerID)
    match env.ContainerDiff w1.log run.containerID with
    | .error err =>
      (some (.error ("failed to get diff for container " ++ run.containerID ++ ": " ++ err)), w2)
    | .ok diffPaths => Run.copyVolumesFromContainerLoop env run runCtx diffPaths run.Volumes w2

/-- The bind list `Run.Run` assembles: the runtime socket when `DockerInDocker` is set, then
one bind per volume when not running inside a container. -/
def Run.binds (run : Run) (runCtx : RunContext) (inDocker : Bool) : List String :=
  let binds : List String :=
    if runCtx.DockerInDocker then [DockerSockPath ++ ":" ++ DockerSockPath] else []
  if !inDocker then
    binds ++ run.Volumes.map (fun v =>
      let bind := v.HostPath ++ ":" ++ v.ContPath
      if v.Mode = "ro" then bind ++ ":ro" else bind)
  else binds

/-- The steps of `Run.Run` from the image pull to the copy-in of the volumes.  Returns the
receiver as well, whose `containerID` is set by a successful create. -/
def Run.prepare (env : RunEnv) (run : Run) (runCtx : RunContext) (w : World) :
    Option Failure × Run × World :=
  match Run.makeSureImagePulled env run runCtx w with
  | (some f, w1) => (some f, run, w1)
  | (none, w1) =>
    match Run.IsRunningInDocker env w1 with
    | (inDocker, w2) =>
      let config : ContainerConfig :=
        { Image := run.Reference
          Labels := [(ContainersLabelName, run.RunID)]
          Cmd := env.SafeSplit DefaultContainerCommand
          Entrypoint := []
          Env := run.Env }
      let hostConfig : HostConfig :=
        { NetworkMode := "default"
          Privileged := runCtx.Privileged
          Binds := Run.binds run runCtx inDocker }
      match env.ContainerCreate w2.log config hostConfig run.RunID with
      | .error err => (some (.error err), run, w2.call (.ContainerCreate config hostConfig run.RunID))
      | .ok id =>
        let w3 : World :=
          { containers := w2.containers ++ [{ ID := id, Labels := config.Labels }]
            log := w2.log ++ [.ContainerCreate config hostConfig run.RunID] }
        let run1 := { run with containerID := id }
        match env.ContainerStart w3.log id with
        | some err => (some (.error err), run1, w3.call (.ContainerStart id))
        | none =>
          match Run.makeSureUserExists env runCtx run1.containerID (w3.call (.ContainerStart id)) with
          | (some f, w5) => (some f, run1, w5)
          | (none, w5) =>
            match Run.IsRunningInDocker env w5 with
            | (true, w6) =>
              match Run.copyVolumesToContainer env run1 runCtx w6 with
              | (res, w7) => (res, run1, w7)
            | (false, w6) => (none, run1, w6)

/-- The loop of `Run.Run` over the commands: the first failing command ends it. -/
def Run.execCommands (env : RunEnv) (run : Run) (runCtx : RunContext) :
    List String → World → Option Failure × World
  | [], w => (none, w)
  | cmd :: cmds, w =>
    match Run.execSingleCommand env runCtx run.containerID cmd false w with
    | (some f, w1) => (some f, w1)
    | (none, w1) => Run.execCommands env run runCtx cmds w1

/-- The last step of `Run.Run`: the copy-out of the read-write volumes when running inside
a container. -/
def Run.finish (env : RunEnv) (run : Run) (runCtx : RunContext) (w : World) :
    Option Failure × World :=
  match Run.IsRunningInDocker env w with
  | (true, w1) => Run.copyVolumesFromContainer env run runCtx w1
  | (false, w1) => (none, w1)

/-- The body of `Run.Run` after the deferred calls are registered. -/
def Run.body (env : RunEnv) (run : Run) (runCtx : RunContext) (commands : List String)
    (w : World) : Option Failure × Run × World :=
  match Run.prepare env run runCtx w with
  | (some f, run1, w1) => (some f, run1, w1)
  | (none, run1, w1) =>
    match Run.execCommands env run1 runCtx commands w1 with
    | (some f, w2) => (some f, run1, w2)
    | (none, w2) =>
      match Run.finish env run1 runCtx w2 with
      | (res, w3) => (res, run1, w3)

/-- The deferred calls of `Run.Run`, last registered first: close `Stderr`, close `Stdout`
(each only when it is neither nil nor the stream of the process), then `Destroy`.  Returns
what the deferred `Destroy` returned. -/
def Run.deferred (env : RunEnv) (run : Run) (runCtx : RunContext) (w : World) :
    Option String × World :=
  let w1 :=
    match runCtx.Stderr with
    | some err => if err ≠ Writer.osStderr then w.call (.Close err) else w
    | none => w
  let w2 :=
    match runCtx.Stdout with
    | some out => if out ≠ Writer.osStdout then w1.call (.Close out) else w1
    | none => w1
  Run.Destroy env run w2

/-- The outcome of `Run.Run`: the returned error (`none` is `nil`) or the way the call
stopped, the receiver and the outside world afterwards, and what the deferred `Destroy`
returned, which Go drops (`none` when the deferred calls did not run). -/
structure RunResult where
  err : Option Failure
  run : Run
  world : World
  teardown : Option (Option String)
deriving Repr, DecidableEq

/-- Method `Run.Run`. -/
def Run.Run (env : RunEnv) (run : Run) (runCtx : RunContext) (commands : List String)
    (w : World) : RunResult :=
  match Run.Destroy env run w with
  | (some err, w1) => { err := some (.error err), run := run, world := w1, teardown := none }
  | (none, w1) =>
    match Run.body env run runCtx commands w1 with
    | (some .deadlock, run1, w2) =>
      { err := some .deadlock, run := run1, world := w2, teardown := none }
    | (res, run1, w2) =>
      match Run.deferred env run1 runCtx w2 with
      | (destroyed, w3) => { err := res, run := run1, world := w3, teardown := some destroyed }

/-- One round of the pull decoder after a line was read: what is sent on the channel. -/
def Run.handleLine (unmarshal : String → Except String ResponseMessage) (line : List Char) :
    List readerNextMessage :=
  match unmarshal (String.mk line) with
  | .error err => [{ Error := some err }]
  | .ok msg =>
    if msg.Error ≠ "" then [{ Error := some msg.Error }]
    else [{ Message := msg }]

/-- The loop of `Run.streamMessagesToChannel`; fuel as for the build/push decoder. -/
def Run.streamLoop (unmarshal : String → Except String ResponseMessage) :
    Nat → List Char → List readerNextMessage
  | 0, _ => []
  | fuel + 1, reader =>
    match ReadString '\n' reader with
    | (_, some ioError.EOF, _) => [{ EOF := true }]
    | (line, none, rest) => Run.handleLine unmarshal line ++ Run.streamLoop unmarshal fuel rest

/-- Method `Run.streamMessagesToChannel`: the messages sent on the channel, in order (the
returned error is always nil). -/
def Run.streamMessagesToChannel (unmarshal : String → Except String ResponseMessage)
    (reader : List Char) : List readerNextMessage :=
  Run.streamLoop unmarshal (reader.length + 1) reader

/-! ## Sample surroundings

Concrete environments and inputs at which the operations are evaluated. -/

/-- A world for `dockerfile.go` in which the file holds `text` and every call succeeds. -/
def BuildEnv.accepting (text : String) : BuildEnv where
  readFile := fun _ _ => .ok text
  imageBuild := fun _ _ => .ok []
  registryFromImageReference := fun _ _ => .ok { AuthHeader := "auth" }
  imagePush := fun _ _ _ => .ok []

/-- JSON line: a build progress record with the field `stream`. -/
def lineStream : String := "\x7b\"stream\":\"Step 1/1 : FROM scratch\"\x7d\n"

/-- JSON line: a build result record with the field `aux.ID`. -/
def lineAuxID : String := "\x7b\"aux\":\x7b\"ID\":\"sha256:1f\"\x7d\x7d\n"

/-- JSON line: a record with the fields `error` and `aux.ID`. -/
def lineErrorAux : String := "\x7b\"error\":\"denied\",\"aux\":\x7b\"ID\":\"sha256:1f\"\x7d\x7d\n"

/-- JSON line: a record with the field `error` only. -/
def lineError : String := "\x7b\"error\":\"denied\"\x7d\n"

/-- What `json.Unmarshal` into a `ResponseMessage` gives on the sample lines; every other
line counts as malformed. -/
def sampleUnmarshal (line : String) : Except String ResponseMessage :=
  if line = lineStream then .ok { Stream := "Step 1/1 : FROM scratch" }
  else if line = lineAuxID then .ok { Aux := { ID := "sha256:1f" } }
  else if line = lineErrorAux then .ok { Error := "denied", Aux := { ID := "sha256:1f" } }
  else if line = lineError then .ok { Error := "denied" }
  else .error "invalid character 'o' looking for beginning of value"

/-- A runtime that reports `paths` as the changed paths of every container; every other
call succeeds. -/
def RunEnv.diffing (paths : List String) : RunEnv := { ContainerDiff := fun _ _ => .ok paths }

/-- The pairs (container path, host path) with which `copyFromContainer` was entered, in
order. -/
def copiedBack : List RunCall → List (String × String)
  | [] => []
  | RunCall.copyFromContainer contPath hostPath :: calls => (contPath, hostPath) :: copiedBack calls
  | _ :: calls => copiedBack calls

/-- The log of `w1` continues the log of `w` with calls that all satisfy `Q`. -/
def World.Extends (Q : RunCall → Prop) (w w1 : World) : Prop :=
  ∃ ext, w1.log = w.log ++ ext ∧ ∀ c ∈ ext, Q c

/-- The calls that start a command in a container. -/
def RunCall.isExec : RunCall → Bool
  | .ContainerExecCreate _ _ => true
  | .InteractiveExec _ => true
  | _ => false

/-- The calls `Destroy` makes per matched container. -/
def RunCall.isRemoval : RunCall → Bool
  | .ContainerStop _ _ => true
  | .ContainerKill _ _ => true
  | .ContainerRemove _ _ _ => true
  | _ => false

/-- A container carries the label `AtlasBuildContainerID` with the value `runID`. -/
def Container.labelled (c : Container) (runID : String) : Bool :=
  mapGet c.Labels ContainersLabelName = some runID

/-- A runtime whose `ContainerList` fails; every other call succeeds. -/
def RunEnv.listFails : RunEnv := { ContainerList := fun _ => some "cannot connect to the Docker daemon" }

/-- A runtime whose `ContainerRemove` fails; every other call succeeds. -/
def RunEnv.removeFails : RunEnv :=
  { ContainerRemove := fun _ _ => some "removal of container is already in progress" }

/-- A scheduler under which every task of `Destroy` reads the loop variable when the loop
has moved on by one round, or has ended. -/
def RunEnv.lateTasks : RunEnv := { rangeVar := fun _ _ => 1 }

/-- A runtime in which the command `false` exits with a non-zero code; every other call
succeeds. -/
def RunEnv.falseFails : RunEnv :=
  { InteractiveExec := fun _ cfg =>
      if cfg.ExecConfig.Cmd = ["/bin/sh", "-c", "false"] then some "exit code 1" else none }

/-- A run of the image `alpine` with the run id "r1" and no volumes. -/
def sampleRun : Run := { RunID := "r1", Reference := "alpine" }

/-- The sample run once its container "c0" is created. -/
def sampleRunStarted : Run := { RunID := "r1", Reference := "alpine", containerID := "c0" }

/-- The world after the initial `Destroy` of the sample run, started in the empty world
with the runtime `RunEnv.falseFails`. -/
def sampleWorldSwept : World := (Run.Destroy RunEnv.falseFails sampleRun {}).2

/-- The world after the container of the sample run is prepared. -/
def sampleWorldPrepared : World :=
  (Run.prepare RunEnv.falseFails sampleRun {} sampleWorldSwept).2.2

/-- The world after the command `true` ran in the container of the sample run. -/
def sampleWorldTrue : World :=
  (Run.execCommands RunEnv.falseFails sampleRunStarted {} ["true"] sampleWorldPrepared).2

/-- The world after the command `false` failed in the container of the sample run. -/
def sampleWorldFalse : World :=
  (Run.execSingleCommand RunEnv.falseFails {} "c0" "false" false sampleWorldTrue).2

/-- JSON line: a push result record with the fields `aux.Tag`, `aux.Digest` and
`aux.Size`. -/
def linePushed : String :=
  "\x7b\"aux\":\x7b\"Tag\":\"blah1\",\"Digest\":\"sha256:aa\",\"Size\":527\x7d\x7d\n"

/-- JSON line: a record with the fields `aux.ID`, `aux.Tag`, `aux.Digest` and `aux.Size`. -/
def linePushedWithID : String :=
  "\x7b\"aux\":\x7b\"ID\":\"sha256:1f\",\"Tag\":\"blah1\",\"Digest\":\"sha256:aa\",\"Size\":527\x7d\x7d\n"

/-- What `json.Unmarshal` into a `ResponseMessage` gives on the sample lines of a push;
every other line counts as malformed. -/
def samplePushUnmarshal (line : String) : Except String ResponseMessage :=
  if line = linePushed then
    .ok { Aux := { Tag := "blah1", Digest := "sha256:aa", Size := 527 } }
  else if line = linePushedWithID then
    .ok { Aux := { ID := "sha256:1f", Tag := "blah1", Digest := "sha256:aa", Size := 527 } }
  else .error "invalid character 'o' looking for beginning of value"

/-- The tag digest a line records, in the words of the claim on `TagDigests`: the line is a
well-formed record with an empty `aux.ID`, a non-empty `aux.Digest` and a non-empty
`aux.Tag`. -/
def recordedDigest (unmarshal : String → Except String ResponseMessage) (line : List Char) :
    Option TagDigest :=
  match unmarshal (String.mk line) with
  | .error _ => none
  | .ok msg =>
    if msg.Aux.ID = "" ∧ msg.Aux.Digest ≠ "" ∧ msg.Aux.Tag ≠ "" then
      some { Tag := msg.Aux.Tag, Digest := msg.Aux.Digest, Size := msg.Aux.Size }
    else none

/-- A runtime in which the command `false` exits with a non-zero code and containers cannot
be removed; every other call succeeds. -/
def RunEnv.falseFailsRemoveFails : RunEnv :=
  { InteractiveExec := fun _ cfg =>
      if cfg.ExecConfig.Cmd = ["/bin/sh", "-c", "false"] then some "exit code 1" else none
    ContainerRemove := fun _ _ => some "removal of container is already in progress" }

/-- The calls of the steps of a run other than `Destroy`, the creation of the container
and the copy-out: every call except the entries of `Destroy` and `copyFromContainer`,
`ContainerList`, the removal calls and `ContainerCreate`. -/
def RunCall.isPlain : RunCall → Bool
  | .Destroy => false
  | .copyFromContainer _ _ => false
  | .ContainerList => false
  | .ContainerStop _ _ => false
  | .ContainerKill _ _ => false
  | .ContainerRemove _ _ _ => false
  | .ContainerCreate _ _ _ => false
  | _ => true

/-- A run with one read-only and one read-write volume. -/
def sampleRunWithVolumes : Run :=
  { RunID := "r1"
    Reference := "alpine"
    Volumes := [{ HostPath := "/src", ContPath := "/test", Mode := "ro" },
      { HostPath := "/out", ContPath := "/tmp/out", Mode := "rw" }] }

/-! ## Go standard library: `encoding/base64` and more of `strings`

A Go string is a sequence of bytes; here a character stands for the byte with its code. -/

/-- The alphabet of `base64.StdEncoding`. -/
def base64Std : List Char :=
  "ABCDEFGHIJKLMNOPQRSTUVWXYZabcdefghijklmnopqrstuvwxyz0123456789+/".data

/-- The alphabet of `base64.URLEncoding`. -/
def base64URL : List Char :=
  "ABCDEFGHIJKLMNOPQRSTUVWXYZabcdefghijklmnopqrstuvwxyz0123456789-_".data

/-- Go `Encoding.EncodeToString` on bytes, with `=` padding. -/
def base64EncodeL (alphabet : List Char) : List Nat → List Char
  | [] => []
  | [a] =>
    [alphabet.getD (a / 4) '=', alphabet.getD (a % 4 * 16) '=', '=', '=']
  | [a, b] =>
    [alphabet.getD (a / 4) '=', alphabet.getD (a % 4 * 16 + b / 16) '=',
      alphabet.getD (b % 16 * 4) '=', '=']
  | a :: b :: c :: rest =>
    alphabet.getD (a / 4) '=' :: alphabet.getD (a % 4 * 16 + b / 16) '=' ::
      alphabet.getD (b % 16 * 4 + c / 64) '=' :: alphabet.getD (c % 64) '=' ::
      base64EncodeL alphabet rest

/-- Go `Encoding.EncodeToString` on a string. -/
def base64Encode (alphabet : List Char) (s : String) : String :=
  String.mk (base64EncodeL alphabet (s.data.map (fun c => c.toNat % 256)))

/-- The error of `Encoding.DecodeString` (`base64.CorruptInputError`). -/
def corruptInputError (offset : Nat) : String :=
  "illegal base64 data at input byte " ++ toString offset

/-- The loop of `Encoding.DecodeString` (padded, not strict) over the input without its
line breaks, each byte paired with its offset; `total` is the length of the input.  A
quantum of four digits gives three bytes; padding is accepted in the last quantum only. -/
def base64DecodeLoop (alphabet : List Char) (total : Nat) :
    Nat → List (Nat × Char) → Except String (List Nat)
  | 0, _ => .ok []
  | _ + 1, [] => .ok []
  | fuel + 1, (i0, c0) :: rest0 =>
    match alphabet.indexOf? c0 with
    | none => .error (corruptInputError i0)
    | some v0 =>
      match rest0 with
      | [] => .error (corruptInputError (total - 1))
      | (i1, c1) :: rest1 =>
        match alphabet.indexOf? c1 with
        | none => .error (corruptInputError i1)
        | some v1 =>
          match rest1 with
          | [] => .error (corruptInputError (total - 2))
          | (i2, c2) :: rest2 =>
            if c2 = '=' then
              match rest2 with
              | [] => .error (corruptInputError total)
              | (i3, c3) :: rest3 =>
                if c3 ≠ '=' then .error (corruptInputError i3)
                else
                  match rest3 with
                  | [] => .ok [(v0 * 4 + v1 / 16) % 256]
                  | (i4, _) :: _ => .error (corruptInputError i4)
            else
              match alphabet.indexOf? c2 with
              | none => .error (corruptInputError i2)
              | some v2 =>
                match rest2 with
                | [] => .error (corruptInputError (total - 3))
                | (i3, c3) :: rest3 =>
                  if c3 = '=' then
                    match rest3 with
                    | [] => .ok [(v0 * 4 + v1 / 16) % 256, (v1 * 16 + v2 / 4) % 256]
                    | (i4, _) :: _ => .error (corruptInputError i4)
                  else
                    match alphabet.indexOf? c3 with
                    | none => .error (corruptInputError i3)
                    | some v3 =>
                      match base64DecodeLoop alphabet total fuel rest3 with
                      | .error err => .error err
                      | .ok bytes =>
                        .ok ((v0 * 4 + v1 / 16) % 256 :: (v1 * 16 + v2 / 4) % 256 ::
                          (v2 * 64 + v3) % 256 :: bytes)

/-- Go `Encoding.DecodeString`: line breaks are skipped. -/
def base64Decode (alphabet : List Char) (s : String) : Except String String :=
  let input := (s.data.enum.filter (fun p => p.2 ≠ '\n' ∧ p.2 ≠ '\r'))
  match base64DecodeLoop alphabet s.data.length (s.data.length + 1) input with
  | .error err => .error err
  | .ok bytes => .ok (String.mk (bytes.map Char.ofNat))

/-- Go `strings.Split(s, sep)` for a separator of one byte, on byte lists: the pieces
between the separators, at least one. -/
def splitL (sep : Char) : List Char → List (List Char)
  | [] => [[]]
  | c :: cs =>
    if c = sep then [] :: splitL sep cs
    else
      match splitL sep cs with
      | [] => [[c]]
      | piece :: pieces => (c :: piece) :: pieces

/-- Go `strings.Split(s, sep)` for a separator of one byte. -/
def Split (s : String) (sep : Char) : List String := (splitL sep s.data).map String.mk

/-- Go `strings.Replace(s, old, "", 1)` on byte lists: the first occurrence of a non-empty
`old` is taken out. -/
def removeFirstL (old : List Char) : List Char → List Char
  | [] => []
  | c :: cs =>
    if hasPrefixL (c :: cs) old then (c :: cs).drop old.length
    else c :: removeFirstL old cs

/-- Go `strings.Replace(s, old, "", 1)` for a non-empty `old`. -/
def RemoveFirst (s old : String) : String := String.mk (removeFirstL old.data s.data)

/-! ## `docker_registry.go` -/

/-- Type `Image`. -/
structure Image where
  Reference : String := ""
  Name : String := ""
  Digest : String := ""
deriving Repr, DecidableEq

/-- The auth configuration of the runtime (`types.AuthConfig`), with the fields the
resolver sets; its other fields keep their zero value. -/
structure AuthConfig where
  Username : String := ""
  Password : String := ""
  RegistryToken : String := ""
deriving Repr, DecidableEq

/-- A parsed reference (`name.Reference`), as far as it is used: the text of
`ref.Context()`, the text of `ref.Context().RegistryStr()` and the text of the reference
itself. -/
structure ParsedReference where
  Context : String
  RegistryStr : String
  Text : String
deriving Repr, DecidableEq

/-- The calls `docker_registry.go` makes to other packages.  `remoteImage` is the one that
goes to the network. -/
inductive RegistryCall where
  | ParseReference (reference : String)
  | Resolve (registry : String)
  | Authorization
  | remoteImage (reference : String)
  | Digest
deriving Repr, DecidableEq

/-- What the other packages answer to `docker_registry.go`: the reference parser
(`name.ParseReference` with weak validation), the credential store (`Resolve` gives, per
registry, the outcome of `Authorization()` of the credentials found), the registry
(`remote.Image` gives, per reference, the outcome of `Digest()` of the image found),
`json.Marshal` on an auth configuration, and the verb `%q` of `fmt`. -/
structure RegistryEnv where
  ParseReference : String → Except String ParsedReference
  Resolve : String → Except String (Except String String)
  remoteImage : String → Except String (Except String String) := fun _ => .error "not found"
  Marshal : AuthConfig → Except String String
  Quote : String → String := fun s => "\"" ++ s ++ "\""

/-- Function `ImageFromReference`: the image name of a full reference. -/
def ImageFromReference (env : RegistryEnv) (reference : String) (log : List RegistryCall) :
    (String × Option String) × List RegistryCall :=
  match env.ParseReference reference with
  | .error err =>
    (("", some ("parsing reference " ++ env.Quote reference ++ ": " ++ err)),
      log ++ [.ParseReference reference])
  | .ok ref => ((ref.Context, none), log ++ [.ParseReference reference])

/-- Function `ResolveDockerImageReference`: parses the reference and asks the registry for
the digest of the image. -/
def ResolveDockerImageReference (env : RegistryEnv) (reference : String)
    (log : List RegistryCall) : Except String Image × List RegistryCall :=
  match env.ParseReference reference with
  | .error err =>
    (.error ("parsing reference " ++ env.Quote reference ++ ": " ++ err),
      log ++ [.ParseReference reference])
  | .ok ref =>
    match env.remoteImage ref.Text with
    | .error err =>
      (.error ("reading image " ++ env.Quote ref.Text ++ ": " ++ err),
        log ++ [.ParseReference reference, .remoteImage ref.Text])
    | .ok img =>
      match img with
      | .error err =>
        (.error ("gettig image hash " ++ env.Quote ref.Text ++ ": " ++ err),
          log ++ [.ParseReference reference, .remoteImage ref.Text, .Digest])
      | .ok hash =>
        (.ok { Reference := ref.Context ++ "@" ++ hash, Name := ref.Context, Digest := hash },
          log ++ [.ParseReference reference, .remoteImage ref.Text, .Digest])

/-- Function `encodeDockerAuthHeader`. -/
def encodeDockerAuthHeader (env : RegistryEnv) (authConfig : AuthConfig) :
    Except String String :=
  match env.Marshal authConfig with
  | .error err => .error err
  | .ok encodedJSON => .ok (base64Encode base64URL encodedJSON)

/-- The auth configuration `RegistryFromImageReference` derives from the authorization
header of the credentials.  A `Basic` payload is decoded and split at its colons; the
second piece is read without a check that it is there. -/
def authConfigFromHeader (env : RegistryEnv) (registryStr : String) (authHeader : String) :
    Except Failure AuthConfig :=
  if HasPrefix authHeader "Basic " then
    let authHeader := RemoveFirst authHeader "Basic "
    match base64Decode base64URL authHeader with
    | .error err =>
      .error (.error ("failed to decode Basic auth header values for repo " ++
        env.Quote registryStr ++ ": " ++ err))
    | .ok userPassBytes =>
      match Split userPassBytes ':' with
      | user :: pass :: _ => .ok { Username := user, Password := pass }
      | _ => .error (.panic "index out of range [1] with length 1")
  else .ok { RegistryToken := authHeader }

/-- Function `RegistryFromImageReference`.  `.error (.error e)` is the Go result
`(nil, e)`. -/
def RegistryFromImageReference (env : RegistryEnv) (reference : String)
    (log : List RegistryCall) : Except Failure Registry × List RegistryCall :=
  match env.ParseReference reference with
  | .error err =>
    (.error (.error ("parsing reference " ++ env.Quote reference ++ ": " ++ err)),
      log ++ [.ParseReference reference])
  | .ok ref =>
    let log1 := log ++ [.ParseReference reference, .Resolve ref.RegistryStr]
    match env.Resolve ref.RegistryStr with
    | .error err =>
      (.error (.error ("failed to get valid creds for registry " ++
        env.Quote ref.RegistryStr ++ ": " ++ err)), log1)
    | .ok creds =>
      match creds with
      | .error err =>
        (.error (.error ("failed to get auth from creds for registry " ++
          env.Quote ref.RegistryStr ++ ": " ++ err)), log1 ++ [.Authorization])
      | .ok authHeader =>
        match authConfigFromHeader env ref.RegistryStr authHeader with
        | .error f => (.error f, log1 ++ [.Authorization])
        | .ok authConfig =>
          match encodeDockerAuthHeader env authConfig with
          | .error err => (.error (.error err), log1 ++ [.Authorization])
          | .ok token => (.ok { AuthHeader := token }, log1 ++ [.Authorization])

/-- One member of a JSON object, left out when the value is empty (`omitempty`). -/
def jsonMember (name value : String) : List String :=
  if value = "" then [] else ["\"" ++ name ++ "\":\"" ++ value ++ "\""]

/-- What `json.Marshal` gives on an auth configuration whose fields hold no byte that JSON
escapes. -/
def sampleMarshal (authConfig : AuthConfig) : Except String String :=
  .ok ("\x7b" ++ ",".intercalate (jsonMember "username" authConfig.Username ++
    jsonMember "password" authConfig.Password ++
    jsonMember "registrytoken" authConfig.RegistryToken) ++ "\x7d")

/-- What `name.ParseReference` gives on the references of the tests of the package, as
those tests state it (`docker_registry_test.go`); other strings count as unparsable
here. -/
def sampleParseReference (reference : String) : Except String ParsedReference :=
  if reference = "docker.atl-paas.net/deng/test/ok:blah1" then
    .ok { Context := "docker.atl-paas.net/deng/test/ok", RegistryStr := "docker.atl-paas.net",
          Text := "docker.atl-paas.net/deng/test/ok:blah1" }
  else if reference =
      "ubuntu@sha256:de774a3145f7ca4f0bd144c7d4ffb2931e06634f11529653b23eba85aef8e378" then
    .ok { Context := "index.docker.io/library/ubuntu", RegistryStr := "index.docker.io",
          Text := "index.docker.io/library/ubuntu@sha256:de774a3145f7ca4f0bd144c7d4ffb2931e06634f11529653b23eba85aef8e378" }
  else .error "could not parse reference"

/-- A world for `docker_registry.go` in which the credential store answers every registry
with the authorization header `authHeader`. -/
def RegistryEnv.withHeader (authHeader : String) : RegistryEnv where
  ParseReference := sampleParseReference
  Resolve := fun _ => .ok (.ok authHeader)
  Marshal := sampleMarshal

end Docker

namespace Util

/-! ## `pkg/util/map.go` -/

/-- A Go `interface{}` value as `getValPart` tells them apart: the nil interface, the three
map types and the slice type its type switch names, and values of every other type, among
them the maps with string keys of every other type (`map[string]int`,
`map[string]map[string]string`, ...), given by the name of the type and the bindings.  A
map is its list of bindings (a nil map reads as the empty one). -/
inductive Value where
  | nil
  | string (s : String)
  | int (i : Int)
  | bool (b : Bool)
  | mapMap (m : List (String × List (String × Value)))
  | mapString (m : List (String × String))
  | map (m : List (String × Value))
  | array (a : List Value)
  | mapOther (typeName : String) (m : List (String × Value))
  | other (typeName text : String)
deriving Repr

/-- The parts of Go's formatting that `getValPart` uses in its messages: the verb `%v` of
`fmt` and `strconv.Quote`. -/
structure Fmt where
  v : Value → String
  quote : String → String

/-- How a call ends: it returns `(res, err)`, or the Go run time stops it with a panic. -/
inductive Outcome where
  | returns (res : Value) (err : Option String)
  | panics (text : String)
deriving Repr

/-- Go `strconv.ParseInt(s, 10, 64)`: an optional sign and decimal digits, within the range
of `int64`; the error is the text of the `*NumError`. -/
def ParseInt (fmt : Fmt) (s : String) : Except String Int :=
  let neg : Bool := s.data.head? = some '-'
  let body : List Char :=
    match s.data with
    | '+' :: cs => cs
    | '-' :: cs => cs
    | cs => cs
  if body = [] ∨ body.all Char.isDigit = false then
    .error ("strconv.ParseInt: parsing " ++ fmt.quote s ++ ": invalid syntax")
  else
    let un : Nat := body.foldl (fun n c => 10 * n + (c.toNat - 48)) 0
    if (neg = false ∧ 2 ^ 63 ≤ un) ∨ (neg = true ∧ 2 ^ 63 < un) then
      .error ("strconv.ParseInt: parsing " ++ fmt.quote s ++ ": value out of range")
    else .ok (if neg then - (un : Int) else (un : Int))

/-- The message of a lookup that finds no binding. -/
def keyNotPresent (key overallKey : String) : String :=
  "key not present. [key:" ++ key ++ "] of [path:" ++ overallKey ++ "]"

/-- `getValPart`: one step of the path, by the dynamic type of `value`. A missing key leaves
`res` at the zero value of the map's element type. `int` has 64 bits. -/
def getValPart (fmt : Fmt) (key : String) (value : Value) (overallKey : String) : Outcome :=
  match value with
  | .mapMap m =>
    match Docker.mapGet m key with
    | some inner => .returns (.map inner) none
    | none => .returns (.map []) (some (keyNotPresent key overallKey))
  | .mapString m =>
    match Docker.mapGet m key with
    | some s => .returns (.string s) none
    | none => .returns (.string "") (some (keyNotPresent key overallKey))
  | .map m =>
    match Docker.mapGet m key with
    | some v => .returns v none
    | none => .returns .nil (some (keyNotPresent key overallKey))
  | .array array =>
    match ParseInt fmt key with
    | .error err => .returns .nil (some err)
    | .ok i =>
      if i < (array.length : Int) then
        if i < 0 then .panics ("runtime error: index out of range [" ++ toString i ++ "]")
        else
          match array.get? i.toNat with
          | some res => .returns res none
          | none => .panics ("runtime error: index out of range [" ++ toString i ++ "]")
      else
        .returns .nil (some ("index out of bounds. [index:" ++ toString i ++ "] [array:" ++
          fmt.v (.array array) ++ "] of [path:" ++ overallKey ++ "]"))
  | value =>
    .returns .nil (some ("unsupported value type for key [key:" ++ key ++ "] of [path:" ++
      overallKey ++ "] [value:" ++ fmt.v value ++ "]"))

/-- The loop of `GetValue` over the segments that are left. -/
def getValueLoop (fmt : Fmt) (overallKey : String) : List String → Value → Outcome
  | [], value => .returns value none
  | key :: keys, value =>
    match getValPart fmt key value overallKey with
    | .panics text => .panics text
    | .returns value (some err) => .returns value (some err)
    | .returns value none => getValueLoop fmt overallKey keys value

/-- `GetValue`: the nil object gives nil; any other object is walked along the segments of
`key` between the dots. -/
def GetValue (fmt : Fmt) (key : String) (value : Value) : Outcome :=
  match value with
  | .nil => .returns .nil none
  | value => getValueLoop fmt key (Docker.Split key '.') value

/-! ## Paths and lookups, stated apart from the code -/

/-- The dotted path `k1.k2.….kn` of a list of keys. -/
def dotted (keys : List String) : String :=
  String.mk (List.intercalate ['.'] (keys.map String.data))

/-- One lookup in a map with string keys, of whatever type; no other value has keys. -/
def lookup (value : Value) (key : String) : Option Value :=
  match value with
  | .mapMap m => (Docker.mapGet m key).map Value.map
  | .mapString m => (Docker.mapGet m key).map Value.string
  | .map m => Docker.mapGet m key
  | .mapOther _ m => Docker.mapGet m key
  | _ => none

/-- Successive lookups, each in the value the one before reached. -/
def lookupAll : Value → List String → Option Value
  | value, [] => some value
  | value, key :: keys => (lookup value key).bind (fun v => lookupAll v keys)

/-- A map with string keys, of whatever type. -/
def Value.isMap : Value → Bool
  | .mapMap _ => true
  | .mapString _ => true
  | .map _ => true
  | .mapOther _ _ => true
  | _ => false

/-- A value of one of the three map types that the type switch of `getValPart` names. -/
def Value.inTypeSwitch : Value → Bool
  | .mapMap _ => true
  | .mapString _ => true
  | .map _ => true
  | _ => false

/-- Every level in which a key of the list is looked up, as long as the lookups succeed, is
of one of the three map types of the type switch. -/
def walked : Value → List String → Bool
  | _, [] => true
  | value, key :: keys =>
    value.inTypeSwitch &&
      match lookup value key with
      | some v => walked v keys
      | none => true

/-- What `getValPart` leaves in `res` when the key is missing: the zero value of the
element type of the map. -/
def Value.zeroElement : Value → Value
  | .mapMap _ => .map []
  | .mapString _ => .string ""
  | _ => .nil

/-- Formatting that prints a string, an integer, an empty map and a map with one integer
binding as the verb `%v` does and nothing for any other value, and quotes with plain double
quotes. -/
def sampleFmt : Fmt :=
  ⟨fun value =>
      match value with
      | .string s => s
      | .int i => toString i
      | .map [] => "map[]"
      | .mapOther _ [] => "map[]"
      | .mapOther _ [(k, .int i)] => "map[" ++ k ++ ":" ++ toString i ++ "]"
      | _ => "",
    fun s => "\"" ++ s ++ "\""⟩

/-- The object of `TestGetDeepValues`. -/
def sampleObject : Value :=
  .map [("a", .map [("b", .map [
    ("str", .mapString [("val", "val")]),
    ("c", .map [("d", .int 10), ("e", .string "string"), ("f", .mapString [("a", "foobar")])])])])]

end Util

namespace Git

/-! ## `pkg/git/git.go` -/

/-- A repository as `go-git` opens it: the error of `r.Worktree()`, if any, and what
`r.ResolveRevision` answers, a hash being given by its `String()`. -/
structure Repository where
  Worktree : Option String := none
  ResolveRevision : String → Except String String

/-- The file system as `git.PlainOpen` sees it. -/
structure GitEnv where
  PlainOpen : String → Except String Repository

/-- Type `GitImpl`. -/
structure GitImpl where
  RootPath : String := ""
  Author : String := ""
  Branch : String := ""
  Remote : String := ""
deriving Repr, DecidableEq

/-- Method `GitImpl.gitWorkTree`; only the repository is kept of its result. -/
def GitImpl.gitWorkTree (env : GitEnv) (ctx : GitImpl) : Except String Repository :=
  match env.PlainOpen ctx.RootPath with
  | .error err => .error err
  | .ok r =>
    match r.Worktree with
    | some err => .error err
    | none => .ok r

/-- Method `GitImpl.Hash`: the pair `(hash, err)`. -/
def GitImpl.Hash (env : GitEnv) (ctx : GitImpl) : String × Option String :=
  match ctx.gitWorkTree env with
  | .error err => ("", some err)
  | .ok r =>
    match r.ResolveRevision "HEAD" with
    | .error err =>
      ("", some ("unable to resolve latest git commit hash for repository: " ++ err))
    | .ok plumbingHash => (plumbingHash, none)

/-- Method `GitImpl.HashShort`: `hash[:7]` with the error of `Hash`; `.error` is the panic of
the run time when the slice bound is beyond the length of `hash`. -/
def GitImpl.HashShort (env : GitEnv) (ctx : GitImpl) : Except String (String × Option String) :=
  let (hash, e) := ctx.Hash env
  if 7 ≤ hash.data.length then .ok (String.mk (hash.data.take 7), e)
  else
    .error ("runtime error: slice bounds out of range [:7] with length " ++
      toString hash.data.length)

/-- A file system without a repository. -/
def GitEnv.noRepository : GitEnv :=
  ⟨fun _ => .error "repository does not exist"⟩

/-- A file system in which every path opens a repository whose `HEAD` is the commit
`hash`. -/
def GitEnv.withHead (hash : String) : GitEnv :=
  ⟨fun _ => .ok { ResolveRevision := fun _ => .ok hash }⟩

end Git

namespace Build

/-! ## `pkg/build`: platforms -/

/-- Type `Platform`. -/
structure Platform where
  GOOS : String := ""
  GOARCH : String := ""
deriving Repr, DecidableEq

/-- The fields of type `Context` that `ActivePlatforms` reads. -/
structure Context where
  Platforms : List Platform := []
  FilterPlatforms : String := ""
deriving Repr, DecidableEq

/-- The condition `platformParts[0] == platform.GOOS && platformParts[1] == platform.GOARCH`
of `ActivePlatforms`: the second piece is read only when the first one is the `GOOS`, and
reading it fails when the entry has one piece. -/
def platformMatches (usePlatform : String) (platform : Platform) : Except String Bool :=
  match Docker.Split usePlatform ':' with
  | [] => .error "runtime error: index out of range [0] with length 0"
  | [first] =>
    if first = platform.GOOS then .error "runtime error: index out of range [1] with length 1"
    else .ok false
  | first :: second :: _ =>
    if first = platform.GOOS then .ok (decide (second = platform.GOARCH)) else .ok false

/-- The inner loop of `ActivePlatforms`, over the filter entries. -/
def activeInner (platform : Platform) : List String → List Platform →
    Except String (List Platform)
  | [], res => .ok res
  | usePlatform :: usePlatforms, res =>
    match platformMatches usePlatform platform with
    | .error text => .error text
    | .ok true => activeInner platform usePlatforms (res ++ [platform])
    | .ok false => activeInner platform usePlatforms res

/-- The outer loop of `ActivePlatforms`, over the configured platforms. -/
def activeOuter (usePlatforms : List String) : List Platform → List Platform →
    Except String (List Platform)
  | [], res => .ok res
  | platform :: platforms, res =>
    match activeInner platform usePlatforms res with
    | .error text => .error text
    | .ok res => activeOuter usePlatforms platforms res

/-- What `fmt.Println("Active platforms: ", res)` writes. -/
def activePlatformsLine (res : List Platform) : String :=
  "Active platforms:  [" ++
    " ".intercalate (res.map (fun p => "\x7b" ++ p.GOOS ++ " " ++ p.GOARCH ++ "\x7d")) ++ "]\n"

/-- Method `Context.ActivePlatforms`: the platforms returned and the text written to the
standard output; `.error` is a panic of the run time. -/
def Context.ActivePlatforms (ctx : Context) : Except String (List Platform × String) :=
  if ctx.FilterPlatforms = "-" then .ok (ctx.Platforms, "")
  else
    match activeOuter (Docker.Split ctx.FilterPlatforms ',') ctx.Platforms [] with
    | .error text => .error text
    | .ok res => .ok (res, activePlatformsLine res)

/-- Variable `GoBuildEnv` as the package sets it up, for the `GOPATH` of `go/build`. -/
def GoBuildEnv (GOPATH : String) : List String := ["GOPATH=" ++ GOPATH]

/-- Method `Platform.GoEnv`, for the value of the variable `GoBuildEnv`: `make` gives a
slice of `len(GoBuildEnv)+2` empty strings, to which the entries are appended. -/
def Platform.GoEnv (goBuildEnv : List String) (platform : Platform) : List String :=
  let res := List.replicate (goBuildEnv.length + 2) ""
  let res := goBuildEnv.foldl (fun res env => res ++ [env]) res
  let res := res ++ ["GOOS=" ++ platform.GOOS]
  res ++ ["GOARCH=" ++ platform.GOARCH]

end Build

namespace Config

/-! ## `pkg/config/config.go` -/

/-- The value of a struct field, by its type as `setFieldValue` tells them apart: `string`,
`int64`, `bool`, and every other type.  For another type `text` is what `String()` of
`reflect` gives on the field: the contents for a named type whose kind is string, and a
text of the form `<T Value>`, never empty, for every other kind. -/
inductive FieldValue where
  | string (s : String)
  | int64 (i : Int)
  | bool (b : Bool)
  | other (text : String)
deriving Repr, DecidableEq

/-- Method `String` of `reflect.Value`. -/
def FieldValue.String : FieldValue → String
  | .string s => s
  | .int64 _ => "<int64 Value>"
  | .bool _ => "<bool Value>"
  | .other text => text

/-- One field of a config struct as `reflect` shows it: name, struct tag as its list of
`key:"value"` pairs, whether it can be set (it is exported), and its value.  A config
struct is the list of its fields, in the order of declaration. -/
structure StructField where
  Name : String
  Tag : List (String × String) := []
  CanSet : Bool := true
  value : FieldValue
deriving Repr, DecidableEq

/-- Method `Get` of `reflect.StructTag`: the value of the key, the empty string without
it. -/
def StructField.TagGet (field : StructField) (key : String) : String :=
  (Docker.mapGet field.Tag key).getD ""

/-- What is written to the standard output and asked of the console reader. -/
inductive ConsoleCall where
  | Print (text : String)
  | ReadLine
  | ReadPassword
deriving Repr, DecidableEq

/-- Interface `ConsoleReader`: the text each method answers, after the calls so far; the
errors are dropped by `ReadConfig`. -/
structure ConsoleReader where
  ReadLine : List ConsoleCall → String
  ReadPassword : List ConsoleCall → String

/-- Go `strconv.Atoi` where `int` has 64 bits: the integer `ParseInt(s, 10, 64)` gives;
`setFieldValue` does not read the error. -/
def Atoi (s : String) : Option Int :=
  match Util.ParseInt ⟨fun _ => "", fun t => t⟩ s with
  | .ok i => some i
  | .error _ => none

/-- Function `setFieldValue`: the field afterwards and what is printed. -/
def setFieldValue (field : StructField) (valueString : String) :
    StructField × List ConsoleCall :=
  if field.CanSet = false then (field, [])
  else
    match field.value with
    | .string _ => ({ field with value := .string valueString }, [])
    | .int64 _ =>
      match Atoi valueString with
      | none => (field, [.Print ("WARN: '" ++ valueString ++ "' is not integer\n")])
      | some intVal => ({ field with value := .int64 intVal }, [])
    | .bool _ => ({ field with value := .bool (decide (valueString = "true")) }, [])
    | .other _ => (field, [])

/-- Function `getYamlFieldName`. -/
def getYamlFieldName (fieldType : StructField) : String :=
  (Docker.Split (fieldType.TagGet "yaml") ',').headD ""

/-- The test `rawConfig[key] == nil`: the key is absent or bound to the nil interface. -/
def rawIsNil (rawConfig : List (String × Util.Value)) (key : String) : Bool :=
  match Docker.mapGet rawConfig key with
  | none => true
  | some .nil => true
  | some _ => false

/-- The body of the loop of `AddDefaults` for one field. -/
def addDefault (rawConfig : List (String × Util.Value)) (field : StructField) :
    StructField × List ConsoleCall :=
  let yamlTagName := getYamlFieldName field
  let defaultValue := field.TagGet "default"
  if rawIsNil rawConfig yamlTagName = true ∨ yamlTagName = "-" then
    setFieldValue field defaultValue
  else (field, [])

/-- Function `AddDefaults`: the fields afterwards and what is printed. -/
def AddDefaults (rawConfig : List (String × Util.Value)) :
    List StructField → List StructField × List ConsoleCall
  | [] => ([], [])
  | field :: fields =>
    let step := addDefault rawConfig field
    let rest := AddDefaults rawConfig fields
    (step.1 :: rest.1, step.2 ++ rest.2)

/-- Go `os.Getenv` on the environment as a list of bindings: the empty string for a
variable that is not set, and for the empty name. -/
def Getenv (environ : List (String × String)) (key : String) : String :=
  if key = "" then "" else (Docker.mapGet environ key).getD ""

/-- The body of the loop of `AddEnv` for one field. -/
def addEnv (environ : List (String × String)) (field : StructField) :
    StructField × List ConsoleCall :=
  let envVarName := field.TagGet "env"
  let envValue := Getenv environ envVarName
  if envValue ≠ "" then setFieldValue field envValue else (field, [])

/-- Function `AddEnv`: the fields afterwards and what is printed. -/
def AddEnv (environ : List (String × String)) :
    List StructField → List StructField × List ConsoleCall
  | [] => ([], [])
  | field :: fields =>
    let step := addEnv environ field
    let rest := AddEnv environ fields
    (step.1 :: rest.1, step.2 ++ rest.2)

/-- Function `DefaultConfig`. -/
def DefaultConfig (cfgObj : List StructField) : List StructField × List ConsoleCall :=
  AddDefaults [] cfgObj

/-- The condition under which `ReadConfig` asks for a field. -/
def asked (field : StructField) : Bool :=
  decide (field.value.String.data.length = 0) && field.CanSet

/-- The text the reader answers for a field, after the calls `log`. -/
def answer (reader : ConsoleReader) (field : StructField) (log : List ConsoleCall) : String :=
  if field.Name = "Password" then reader.ReadPassword log else reader.ReadLine log

/-- The call that asks for a field. -/
def readCall (field : StructField) : ConsoleCall :=
  if field.Name = "Password" then .ReadPassword else .ReadLine

/-- The prompt `ReadConfig` prints for a field. -/
def prompt (field : StructField) : String :=
  "Enter " ++ field.Name ++ " [" ++ field.value.String ++ "]: "

/-- The body of the loop of `ReadConfig` for one field: the field afterwards and the calls
so far. -/
def readField (reader : ConsoleReader) (field : StructField) (log : List ConsoleCall) :
    StructField × List ConsoleCall :=
  if asked field = true then
    let log1 := log ++ [.Print (prompt field)]
    let text := answer reader field log1
    let log2 := log1 ++ [readCall field]
    if 0 < text.data.length ∧ text ≠ "\n" then
      let step := setFieldValue field text
      (step.1, log2 ++ step.2)
    else (field, log2)
  else (field, log)

/-- Function `ReadConfig`: the fields afterwards and the calls so far. -/
def ReadConfig (reader : ConsoleReader) :
    List StructField → List ConsoleCall → List StructField × List ConsoleCall
  | [], log => ([], log)
  | field :: fields, log =>
    let step := readField reader field log
    let rest := ReadConfig reader fields step.2
    (step.1 :: rest.1, rest.2)

/-- The calls that ask the reader. -/
def ConsoleCall.isRead : ConsoleCall → Bool
  | .Print _ => false
  | _ => true

/-! ## Sample config structs -/

/-- Field `OutDir` of the struct `TestConfig` of `config_test.go`. -/
def outDirField (v : String) : StructField :=
  ⟨"OutDir", [("yaml", "outDir,omitempty"), ("env", "OUT_DIR"), ("default", "bin")], true,
    .string v⟩

/-- Field `Version` of `TestConfig`. -/
def versionField (v : String) : StructField :=
  ⟨"Version", [("yaml", "version,omitempty"), ("env", "VERSION"), ("default", "")], true,
    .string v⟩

/-- Field `ArmoryURL` of `TestConfig`. -/
def armoryURLField (v : String) : StructField :=
  ⟨"ArmoryURL", [("yaml", "armoryURL,omitempty"), ("env", "ARMORY_URL"),
    ("default", "https://armory.prod.atl-paas.net")], true, .string v⟩

/-- Field `TrebuchetURL` of `TestConfig`. -/
def trebuchetURLField (v : String) : StructField :=
  ⟨"TrebuchetURL", [("yaml", "trebuchetURL,omitempty"), ("env", "TREBUCHET_URL"),
    ("default", "https://trebuchet.prod.atl-paas.net")], true, .string v⟩

/-- Field `IsParallel` of `TestConfig`. -/
def isParallelField (v : Bool) : StructField :=
  ⟨"IsParallel", [("yaml", "-"), ("default", "true"), ("env", "PARALLEL")], true, .bool v⟩

/-- Field `IsSkipTests` of `TestConfig`. -/
def isSkipTestsField (v : String) : StructField :=
  ⟨"IsSkipTests", [("yaml", "-"), ("default", "false"), ("env", "SKIP_TESTS")], true,
    .string v⟩

/-- The struct `TestConfig` of `config_test.go`, with the given values of its four leading
string fields and of `IsParallel` and `IsSkipTests`; the two slices are told by their type
only, and the last two fields are not exported. -/
def TestConfig (OutDir Version ArmoryURL TrebuchetURL : String) (IsParallel : Bool)
    (IsSkipTests : String) : List StructField :=
  [outDirField OutDir, versionField Version, armoryURLField ArmoryURL,
   trebuchetURLField TrebuchetURL,
   ⟨"Platforms", [("yaml", "platforms,omitempty")], true,
      .other "<[]config_test.Platform Value>"⟩,
   ⟨"Targets", [("yaml", "targets,omitempty")], true, .other "<[]config_test.Target Value>"⟩,
   isParallelField IsParallel, isSkipTestsField IsSkipTests,
   ⟨"configFilePath", [], false, .string ""⟩,
   ⟨"initialized", [], false, .bool false⟩]

/-- A reader that answers every call with the same text, as the mocked reader of the
tests. -/
def ConsoleReader.always (text : String) : ConsoleReader := ⟨fun _ => text, fun _ => text⟩

/-- A struct with a port of type `int64` and a mode of a named string type. -/
def sampleServerConfig (Port : Int) (Mode : String) : List StructField :=
  [⟨"Port", [("yaml", "port"), ("env", "PORT"), ("default", "http")], true, .int64 Port⟩,
   ⟨"Mode", [("yaml", "mode"), ("env", "MODE"), ("default", "fast")], true, .other Mode⟩]

end Config

namespace Docker

/-! # Properties -/


/-! ## Push and Build -/

/-- C1. With an empty tag list `Push` returns the error "no tags provided, hence could not
push image" and no reader, and makes no call at all: the log of calls to the runtime, to the
credential lookup and of started decoder tasks is left as it was. -/
theorem Push_without_tags (env : BuildEnv) (dockerFile : Dockerfile) (log : List BuildCall)
    (h : dockerFile.Tags = []) :
    Dockerfile.Push env dockerFile log =
      (Except.error "no tags provided, hence could not push image", log) := by
  simp [Dockerfile.Push, h]

/-- Witness for C1: a Dockerfile without tags. -/
theorem Push_without_tags_witness :
    Dockerfile.Push (BuildEnv.accepting "FROM scratch\n") { FilePath := "/src/Dockerfile" } [] =
      (Except.error "no tags provided, hence could not push image", []) :=
  Push_without_tags (BuildEnv.accepting "FROM scratch\n") { FilePath := "/src/Dockerfile" } []
    rfl

/-- C2, as stated, fails: for a Dockerfile whose text has no `FROM ` (so that `IsValid`
answers false) and a runtime that accepts the build, `Build` calls `ImageBuild`, starts the
decoder and returns a reader and no error. -/
theorem Build_without_base_image_counterexample :
    (Dockerfile.IsValid (BuildEnv.accepting "RUN echo hi\n")
        { FilePath := "/src/Dockerfile" } []).1 = Except.ok false ∧
      Dockerfile.Build (BuildEnv.accepting "RUN echo hi\n") { FilePath := "/src/Dockerfile" } [] =
        (Except.ok { expectedEOFs := 1 },
          [BuildCall.tarWithOptions "/src",
            BuildCall.imageBuild
              { SuppressOutput := false, PullParent := true, Tags := [], NoCache := true,
                Dockerfile := "Dockerfile", BuildArgs := [] },
            BuildCall.goStreamMessagesToChannel ""]) := by
  decide

/-- C2, amended: `Build` never reads the Dockerfile text.  For every Dockerfile it packs the
directory and calls `ImageBuild` once; it returns an error exactly when `ImageBuild` returns
one, and then no decoder task is started; otherwise it starts one decoder task.  The check for
a base image is the separate method `IsValid`, which answers false for a text without
`FROM `. -/
theorem Build_defers_to_ImageBuild (env : BuildEnv) (dockerFile : Dockerfile)
    (log : List BuildCall) :
    (∀ err, (Dockerfile.Build env dockerFile log).1 = Except.error err ↔
        env.imageBuild (log ++ [BuildCall.tarWithOptions (Dir dockerFile.FilePath)])
          dockerFile.buildOptions = Except.error err) ∧
      (∀ err, (Dockerfile.Build env dockerFile log).1 = Except.error err →
        (Dockerfile.Build env dockerFile log).2 =
          log ++ [BuildCall.tarWithOptions (Dir dockerFile.FilePath),
            BuildCall.imageBuild dockerFile.buildOptions]) ∧
      (∀ reader, (Dockerfile.Build env dockerFile log).1 = Except.ok reader →
        (Dockerfile.Build env dockerFile log).2 =
          log ++ [BuildCall.tarWithOptions (Dir dockerFile.FilePath),
            BuildCall.imageBuild dockerFile.buildOptions,
            BuildCall.goStreamMessagesToChannel ""]) ∧
      (∀ text, env.readFile log dockerFile.FilePath = Except.ok text →
        Contains text "FROM " = false →
        (Dockerfile.IsValid env dockerFile log).1 = Except.ok false) := by
  refine ⟨?_, ?_, ?_, ?_⟩
  · intro err
    unfold Dockerfile.Build
    cases h : env.imageBuild (log ++ [BuildCall.tarWithOptions (Dir dockerFile.FilePath)])
      dockerFile.buildOptions <;> simp [h]
  · intro err
    unfold Dockerfile.Build
    cases h : env.imageBuild (log ++ [BuildCall.tarWithOptions (Dir dockerFile.FilePath)])
      dockerFile.buildOptions <;> simp [h]
  · intro reader
    unfold Dockerfile.Build
    cases h : env.imageBuild (log ++ [BuildCall.tarWithOptions (Dir dockerFile.FilePath)])
      dockerFile.buildOptions <;> simp [h]
  · intro text hread hno
    simp [Dockerfile.IsValid, hread, hno]

/-! ## The stream decoders -/

theorem ReadString_line (l rest : List Char) (h : '\n' ∉ l) :
    ReadString '\n' (l ++ '\n' :: rest) = (l ++ ['\n'], none, rest) := by
  induction l with
  | nil => simp [ReadString]
  | cons c cs ih =>
    have hc : c ≠ '\n' := fun e => h (by simp [e])
    have hcs : '\n' ∉ cs := fun e => h (by simp [e])
    simp [ReadString, hc, ih hcs]

theorem ReadString_rest_length (r line rest : List Char)
    (h : ReadString '\n' r = (line, none, rest)) : rest.length < r.length := by
  induction r generalizing line with
  | nil => simp [ReadString] at h
  | cons c cs ih =>
    by_cases hc : c = '\n'
    · simp [ReadString, hc] at h
      simp [← h.2]
    · rcases hcs : ReadString '\n' cs with ⟨l, e, r⟩
      simp [ReadString, hc, hcs] at h
      obtain ⟨_, he, hr⟩ := h
      subst he; subst hr
      have := ih l hcs
      simp only [List.length_cons]; omega

theorem Dockerfile.handleLine_no_EOF (unmarshal : String → Except String ResponseMessage)
    (fullTag : String) (dockerFile : Dockerfile) (line : List Char) :
    ∀ e ∈ (Dockerfile.handleLine unmarshal fullTag dockerFile line).2, e.EOF = false := by
  unfold Dockerfile.handleLine
  cases unmarshal (String.mk line) with
  | error err => simp
  | ok msg =>
    simp only []
    split
    · simp
    · split
      · simp
      · split <;> simp

theorem Dockerfile.streamLoop_fuel (unmarshal : String → Except String ResponseMessage)
    (fullTag : String) (fuel : Nat) :
    ∀ (fuel1 : Nat) (reader : List Char) (dockerFile : Dockerfile),
      reader.length + 1 ≤ fuel → reader.length + 1 ≤ fuel1 →
      Dockerfile.streamLoop unmarshal fullTag fuel reader dockerFile =
        Dockerfile.streamLoop unmarshal fullTag fuel1 reader dockerFile := by
  induction fuel with
  | zero => intro fuel1 reader dockerFile h; omega
  | succ n ih =>
    intro fuel1 reader dockerFile h h1
    cases fuel1 with
    | zero => omega
    | succ m =>
      simp only [Dockerfile.streamLoop]
      rcases hrs : ReadString '\n' reader with ⟨line, err, rest⟩
      cases err with
      | some e => cases e; simp
      | none =>
        have hlen := ReadString_rest_length reader line rest hrs
        simp only []
        rw [ih m rest _ (by omega) (by omega)]

theorem Dockerfile.streamLoop_line (unmarshal : String → Except String ResponseMessage)
    (fullTag : String) (fuel : Nat) (dockerFile : Dockerfile) (l rest : List Char)
    (h : '\n' ∉ l) :
    Dockerfile.streamLoop unmarshal fullTag (fuel + 1) (l ++ '\n' :: rest) dockerFile =
      ((Dockerfile.streamLoop unmarshal fullTag fuel rest
          (Dockerfile.handleLine unmarshal fullTag dockerFile (l ++ ['\n'])).1).1,
        (Dockerfile.handleLine unmarshal fullTag dockerFile (l ++ ['\n'])).2 ++
          (Dockerfile.streamLoop unmarshal fullTag fuel rest
            (Dockerfile.handleLine unmarshal fullTag dockerFile (l ++ ['\n'])).1).2) := by
  simp only [Dockerfile.streamLoop, ReadString_line l rest h]

/-- The build/push decoder on a stream that starts with a complete line. -/
theorem Dockerfile.stream_line (unmarshal : String → Except String ResponseMessage)
    (fullTag : String) (dockerFile : Dockerfile) (l rest : List Char) (h : '\n' ∉ l) :
    Dockerfile.streamMessagesToChannel unmarshal dockerFile (l ++ '\n' :: rest) fullTag =
      ((Dockerfile.streamMessagesToChannel unmarshal
          (Dockerfile.handleLine unmarshal fullTag dockerFile (l ++ ['\n'])).1 rest fullTag).1,
        (Dockerfile.handleLine unmarshal fullTag dockerFile (l ++ ['\n'])).2 ++
          (Dockerfile.streamMessagesToChannel unmarshal
            (Dockerfile.handleLine unmarshal fullTag dockerFile (l ++ ['\n'])).1 rest fullTag).2) := by
  unfold Dockerfile.streamMessagesToChannel
  rw [Dockerfile.streamLoop_line unmarshal fullTag _ dockerFile l rest h,
    Dockerfile.streamLoop_fuel unmarshal fullTag _ (rest.length + 1) rest _
      (by simp) (by simp)]

/-- The build/push decoder ends every stream with exactly one end-of-stream mark. -/
theorem Dockerfile.stream_ends (unmarshal : String → Except String ResponseMessage)
    (fullTag : String) (fuel : Nat) :
    ∀ (reader : List Char) (dockerFile : Dockerfile), reader.length + 1 ≤ fuel →
      ∃ body, (Dockerfile.streamLoop unmarshal fullTag fuel reader dockerFile).2 =
          body ++ [{ EOF := true }] ∧ ∀ e ∈ body, e.EOF = false := by
  induction fuel with
  | zero => intro reader dockerFile h; omega
  | succ n ih =>
    intro reader dockerFile h
    simp only [Dockerfile.streamLoop]
    rcases hrs : ReadString '\n' reader with ⟨line, err, rest⟩
    cases err with
    | some e => cases e; exact ⟨[], by simp⟩
    | none =>
      have hlen := ReadString_rest_length reader line rest hrs
      obtain ⟨body, hb, hall⟩ :=
        ih rest (Dockerfile.handleLine unmarshal fullTag dockerFile line).1 (by omega)
      refine ⟨(Dockerfile.handleLine unmarshal fullTag dockerFile line).2 ++ body, ?_, ?_⟩
      · simp only [hb, List.append_assoc]
      · intro e he
        rcases List.mem_append.1 he with h1 | h2
        · exact Dockerfile.handleLine_no_EOF unmarshal fullTag dockerFile line e h1
        · exact hall e h2

theorem Dockerfile.stream_ends_with_EOF (unmarshal : String → Except String ResponseMessage)
    (fullTag : String) (reader : List Char) (dockerFile : Dockerfile) :
    ∃ body, (Dockerfile.streamMessagesToChannel unmarshal dockerFile reader fullTag).2 =
        body ++ [{ EOF := true }] ∧ ∀ e ∈ body, e.EOF = false :=
  Dockerfile.stream_ends unmarshal fullTag _ reader dockerFile (le_refl _)

/-- The build/push decoder on a stream that starts with complete lines: what is sent for
them, and the Dockerfile they leave, do not depend on what follows. -/
theorem Dockerfile.stream_lines (unmarshal : String → Except String ResponseMessage)
    (fullTag : String) (lines : List (List Char)) (hlines : ∀ l ∈ lines, '\n' ∉ l) :
    ∀ dockerFile : Dockerfile, ∃ (dockerFile1 : Dockerfile) (sent : List readerNextMessage),
      (∀ e ∈ sent, e.EOF = false) ∧
      ∀ follow : List Char,
        Dockerfile.streamMessagesToChannel unmarshal dockerFile
            ((lines.map (fun l => l ++ ['\n'])).flatten ++ follow) fullTag =
          ((Dockerfile.streamMessagesToChannel unmarshal dockerFile1 follow fullTag).1,
            sent ++ (Dockerfile.streamMessagesToChannel unmarshal dockerFile1 follow fullTag).2) := by
  induction lines with
  | nil => intro dockerFile; exact ⟨dockerFile, [], by simp, by simp⟩
  | cons l ls ih =>
    intro dockerFile
    have hl : '\n' ∉ l := hlines l (by simp)
    obtain ⟨df1, sent, hsent, hrest⟩ := ih (fun x hx => hlines x (by simp [hx]))
      (Dockerfile.handleLine unmarshal fullTag dockerFile (l ++ ['\n'])).1
    refine ⟨df1, (Dockerfile.handleLine unmarshal fullTag dockerFile (l ++ ['\n'])).2 ++ sent,
      ?_, ?_⟩
    · intro e he
      rcases List.mem_append.1 he with h1 | h2
      · exact Dockerfile.handleLine_no_EOF unmarshal fullTag dockerFile _ e h1
      · exact hsent e h2
    · intro follow
      have hshape : (List.map (fun l => l ++ ['\n']) (l :: ls)).flatten ++ follow =
          l ++ '\n' :: ((List.map (fun l => l ++ ['\n']) ls).flatten ++ follow) := by
        simp
      rw [hshape, Dockerfile.stream_line unmarshal fullTag dockerFile l _ hl, hrest follow]
      simp

theorem Run_handleLine_no_EOF (unmarshal : String → Except String ResponseMessage)
    (line : List Char) : ∀ e ∈ Run.handleLine unmarshal line, e.EOF = false := by
  unfold Run.handleLine
  cases unmarshal (String.mk line) with
  | error err => simp
  | ok msg =>
    simp only []
    split <;> simp

theorem Run_streamLoop_fuel (unmarshal : String → Except String ResponseMessage) (fuel : Nat) :
    ∀ (fuel1 : Nat) (reader : List Char),
      reader.length + 1 ≤ fuel → reader.length + 1 ≤ fuel1 →
      Run.streamLoop unmarshal fuel reader = Run.streamLoop unmarshal fuel1 reader := by
  induction fuel with
  | zero => intro fuel1 reader h; omega
  | succ n ih =>
    intro fuel1 reader h h1
    cases fuel1 with
    | zero => omega
    | succ m =>
      simp only [Run.streamLoop]
      rcases hrs : ReadString '\n' reader with ⟨line, err, rest⟩
      cases err with
      | some e => cases e; simp
      | none =>
        have hlen := ReadString_rest_length reader line rest hrs
        simp only []
        rw [ih m rest (by omega) (by omega)]

theorem Run_streamLoop_line (unmarshal : String → Except String ResponseMessage)
    (fuel : Nat) (l rest : List Char) (h : '\n' ∉ l) :
    Run.streamLoop unmarshal (fuel + 1) (l ++ '\n' :: rest) =
      Run.handleLine unmarshal (l ++ ['\n']) ++ Run.streamLoop unmarshal fuel rest := by
  simp only [Run.streamLoop, ReadString_line l rest h]

/-- The pull decoder on a stream that starts with a complete line. -/
theorem Run_stream_line (unmarshal : String → Except String ResponseMessage)
    (l rest : List Char) (h : '\n' ∉ l) :
    Run.streamMessagesToChannel unmarshal (l ++ '\n' :: rest) =
      Run.handleLine unmarshal (l ++ ['\n']) ++ Run.streamMessagesToChannel unmarshal rest := by
  unfold Run.streamMessagesToChannel
  rw [Run_streamLoop_line unmarshal _ l rest h,
    Run_streamLoop_fuel unmarshal _ (rest.length + 1) rest (by simp) (by simp)]

theorem Run_stream_ends (unmarshal : String → Except String ResponseMessage) (fuel : Nat) :
    ∀ reader : List Char, reader.length + 1 ≤ fuel →
      ∃ body, Run.streamLoop unmarshal fuel reader = body ++ [{ EOF := true }] ∧
        ∀ e ∈ body, e.EOF = false := by
  induction fuel with
  | zero => intro reader h; omega
  | succ n ih =>
    intro reader h
    simp only [Run.streamLoop]
    rcases hrs : ReadString '\n' reader with ⟨line, err, rest⟩
    cases err with
    | some e => cases e; exact ⟨[], by simp⟩
    | none =>
      have hlen := ReadString_rest_length reader line rest hrs
      obtain ⟨body, hb, hall⟩ := ih rest (by omega)
      refine ⟨Run.handleLine unmarshal line ++ body, ?_, ?_⟩
      · simp only [hb, List.append_assoc]
      · intro e he
        rcases List.mem_append.1 he with h1 | h2
        · exact Run_handleLine_no_EOF unmarshal line e h1
        · exact hall e h2

/-- The pull decoder on a stream that starts with complete lines. -/
theorem Run_stream_lines (unmarshal : String → Except String ResponseMessage)
    (lines : List (List Char)) (hlines : ∀ l ∈ lines, '\n' ∉ l) :
    ∃ sent : List readerNextMessage, (∀ e ∈ sent, e.EOF = false) ∧
      ∀ follow : List Char,
        Run.streamMessagesToChannel unmarshal
            ((lines.map (fun l => l ++ ['\n'])).flatten ++ follow) =
          sent ++ Run.streamMessagesToChannel unmarshal follow := by
  induction lines with
  | nil => exact ⟨[], by simp, by simp⟩
  | cons l ls ih =>
    have hl : '\n' ∉ l := hlines l (by simp)
    obtain ⟨sent, hsent, hrest⟩ := ih (fun x hx => hlines x (by simp [hx]))
    refine ⟨Run.handleLine unmarshal (l ++ ['\n']) ++ sent, ?_, ?_⟩
    · intro e he
      rcases List.mem_append.1 he with h1 | h2
      · exact Run_handleLine_no_EOF unmarshal _ e h1
      · exact hsent e h2
    · intro follow
      have hshape : (List.map (fun l => l ++ ['\n']) (l :: ls)).flatten ++ follow =
          l ++ '\n' :: ((List.map (fun l => l ++ ['\n']) ls).flatten ++ follow) := by
        simp
      rw [hshape, Run_stream_line unmarshal l _ hl, hrest follow]
      simp

/-- C8, as stated, fails: on the single well-formed record with an `aux.ID` field, followed
by end of input, the build/push decoder sends no content event at all, only the end-of-stream
mark; the record sets the image id of the Dockerfile instead. -/
theorem Dockerfile_stream_aux_record_counterexample :
    sampleUnmarshal lineAuxID = Except.ok { Aux := { ID := "sha256:1f" } } ∧
      Dockerfile.streamMessagesToChannel sampleUnmarshal {} lineAuxID.data "" =
        ({ ID := "sha256:1f" }, [{ EOF := true }]) := by
  decide

/-- C8, amended: on N well-formed, newline-terminated records followed by end of input the
build/push decoder sends, in input order, one event for every record that carries neither
an `aux.ID` nor an `aux` tag and digest (an error event when the `error` field is set, the
message otherwise), nothing for the other records, and then exactly one end-of-stream mark,
after which nothing is sent. -/
theorem Dockerfile_stream_wellformed_records
    (unmarshal : String → Except String ResponseMessage) (fullTag : String)
    (dockerFile : Dockerfile) (lines : List (List Char)) (msgs : List ResponseMessage)
    (hlines : ∀ l ∈ lines, '\n' ∉ l)
    (hok : List.Forall₂
      (fun l msg => unmarshal (String.mk (l ++ ['\n'])) = Except.ok msg) lines msgs) :
    (Dockerfile.streamMessagesToChannel unmarshal dockerFile
        (lines.map (fun l => l ++ ['\n'])).flatten fullTag).2 =
      ((msgs.filter (fun msg =>
          decide (msg.Aux.ID = "" ∧ ¬ (msg.Aux.Digest ≠ "" ∧ msg.Aux.Tag ≠ "")))).map
        (fun msg => if msg.Error ≠ "" then ({ Error := some msg.Error } : readerNextMessage)
          else { Message := msg })) ++ [{ EOF := true }] := by
  induction hok generalizing dockerFile with
  | nil => simp [Dockerfile.streamMessagesToChannel, Dockerfile.streamLoop, ReadString]
  | @cons l msg ls ms hl _ ih =>
    have hnl : '\n' ∉ l := hlines l (by simp)
    have hshape : (List.map (fun l => l ++ ['\n']) (l :: ls)).flatten =
        l ++ '\n' :: (List.map (fun l => l ++ ['\n']) ls).flatten := by simp
    rw [hshape, Dockerfile.stream_line unmarshal fullTag dockerFile l _ hnl]
    simp only []
    rw [ih _ (fun x hx => hlines x (by simp [hx]))]
    unfold Dockerfile.handleLine
    rw [hl]
    by_cases h1 : msg.Aux.ID = ""
    · by_cases h2 : msg.Aux.Digest = "" ∨ msg.Aux.Tag = ""
      · have h2n : ¬ (¬ msg.Aux.Digest = "" ∧ ¬ msg.Aux.Tag = "") := by tauto
        by_cases h3 : msg.Error = ""
        · simp [h1, h2, h2n, h3, List.filter_cons]
        · simp [h1, h2, h2n, h3, List.filter_cons]
      · have h2p : ¬ msg.Aux.Digest = "" ∧ ¬ msg.Aux.Tag = "" := by tauto
        simp [h1, h2, h2p, List.filter_cons]
    · simp [h1, List.filter_cons]

/-- Witness for C8, amended: a progress record followed by an image id record. -/
theorem Dockerfile_stream_wellformed_records_witness :
    (Dockerfile.streamMessagesToChannel sampleUnmarshal {}
        ([lineStream.data.dropLast, lineAuxID.data.dropLast].map
          (fun l => l ++ ['\n'])).flatten "").2 =
      [{ Message := { Stream := "Step 1/1 : FROM scratch" } }, { EOF := true }] :=
  Dockerfile_stream_wellformed_records sampleUnmarshal "" {}
    [lineStream.data.dropLast, lineAuxID.data.dropLast]
    [{ Stream := "Step 1/1 : FROM scratch" }, { Aux := { ID := "sha256:1f" } }]
    (by decide) (List.Forall₂.cons (by decide) (List.Forall₂.cons (by decide) List.Forall₂.nil))

/-- C9 at the failing input: for the well-formed record with `error` set to "denied" and an
`aux.ID`, the build/push decoder sends no error event, only the end-of-stream mark, whereas
the pull decoder (`Run.streamMessagesToChannel`) reports the error of that record. -/
theorem Dockerfile_stream_error_with_aux :
    sampleUnmarshal lineErrorAux =
        Except.ok { Error := "denied", Aux := { ID := "sha256:1f" } } ∧
      (Dockerfile.streamMessagesToChannel sampleUnmarshal {} lineErrorAux.data "").2 =
        [{ EOF := true }] ∧
      Run.streamMessagesToChannel sampleUnmarshal lineErrorAux.data =
        [{ Error := some "denied" }, { EOF := true }] := by
  decide

/-- C10. For both decoders: when a line that `json.Unmarshal` rejects with `err` stands
after any number of complete lines, exactly one error event carrying `err` is sent in its
place; the events for the lines before and after it are the ones sent when the line is
absent, the stream still ends with exactly one end-of-stream mark, and the build/push
decoder leaves the same Dockerfile. -/
theorem malformed_line_is_one_error_event
    (unmarshal : String → Except String ResponseMessage) (fullTag : String)
    (dockerFile : Dockerfile) (before : List (List Char)) (bad after : List Char)
    (err : String) (hbefore : ∀ l ∈ before, '\n' ∉ l) (hbad : '\n' ∉ bad)
    (herr : unmarshal (String.mk (bad ++ ['\n'])) = Except.error err) :
    (∃ sent rest : List readerNextMessage,
      (∀ e ∈ sent, e.EOF = false) ∧ (∀ e ∈ rest, e.EOF = false) ∧
      (Dockerfile.streamMessagesToChannel unmarshal dockerFile
        ((before.map (fun l => l ++ ['\n'])).flatten ++ (bad ++ '\n' :: after)) fullTag).2 =
        sent ++ [{ Error := some err }] ++ rest ++ [{ EOF := true }] ∧
      (Dockerfile.streamMessagesToChannel unmarshal dockerFile
        ((before.map (fun l => l ++ ['\n'])).flatten ++ after) fullTag).2 =
        sent ++ rest ++ [{ EOF := true }] ∧
      (Dockerfile.streamMessagesToChannel unmarshal dockerFile
        ((before.map (fun l => l ++ ['\n'])).flatten ++ (bad ++ '\n' :: after)) fullTag).1 =
      (Dockerfile.streamMessagesToChannel unmarshal dockerFile
        ((before.map (fun l => l ++ ['\n'])).flatten ++ after) fullTag).1) ∧
    (∃ sent rest : List readerNextMessage,
      (∀ e ∈ sent, e.EOF = false) ∧ (∀ e ∈ rest, e.EOF = false) ∧
      Run.streamMessagesToChannel unmarshal
        ((before.map (fun l => l ++ ['\n'])).flatten ++ (bad ++ '\n' :: after)) =
        sent ++ [{ Error := some err }] ++ rest ++ [{ EOF := true }] ∧
      Run.streamMessagesToChannel unmarshal
        ((before.map (fun l => l ++ ['\n'])).flatten ++ after) =
        sent ++ rest ++ [{ EOF := true }]) := by
  constructor
  · obtain ⟨df1, sent, hsent, hpre⟩ :=
      Dockerfile.stream_lines unmarshal fullTag before hbefore dockerFile
    obtain ⟨rest, hrest, hno⟩ := Dockerfile.stream_ends_with_EOF unmarshal fullTag after df1
    have hline : Dockerfile.handleLine unmarshal fullTag df1 (bad ++ ['\n']) =
        (df1, [{ Error := some err }]) := by
      simp [Dockerfile.handleLine, herr]
    refine ⟨sent, rest, hsent, hno, ?_, ?_, ?_⟩
    · rw [hpre, Dockerfile.stream_line unmarshal fullTag df1 bad after hbad, hline]
      simp [hrest]
    · rw [hpre]; simp [hrest]
    · rw [hpre, hpre, Dockerfile.stream_line unmarshal fullTag df1 bad after hbad, hline]
  · obtain ⟨sent, hsent, hpre⟩ := Run_stream_lines unmarshal before hbefore
    obtain ⟨rest, hrest, hno⟩ := Run_stream_ends unmarshal _ after (le_refl _)
    have hrest1 : Run.streamMessagesToChannel unmarshal after = rest ++ [{ EOF := true }] :=
      hrest
    have hline : Run.handleLine unmarshal (bad ++ ['\n']) = [{ Error := some err }] := by
      simp [Run.handleLine, herr]
    refine ⟨sent, rest, hsent, hno, ?_, ?_⟩
    · rw [hpre, Run_stream_line unmarshal bad after hbad, hline, hrest1]
      simp
    · rw [hpre, hrest1]; simp

/-- Witness for C10: a malformed line between a progress record and an error record. -/
theorem malformed_line_is_one_error_event_witness :
    (∃ sent rest : List readerNextMessage,
      (∀ e ∈ sent, e.EOF = false) ∧ (∀ e ∈ rest, e.EOF = false) ∧
      (Dockerfile.streamMessagesToChannel sampleUnmarshal {}
        (([lineStream.data.dropLast].map (fun l => l ++ ['\n'])).flatten ++
          ("oops".data ++ '\n' :: lineError.data)) "").2 =
        sent ++ [{ Error := some "invalid character 'o' looking for beginning of value" }]
          ++ rest ++ [{ EOF := true }] ∧
      (Dockerfile.streamMessagesToChannel sampleUnmarshal {}
        (([lineStream.data.dropLast].map (fun l => l ++ ['\n'])).flatten ++
          lineError.data) "").2 = sent ++ rest ++ [{ EOF := true }] ∧
      (Dockerfile.streamMessagesToChannel sampleUnmarshal {}
        (([lineStream.data.dropLast].map (fun l => l ++ ['\n'])).flatten ++
          ("oops".data ++ '\n' :: lineError.data)) "").1 =
      (Dockerfile.streamMessagesToChannel sampleUnmarshal {}
        (([lineStream.data.dropLast].map (fun l => l ++ ['\n'])).flatten ++
          lineError.data) "").1) ∧
    (∃ sent rest : List readerNextMessage,
      (∀ e ∈ sent, e.EOF = false) ∧ (∀ e ∈ rest, e.EOF = false) ∧
      Run.streamMessagesToChannel sampleUnmarshal
        (([lineStream.data.dropLast].map (fun l => l ++ ['\n'])).flatten ++
          ("oops".data ++ '\n' :: lineError.data)) =
        sent ++ [{ Error := some "invalid character 'o' looking for beginning of value" }]
          ++ rest ++ [{ EOF := true }] ∧
      Run.streamMessagesToChannel sampleUnmarshal
        (([lineStream.data.dropLast].map (fun l => l ++ ['\n'])).flatten ++
          lineError.data) = sent ++ rest ++ [{ EOF := true }]) :=
  malformed_line_is_one_error_event sampleUnmarshal "" {} [lineStream.data.dropLast]
    "oops".data lineError.data "invalid character 'o' looking for beginning of value"
    (by decide) (by decide) (by decide)

/-! ## The log of calls -/

theorem World.Extends.refl (Q : RunCall → Prop) (w : World) : World.Extends Q w w :=
  ⟨[], by simp, by simp⟩

theorem World.Extends.trans {Q : RunCall → Prop} {w w1 w2 : World}
    (h1 : World.Extends Q w w1) (h2 : World.Extends Q w1 w2) : World.Extends Q w w2 := by
  obtain ⟨e1, he1, hq1⟩ := h1
  obtain ⟨e2, he2, hq2⟩ := h2
  refine ⟨e1 ++ e2, by rw [he2, he1, List.append_assoc], ?_⟩
  intro c hc
  rcases List.mem_append.1 hc with h | h
  · exact hq1 c h
  · exact hq2 c h

theorem World.Extends.call {Q : RunCall → Prop} {w w1 : World} (c : RunCall)
    (h : World.Extends Q w w1) (hc : Q c) : World.Extends Q w (w1.call c) := by
  obtain ⟨e1, he1, hq1⟩ := h
  refine ⟨e1 ++ [c], by simp [World.call, he1], ?_⟩
  intro d hd
  rcases List.mem_append.1 hd with h | h
  · exact hq1 d h
  · simp at h; subst h; exact hc

theorem World.Extends.mono {Q R : RunCall → Prop} {w w1 : World}
    (h : World.Extends Q w w1) (hqr : ∀ c, Q c → R c) : World.Extends R w w1 := by
  obtain ⟨e1, he1, hq1⟩ := h
  exact ⟨e1, he1, fun c hc => hqr c (hq1 c hc)⟩

theorem RunContext.writeStdout_extends (Q : RunCall → Prop) (runCtx : RunContext)
    (text : String) (w : World) (hQ : ∀ out, Q (.Write out text)) :
    World.Extends Q w (runCtx.writeStdout text w).2 := by
  unfold RunContext.writeStdout
  cases runCtx.Stdout with
  | none => exact World.Extends.refl Q w
  | some out => exact World.Extends.call _ (World.Extends.refl Q w) (hQ out)

/-! ## Copy-out of the volumes -/

/-- The calls `copyFromContainer contPath hostPath` makes: its own entry, and calls that
are no entry of `copyFromContainer`. -/
theorem Run_copyFromContainer_extends (env : RunEnv) (run : Run) (runCtx : RunContext)
    (contPath hostPath : String) (w : World) :
    World.Extends (fun c => ∀ cp hp, c = RunCall.copyFromContainer cp hp → hp = hostPath) w
      (Run.copyFromContainer env run runCtx contPath hostPath w).2 := by
  have h0 : World.Extends
      (fun c => ∀ cp hp, c = RunCall.copyFromContainer cp hp → hp = hostPath) w
      (w.call (.copyFromContainer contPath hostPath)) :=
    World.Extends.call _ (World.Extends.refl _ w) (by intro cp hp h; cases h; rfl)
  unfold Run.copyFromContainer
  simp only []
  split
  · rename_i f w1 hdbg
    split at hdbg
    · have := RunContext.writeStdout_extends
        (fun c => ∀ cp hp, c = RunCall.copyFromContainer cp hp → hp = hostPath) runCtx
        ("COPY " ++ run.containerID ++ ":" ++ contPath ++ " " ++ hostPath ++ "\n")
        (w.call (.copyFromContainer contPath hostPath)) (by intro out cp hp h; cases h)
      rw [hdbg] at this
      exact h0.trans this
    · cases hdbg
  · rename_i w1 hdbg
    have h1 : World.Extends
        (fun c => ∀ cp hp, c = RunCall.copyFromContainer cp hp → hp = hostPath) w w1 := by
      split at hdbg
      · have := RunContext.writeStdout_extends
          (fun c => ∀ cp hp, c = RunCall.copyFromContainer cp hp → hp = hostPath) runCtx
          ("COPY " ++ run.containerID ++ ":" ++ contPath ++ " " ++ hostPath ++ "\n")
          (w.call (.copyFromContainer contPath hostPath)) (by intro out cp hp h; cases h)
        rw [hdbg] at this
        exact h0.trans this
      · cases hdbg; exact h0
    split
    · exact World.Extends.call _ (World.Extends.call _ h1 (by intro cp hp h; cases h))
        (by intro cp hp h; cases h)
    · split
      · exact World.Extends.call _ (World.Extends.call _ (World.Extends.call _ h1
          (by intro cp hp h; cases h)) (by intro cp hp h; cases h)) (by intro cp hp h; cases h)
      · split <;>
        exact World.Extends.call _ (World.Extends.call _ (World.Extends.call _ h1
          (by intro cp hp h; cases h)) (by intro cp hp h; cases h)) (by intro cp hp h; cases h)

theorem Run_copyVolumeFromContainer_extends (env : RunEnv) (run : Run) (runCtx : RunContext)
    (v : Volume) (diffPaths : List String) :
    ∀ w : World,
      World.Extends (fun c => ∀ cp hp, c = RunCall.copyFromContainer cp hp → hp = v.HostPath) w
        (Run.copyVolumeFromContainer env run runCtx v diffPaths w).2 := by
  induction diffPaths with
  | nil => intro w; exact World.Extends.refl _ w
  | cons p ps ih =>
    intro w
    unfold Run.copyVolumeFromContainer
    simp only []
    split
    · split
      · exact World.Extends.refl _ w
      · split
        · exact ih w
        · have hcopy := Run_copyFromContainer_extends env run runCtx p v.HostPath w
          split
          · rename_i f w1 heq
            rw [heq] at hcopy
            exact hcopy
          · rename_i w1 heq
            rw [heq] at hcopy
            exact hcopy.trans (ih w1)
    · exact ih w

theorem Run_copyVolumesFromContainerLoop_extends (env : RunEnv) (run : Run)
    (runCtx : RunContext) (diffPaths : List String) (vs : List Volume) :
    ∀ w : World,
      World.Extends (fun c => ∀ cp hp, c = RunCall.copyFromContainer cp hp →
          ∃ v ∈ vs, v.Mode = "rw" ∧ v.HostPath = hp) w
        (Run.copyVolumesFromContainerLoop env run runCtx diffPaths vs w).2 := by
  induction vs with
  | nil => intro w; exact World.Extends.refl _ w
  | cons v vs ih =>
    intro w
    have hrest : ∀ w1 : World,
        World.Extends (fun c => ∀ cp hp, c = RunCall.copyFromContainer cp hp →
          ∃ u ∈ v :: vs, u.Mode = "rw" ∧ u.HostPath = hp) w1
        (Run.copyVolumesFromContainerLoop env run runCtx diffPaths vs w1).2 := fun w1 =>
      (ih w1).mono (fun c hc cp hp h => by
        obtain ⟨u, hu, hm, hh⟩ := hc cp hp h
        exact ⟨u, List.mem_cons_of_mem _ hu, hm, hh⟩)
    unfold Run.copyVolumesFromContainerLoop
    split
    · rename_i hrw
      have hmode : v.Mode = "rw" := by simpa [VolumeMode.IsRW] using hrw
      have hv := (Run_copyVolumeFromContainer_extends env run runCtx v diffPaths w).mono
        (R := fun c => ∀ cp hp, c = RunCall.copyFromContainer cp hp →
          ∃ u ∈ v :: vs, u.Mode = "rw" ∧ u.HostPath = hp)
        (fun c hc cp hp h => ⟨v, List.mem_cons_self _ _, hmode, (hc cp hp h).symm⟩)
      split
      · rename_i f w1 heq
        rw [heq] at hv
        exact hv
      · rename_i w1 heq
        rw [heq] at hv
        exact hv.trans (hrest w1)
    · exact hrest w

/-- C4. Every entry of `copyFromContainer` that `copyVolumesFromContainer` adds to the log
targets the host path of a declared volume whose mode is "rw": a volume with mode "ro", or
with no mode, causes no copy-back call. -/
theorem copy_back_only_for_rw_volumes (env : RunEnv) (run : Run) (runCtx : RunContext)
    (w : World) :
    ∃ ext, (Run.copyVolumesFromContainer env run runCtx w).2.log = w.log ++ ext ∧
      ∀ contPath hostPath, RunCall.copyFromContainer contPath hostPath ∈ ext →
        ∃ v ∈ run.Volumes, v.Mode = "rw" ∧ v.HostPath = hostPath := by
  have key : World.Extends (fun c => ∀ cp hp, c = RunCall.copyFromContainer cp hp →
      ∃ v ∈ run.Volumes, v.Mode = "rw" ∧ v.HostPath = hp) w
      (Run.copyVolumesFromContainer env run runCtx w).2 := by
    have hdbg : World.Extends (fun c => ∀ cp hp, c = RunCall.copyFromContainer cp hp →
        ∃ v ∈ run.Volumes, v.Mode = "rw" ∧ v.HostPath = hp) w
        (runCtx.writeStdout
          "Docker In Docker mode activated: copying volumes from container!\n" w).2 :=
      RunContext.writeStdout_extends _ runCtx _ w (by intro out cp hp h; cases h)
    unfold Run.copyVolumesFromContainer
    simp only []
    split
    · rename_i f w1 heq
      split at heq
      · rw [heq] at hdbg; exact hdbg
      · cases heq
    · rename_i w1 heq
      have h1 : World.Extends (fun c => ∀ cp hp, c = RunCall.copyFromContainer cp hp →
          ∃ v ∈ run.Volumes, v.Mode = "rw" ∧ v.HostPath = hp) w w1 := by
        split at heq
        · rw [heq] at hdbg; exact hdbg
        · cases heq; exact World.Extends.refl _ w
      have h2 := World.Extends.call (.ContainerDiff run.containerID) h1
        (by intro cp hp h; cases h)
      split
      · exact h2
      · exact h2.trans
          (Run_copyVolumesFromContainerLoop_extends env run runCtx _ run.Volumes _)
  obtain ⟨ext, hext, hq⟩ := key
  exact ⟨ext, hext, fun cp hp hmem => hq _ hmem cp hp rfl⟩

/-- C3 at the failing input: the read-write volume is declared with the container path
"/tmp/out/" and the runtime reports the changed paths "/tmp/out", "/tmp/out/a" and
"/tmp/out/a/b".  `copyFromContainer` is entered for the direct child "/tmp/out/a" and also
for "/tmp/out", the volume's own path; with the spelling "/tmp/out" of the same volume only
the direct child is copied. -/
theorem copy_back_with_trailing_slash :
    copiedBack (Run.copyVolumesFromContainer
        (RunEnv.diffing ["/tmp/out", "/tmp/out/a", "/tmp/out/a/b"])
        { Volumes := [{ HostPath := "/host/out", ContPath := "/tmp/out/", Mode := "rw" }],
          containerID := "c0" } {} {}).2.log =
      [("/tmp/out", "/host/out"), ("/tmp/out/a", "/host/out")] ∧
    copiedBack (Run.copyVolumesFromContainer
        (RunEnv.diffing ["/tmp/out", "/tmp/out/a", "/tmp/out/a/b"])
        { Volumes := [{ HostPath := "/host/out", ContPath := "/tmp/out", Mode := "rw" }],
          containerID := "c0" } {} {}).2.log =
      [("/tmp/out/a", "/host/out")] := by
  decide

/-! ## Destroy -/

theorem drop_eq_cons_round {α : Type} (d : α) (listed : List α) :
    ∀ (i : Nat) (c : α) (cs : List α), listed.drop i = c :: cs →
      i < listed.length ∧ listed.getD i d = c ∧ listed.drop (i + 1) = cs := by
  induction listed with
  | nil => intro i c cs h; simp at h
  | cons x xs ih =>
    intro i c cs h
    cases i with
    | zero =>
      simp only [List.drop_zero, List.cons.injEq] at h
      simp [h.1, h.2]
    | succ n =>
      simp only [List.drop_succ_cons] at h
      obtain ⟨h1, h2, h3⟩ := ih n c cs h
      refine ⟨by simp [h1], by simpa using h2, by simpa using h3⟩

theorem Run_rangeRound_at_once (env : RunEnv) (listed : List Container) (i : Nat)
    (log : List RunCall) (hnow : ∀ log i, env.rangeVar log i = 0) (hi : i < listed.length) :
    Run.rangeRound env listed i i log = i := by
  simp only [Run.rangeRound, hnow, Nat.add_zero, Nat.max_self]
  omega

theorem Run_destroyContainer_containers (env : RunEnv) (listed : List Container) (i : Nat)
    (w : World) :
    (∀ c ∈ (Run.destroyContainer env listed i w).2.containers, c ∈ w.containers) ∧
      ((∀ log i, env.rangeVar log i = 0) → i < listed.length →
        (Run.destroyContainer env listed i w).1 = none →
        (Run.destroyContainer env listed i w).2.containers =
          w.containers.filter (fun c => c.ID ≠ (listed.getD i {}).ID)) := by
  constructor
  · unfold Run.destroyContainer
    simp only []
    split
    · simp [World.call]
    · intro c hc
      exact (List.mem_filter.1 hc).1
  · intro hnow hi
    unfold Run.destroyContainer
    simp only [Run_rangeRound_at_once env listed i _ hnow hi]
    split
    · simp
    · simp [World.call]

theorem Run_destroyContainers_containers (env : RunEnv) (runID : String)
    (listed : List Container) (cs : List Container) :
    ∀ (i : Nat) (w : World), listed.drop i = cs →
      (∀ c ∈ (Run.destroyContainers env runID listed i cs w).2.containers, c ∈ w.containers) ∧
      ((∀ log i, env.rangeVar log i = 0) →
        (Run.destroyContainers env runID listed i cs w).1 = none →
        ∀ c ∈ cs, (mapGet c.Labels ContainersLabelName).getD "" = runID →
          ∀ d ∈ (Run.destroyContainers env runID listed i cs w).2.containers, d.ID ≠ c.ID) := by
  induction cs with
  | nil => intro i w _; simp [Run.destroyContainers]
  | cons c cs ih =>
    intro i w hdrop
    obtain ⟨hi, hget, hrest⟩ := drop_eq_cons_round ({} : Container) listed i c cs hdrop
    unfold Run.destroyContainers
    split
    · rename_i hmatch
      have h1 := Run_destroyContainer_containers env listed i w
      rcases hd : Run.destroyContainer env listed i w with ⟨err1, w1⟩
      rw [hd] at h1
      have h2 := ih (i + 1) w1 hrest
      simp only []
      rcases hds : Run.destroyContainers env runID listed (i + 1) cs w1 with ⟨err2, w2⟩
      rw [hds] at h2
      simp only [] at h1 h2 ⊢
      refine ⟨fun x hx => h1.1 x (h2.1 x hx), ?_⟩
      intro hnow hnone x hx hxm d hd2
      cases err1 with
      | some e => simp [Option.orElse] at hnone
      | none =>
        have herr2 : err2 = none := by simpa [Option.orElse] using hnone
        rcases List.mem_cons.1 hx with rfl | hxs
        · have hmem := h2.1 d hd2
          rw [h1.2 hnow hi rfl, hget] at hmem
          simpa using (List.mem_filter.1 hmem).2
        · exact h2.2 hnow herr2 x hxs hxm d hd2
    · rename_i hmatch
      have h2 := ih (i + 1) w hrest
      refine ⟨h2.1, ?_⟩
      intro hnow hnone x hx hxm d hd2
      rcases List.mem_cons.1 hx with rfl | hxs
      · exact absurd hxm hmatch
      · exact h2.2 hnow hnone x hxs hxm d hd2

/-- When `Destroy` returns nil and each of its tasks has read the loop variable before the
loop moved on, no container whose label reads as the run id is left. -/
theorem Run_Destroy_clears (env : RunEnv) (run : Run) (w w1 : World)
    (hnow : ∀ log i, env.rangeVar log i = 0)
    (h : Run.Destroy env run w = (none, w1)) :
    ∀ c ∈ w1.containers, (mapGet c.Labels ContainersLabelName).getD "" ≠ run.RunID := by
  unfold Run.Destroy at h
  simp only [] at h
  split at h
  · cases h
  · have key := Run_destroyContainers_containers env run.RunID (w.call .Destroy).containers
      (w.call .Destroy).containers 0 ((w.call .Destroy).call .ContainerList) rfl
    rw [h] at key
    intro c hc hmatch
    have hin : c ∈ (w.call .Destroy).containers := by
      have := key.1 c hc
      simpa [World.call] using this
    exact key.2 hnow rfl c hin hmatch c hc rfl

/-- The tasks of `Destroy` share the loop variable: when the task started for the container
"c0" of the run reads it after the loop has moved on, it stops, kills and removes the
unrelated container "db" listed next, `Destroy` returns nil, and "c0" is left. -/
theorem Run_Destroy_with_late_tasks :
    Run.Destroy RunEnv.lateTasks sampleRun
        { containers := [{ ID := "c0", Labels := [(ContainersLabelName, "r1")] },
            { ID := "db", Labels := [] }] } =
      (none,
        { containers := [{ ID := "c0", Labels := [(ContainersLabelName, "r1")] }],
          log := [.Destroy, .ContainerList, .ContainerStop "db" 10, .ContainerKill "db" "KILL",
            .ContainerRemove "db" true true] }) := by
  decide

theorem Run_destroyContainers_succeeds (env : RunEnv) (runID : String)
    (listed : List Container) (hremove : ∀ log id, env.ContainerRemove log id = none)
    (cs : List Container) :
    ∀ (i : Nat) (w : World), (Run.destroyContainers env runID listed i cs w).1 = none := by
  induction cs with
  | nil => intro i w; rfl
  | cons c cs ih =>
    intro i w
    unfold Run.destroyContainers
    split
    · have h1 : (Run.destroyContainer env listed i w).1 = none := by
        unfold Run.destroyContainer
        simp only [hremove]
      rcases hd : Run.destroyContainer env listed i w with ⟨err1, w1⟩
      rw [hd] at h1
      simp only [] at h1 ⊢
      have h2 := ih (i + 1) w1
      rcases hds : Run.destroyContainers env runID listed (i + 1) cs w1 with ⟨err2, w2⟩
      rw [hds] at h2
      simp only [] at h2 ⊢
      rw [h1, h2]
      rfl
    · exact ih (i + 1) w

/-- With a runtime that lists and removes containers without error, `Destroy` returns
nil. -/
theorem Run_Destroy_succeeds (env : RunEnv) (run : Run) (w : World)
    (hlist : ∀ log, env.ContainerList log = none)
    (hremove : ∀ log id, env.ContainerRemove log id = none) :
    (Run.Destroy env run w).1 = none := by
  unfold Run.Destroy
  simp only [hlist]
  exact Run_destroyContainers_succeeds env run.RunID _ hremove _ 0 _

theorem Run_prepare_RunID (env : RunEnv) (run : Run) (runCtx : RunContext) (w : World) :
    (Run.prepare env run runCtx w).2.1.RunID = run.RunID := by
  unfold Run.prepare
  split
  · rfl
  · split
    simp only []
    split
    · rfl
    · split
      · rfl
      · split
        · rfl
        · split <;> rfl

theorem Run_body_RunID (env : RunEnv) (run : Run) (runCtx : RunContext)
    (commands : List String) (w : World) :
    (Run.body env run runCtx commands w).2.1.RunID = run.RunID := by
  have hp := Run_prepare_RunID env run runCtx w
  unfold Run.body
  split
  · rename_i f run1 w1 heq
    rw [heq] at hp; exact hp
  · rename_i run1 w1 heq
    rw [heq] at hp
    split
    · exact hp
    · split; exact hp

/-- C6, as stated, fails in two ways.  First: a stale container labelled "r1" exists and
the runtime cannot list containers; the initial `Destroy` fails, `Run` returns that error
at once, no teardown runs and the container is still there.  Second: the runtime refuses to
remove containers; `Run` returns nil, the error of the deferred `Destroy` is dropped, and
the container the run created, labelled "r1", is still there. -/
theorem Run_leaves_labelled_container_counterexample :
    ((Run.Run RunEnv.listFails { RunID := "r1", Reference := "alpine" } {} ["true"]
          { containers := [{ ID := "old", Labels := [(ContainersLabelName, "r1")] }] }).err =
        some (Failure.error "cannot connect to the Docker daemon") ∧
      (Run.Run RunEnv.listFails { RunID := "r1", Reference := "alpine" } {} ["true"]
          { containers := [{ ID := "old", Labels := [(ContainersLabelName, "r1")] }] }).teardown =
        none ∧
      (Run.Run RunEnv.listFails { RunID := "r1", Reference := "alpine" } {} ["true"]
          { containers := [{ ID := "old", Labels := [(ContainersLabelName, "r1")] }]
            }).world.containers.filter (fun c => c.labelled "r1") =
        [{ ID := "old", Labels := [(ContainersLabelName, "r1")] }]) ∧
    ((Run.Run RunEnv.removeFails { RunID := "r1", Reference := "alpine" } {} ["true"] {}).err =
        none ∧
      (Run.Run RunEnv.removeFails { RunID := "r1", Reference := "alpine" } {} ["true"]
          {}).teardown = some (some "removal of container is already in progress") ∧
      (Run.Run RunEnv.removeFails { RunID := "r1", Reference := "alpine" } {} ["true"]
          {}).world.containers.filter (fun c => c.labelled "r1") =
        [{ ID := "c0", Labels := [(ContainersLabelName, "r1")] }]) := by
  decide

theorem Run_Run_after_sweep (env : RunEnv) (run : Run) (runCtx : RunContext)
    (commands : List String) (w w1 : World) (hsweep : Run.Destroy env run w = (none, w1))
    (hnd : (Run.body env run runCtx commands w1).1 ≠ some .deadlock) :
    Run.Run env run runCtx commands w =
      { err := (Run.body env run runCtx commands w1).1
        run := (Run.body env run runCtx commands w1).2.1
        world := (Run.deferred env (Run.body env run runCtx commands w1).2.1 runCtx
          (Run.body env run runCtx commands w1).2.2).2
        teardown := some (Run.deferred env (Run.body env run runCtx commands w1).2.1 runCtx
          (Run.body env run runCtx commands w1).2.2).1 } := by
  unfold Run.Run
  rw [hsweep]
  simp only []

theorem Run_Run_deadlock (env : RunEnv) (run : Run) (runCtx : RunContext)
    (commands : List String) (w w1 : World) (hsweep : Run.Destroy env run w = (none, w1))
    (hd : (Run.body env run runCtx commands w1).1 = some .deadlock) :
    (Run.Run env run runCtx commands w).err = some .deadlock := by
  unfold Run.Run
  rw [hsweep]
  simp only []
  rcases hb : Run.body env run runCtx commands w1 with ⟨res, run1, w2⟩
  rw [hb] at hd
  simp only [] at hd
  subst hd
  rfl

theorem Run_deferred_clears (env : RunEnv) (run : Run) (runCtx : RunContext) (w : World)
    (hnow : ∀ log i, env.rangeVar log i = 0)
    (h : (Run.deferred env run runCtx w).1 = none) :
    ∀ c ∈ (Run.deferred env run runCtx w).2.containers, c.labelled run.RunID = false := by
  unfold Run.deferred at h ⊢
  simp only [] at h ⊢
  intro c hc
  have hclear := Run_Destroy_clears env run _ _ hnow (Prod.ext h rfl) c hc
  unfold Container.labelled
  cases hl : mapGet c.Labels ContainersLabelName with
  | none => simp
  | some v =>
    rw [hl] at hclear
    simp at hclear
    simpa using hclear

theorem Run_deferred_succeeds (env : RunEnv) (run : Run) (runCtx : RunContext) (w : World)
    (hlist : ∀ log, env.ContainerList log = none)
    (hremove : ∀ log id, env.ContainerRemove log id = none) :
    (Run.deferred env run runCtx w).1 = none := by
  unfold Run.deferred
  exact Run_Destroy_succeeds env run _ hlist hremove

/-- C6, amended.  When the initial `Destroy` returns an error, `Run.Run` returns that error
at once, in the world that `Destroy` left, and no teardown follows.  When the initial
`Destroy` returns nil and `Run` returns, `Run` returns what its body did and the deferred
`Destroy` has run, its result being dropped; if that result is nil and each task of the
teardown has read the loop variable before the loop moved on, no container labelled with the
run id is left.  So with a runtime that lists and removes containers without error, and
tasks that read the loop variable at once, no labelled container is left whenever `Run`
returns. -/
theorem Run_leaves_no_labelled_container (env : RunEnv) (run : Run) (runCtx : RunContext)
    (commands : List String) (w : World) :
    (∀ err, (Run.Destroy env run w).1 = some err →
        Run.Run env run runCtx commands w =
          { err := some (.error err), run := run, world := (Run.Destroy env run w).2,
            teardown := none }) ∧
      ((Run.Destroy env run w).1 = none →
        (Run.Run env run runCtx commands w).err ≠ some .deadlock →
        (Run.Run env run runCtx commands w).err =
            (Run.body env run runCtx commands (Run.Destroy env run w).2).1 ∧
          ∃ destroyed, (Run.Run env run runCtx commands w).teardown = some destroyed ∧
            (destroyed = none → (∀ log i, env.rangeVar log i = 0) →
              ∀ c ∈ (Run.Run env run runCtx commands w).world.containers,
                c.labelled run.RunID = false)) ∧
      ((∀ log, env.ContainerList log = none) →
        (∀ log id, env.ContainerRemove log id = none) →
        (∀ log i, env.rangeVar log i = 0) →
        (Run.Run env run runCtx commands w).err ≠ some .deadlock →
        ∀ c ∈ (Run.Run env run runCtx commands w).world.containers,
          c.labelled run.RunID = false) := by
  have hid := Run_body_RunID env run runCtx commands
  have second : ∀ w1, Run.Destroy env run w = (none, w1) →
      (Run.Run env run runCtx commands w).err ≠ some .deadlock →
      (Run.Run env run runCtx commands w).err = (Run.body env run runCtx commands w1).1 ∧
        ∃ destroyed, (Run.Run env run runCtx commands w).teardown = some destroyed ∧
          (destroyed = none → (∀ log i, env.rangeVar log i = 0) →
            ∀ c ∈ (Run.Run env run runCtx commands w).world.containers,
              c.labelled run.RunID = false) := by
    intro w1 hsweep hret
    have hnd : (Run.body env run runCtx commands w1).1 ≠ some .deadlock := by
      intro hd
      exact hret (Run_Run_deadlock env run runCtx commands w w1 hsweep hd)
    rw [Run_Run_after_sweep env run runCtx commands w w1 hsweep hnd]
    refine ⟨rfl, _, rfl, ?_⟩
    intro hnil hnow c hc
    have := Run_deferred_clears env _ runCtx _ hnow hnil c hc
    rw [hid w1] at this
    exact this
  refine ⟨?_, ?_, ?_⟩
  · intro err herr
    rcases hD : Run.Destroy env run w with ⟨e, w1⟩
    rw [hD] at herr
    simp only [] at herr
    subst herr
    unfold Run.Run
    rw [hD]
  · intro hnil hret
    exact second (Run.Destroy env run w).2 (Prod.ext hnil rfl) hret
  · intro hlist hremove hnow hret
    have hnil := Run_Destroy_succeeds env run w hlist hremove
    obtain ⟨_, destroyed, hdes, hclean⟩ :=
      second (Run.Destroy env run w).2 (Prod.ext hnil rfl) hret
    have hnd : (Run.body env run runCtx commands (Run.Destroy env run w).2).1 ≠
        some .deadlock := by
      intro hd
      exact hret (Run_Run_deadlock env run runCtx commands w _ (Prod.ext hnil rfl) hd)
    rw [Run_Run_after_sweep env run runCtx commands w _ (Prod.ext hnil rfl) hnd] at hdes
    simp only [Option.some.injEq] at hdes
    have hdn : destroyed = none := by
      rw [← hdes]
      exact Run_deferred_succeeds env _ runCtx _ hlist hremove
    exact hclean hdn hnow

/-- Witness for C6, amended: a run in which every call succeeds, started next to a stale
container of the same run id; and a run whose initial `Destroy` cannot list containers. -/
theorem Run_leaves_no_labelled_container_witness :
    (Run.Run {} sampleRun {} ["true"]
        { containers := [{ ID := "old", Labels := [(ContainersLabelName, "r1")] }] }
        ).world.containers.all (fun c => !c.labelled sampleRun.RunID) = true ∧
      (Run.Run RunEnv.listFails sampleRun {} ["true"] {}).teardown = none :=
  ⟨List.all_eq_true.2 (fun c hc => by
      simp [(Run_leaves_no_labelled_container {} sampleRun {} ["true"]
        { containers := [{ ID := "old", Labels := [(ContainersLabelName, "r1")] }] }).2.2
        (fun _ => rfl) (fun _ _ => rfl) (fun _ _ => rfl) (by decide) c hc]),
   by
    rw [(Run_leaves_no_labelled_container RunEnv.listFails sampleRun {} ["true"] {}).1
      "cannot connect to the Docker daemon" (by decide)]⟩

/-! ## Run: a failing command -/

theorem Run_destroyContainers_log (env : RunEnv) (runID : String) (listed : List Container)
    (cs : List Container) :
    ∀ (i : Nat) (w : World), World.Extends (fun c => c.isRemoval = true) w
      (Run.destroyContainers env runID listed i cs w).2 := by
  induction cs with
  | nil => intro i w; exact World.Extends.refl _ w
  | cons c cs ih =>
    intro i w
    unfold Run.destroyContainers
    split
    · have h1 : World.Extends (fun c => c.isRemoval = true) w
          (Run.destroyContainer env listed i w).2 := by
        unfold Run.destroyContainer
        simp only []
        split
        · exact World.Extends.call _ (World.Extends.call _ (World.Extends.call _
            (World.Extends.refl _ w) rfl) rfl) rfl
        · have e : ∀ (a b c : RunCall) (left : List Container), a.isRemoval = true →
              b.isRemoval = true → c.isRemoval = true →
              World.Extends (fun c => c.isRemoval = true) w
                { containers := left, log := ((w.call a).call b).log ++ [c] } := by
            intro a b c left ha hb hc
            exact ⟨[a, b, c], by simp [World.call], by simp [ha, hb, hc]⟩
          exact e _ _ _ _ rfl rfl rfl
      rcases hd : Run.destroyContainer env listed i w with ⟨err1, w1⟩
      rw [hd] at h1
      simp only []
      have h2 := ih (i + 1) w1
      rcases hds : Run.destroyContainers env runID listed (i + 1) cs w1 with ⟨err2, w2⟩
      rw [hds] at h2
      exact h1.trans h2
    · exact ih (i + 1) w

/-- The calls of one `Destroy`: its entry, one `ContainerList`, then only stop, kill and
remove calls. -/
theorem Run_Destroy_log (env : RunEnv) (run : Run) (w : World) :
    ∃ removals, (Run.Destroy env run w).2.log =
        w.log ++ RunCall.Destroy :: RunCall.ContainerList :: removals ∧
      ∀ c ∈ removals, c.isRemoval = true := by
  unfold Run.Destroy
  simp only []
  split
  · exact ⟨[], by simp [World.call], by simp⟩
  · obtain ⟨ext, hext, hq⟩ := Run_destroyContainers_log env run.RunID
      (w.call .Destroy).containers (w.call .Destroy).containers 0
      ((w.call .Destroy).call .ContainerList)
    exact ⟨ext, by rw [hext]; simp [World.call], hq⟩

/-- The calls of the deferred part of `Run.Run`: closing the sinks, then one `Destroy`. -/
theorem Run_deferred_log (env : RunEnv) (run : Run) (runCtx : RunContext) (w : World) :
    ∃ closes removals, (Run.deferred env run runCtx w).2.log =
        w.log ++ closes ++ RunCall.Destroy :: RunCall.ContainerList :: removals ∧
      (∀ c ∈ closes, ∃ sink, c = RunCall.Close sink) ∧
      ∀ c ∈ removals, c.isRemoval = true := by
  unfold Run.deferred
  simp only []
  have h1 : ∃ c1, (match runCtx.Stderr with
      | some err => if err ≠ Writer.osStderr then w.call (.Close err) else w
      | none => w).log = w.log ++ c1 ∧ ∀ c ∈ c1, ∃ sink, c = RunCall.Close sink := by
    split
    · rename_i sink _
      split
      · exact ⟨[.Close sink], by simp [World.call], by simp⟩
      · exact ⟨[], by simp, by simp⟩
    · exact ⟨[], by simp, by simp⟩
  obtain ⟨c1, hc1, hq1⟩ := h1
  generalize (match runCtx.Stderr with
      | some err => if err ≠ Writer.osStderr then w.call (.Close err) else w
      | none => w) = wa at hc1 ⊢
  have h2 : ∃ c2, (match runCtx.Stdout with
      | some out => if out ≠ Writer.osStdout then wa.call (.Close out) else wa
      | none => wa).log = wa.log ++ c2 ∧ ∀ c ∈ c2, ∃ sink, c = RunCall.Close sink := by
    split
    · rename_i sink _
      split
      · exact ⟨[.Close sink], by simp [World.call], by simp⟩
      · exact ⟨[], by simp, by simp⟩
    · exact ⟨[], by simp, by simp⟩
  obtain ⟨c2, hc2, hq2⟩ := h2
  generalize (match runCtx.Stdout with
      | some out => if out ≠ Writer.osStdout then wa.call (.Close out) else wa
      | none => wa) = wb at hc2 ⊢
  obtain ⟨removals, hlog, hrem⟩ := Run_Destroy_log env run wb
  refine ⟨c1 ++ c2, removals, ?_, ?_, hrem⟩
  · rw [hlog, hc2, hc1]; simp
  · intro c hc
    rcases List.mem_append.1 hc with h | h
    · exact hq1 c h
    · exact hq2 c h

theorem Run_execCommands_stops (env : RunEnv) (run : Run) (runCtx : RunContext)
    (before : List String) (cmd : String) (after : List String) (f : Failure) :
    ∀ (w w3 w4 : World),
      Run.execCommands env run runCtx before w = (none, w3) →
      Run.execSingleCommand env runCtx run.containerID cmd false w3 = (some f, w4) →
      Run.execCommands env run runCtx (before ++ cmd :: after) w = (some f, w4) := by
  induction before with
  | nil =>
    intro w w3 w4 hb hf
    simp only [Run.execCommands, Prod.mk.injEq, true_and] at hb
    subst hb
    simp [Run.execCommands, hf]
  | cons b bs ih =>
    intro w w3 w4 hb hf
    simp only [List.cons_append, Run.execCommands] at hb ⊢
    rcases hstep : Run.execSingleCommand env runCtx run.containerID b false w with ⟨r, w1⟩
    rw [hstep] at hb
    cases r with
    | some g => simp at hb
    | none =>
      simp only [] at hb ⊢
      exact ih w1 w3 w4 hb hf

/-- C5. When the initial `Destroy`, the preparation of the container and the commands
before `cmd` succeed and `cmd` fails with `err`, then `Run` returns `err`, and the calls
made after the failing command are only these: the sinks are closed and `Destroy` runs
once (its entry, one `ContainerList`, then stop, kill and remove calls).  In particular no
later command is started. -/
theorem Run_stops_at_failing_command (env : RunEnv) (run run1 : Run) (runCtx : RunContext)
    (before : List String) (cmd : String) (after : List String) (w w1 w2 w3 w4 : World)
    (err : String)
    (hsweep : Run.Destroy env run w = (none, w1))
    (hprepare : Run.prepare env run runCtx w1 = (none, run1, w2))
    (hbefore : Run.execCommands env run1 runCtx before w2 = (none, w3))
    (hfail : Run.execSingleCommand env runCtx run1.containerID cmd false w3 =
      (some (Failure.error err), w4)) :
    (Run.Run env run runCtx (before ++ cmd :: after) w).err = some (Failure.error err) ∧
      (Run.Run env run runCtx (before ++ cmd :: after) w).teardown ≠ none ∧
      ∃ closes removals,
        (Run.Run env run runCtx (before ++ cmd :: after) w).world.log =
          w4.log ++ closes ++ RunCall.Destroy :: RunCall.ContainerList :: removals ∧
        (∀ c ∈ closes, ∃ sink, c = RunCall.Close sink) ∧
        (∀ c ∈ removals, c.isRemoval = true) ∧
        (closes ++ RunCall.Destroy :: RunCall.ContainerList :: removals).count
          RunCall.Destroy = 1 ∧
        ∀ c ∈ closes ++ RunCall.Destroy :: RunCall.ContainerList :: removals,
          c.isExec = false := by
  have hcmds := Run_execCommands_stops env run1 runCtx before cmd after (Failure.error err)
    w2 w3 w4 hbefore hfail
  have hbody : Run.body env run runCtx (before ++ cmd :: after) w1 =
      (some (Failure.error err), run1, w4) := by
    simp [Run.body, hprepare, hcmds]
  obtain ⟨closes, removals, hlog, hcl, hrem⟩ := Run_deferred_log env run1 runCtx w4
  have hrun : Run.Run env run runCtx (before ++ cmd :: after) w =
      { err := some (Failure.error err), run := run1,
        world := (Run.deferred env run1 runCtx w4).2,
        teardown := some (Run.deferred env run1 runCtx w4).1 } := by
    simp [Run.Run, hsweep, hbody]
  rw [hrun]
  refine ⟨rfl, by simp, closes, removals, hlog, hcl, hrem, ?_, ?_⟩
  · have h1 : closes.count RunCall.Destroy = 0 := by
      apply List.count_eq_zero.2
      intro hmem
      obtain ⟨sink, hs⟩ := hcl _ hmem
      cases hs
    have h2 : removals.count RunCall.Destroy = 0 := by
      apply List.count_eq_zero.2
      intro hmem
      have := hrem _ hmem
      simp [RunCall.isRemoval] at this
    simp [List.count_append, List.count_cons, h1, h2]
  · intro c hc
    rcases List.mem_append.1 hc with h | h
    · obtain ⟨sink, hs⟩ := hcl c h
      subst hs; rfl
    · rcases List.mem_cons.1 h with h | h
      · subst h; rfl
      · rcases List.mem_cons.1 h with h | h
        · subst h; rfl
        · have := hrem c h
          cases c <;> simp_all [RunCall.isRemoval, RunCall.isExec]

/-- Witness for C5: of the commands `true`, `false`, `echo never` the second fails. -/
theorem Run_stops_at_failing_command_witness :
    (Run.Run RunEnv.falseFails sampleRun {} (["true"] ++ "false" :: ["echo never"]) {}).err =
      some (Failure.error "exit code 1") :=
  (Run_stops_at_failing_command RunEnv.falseFails sampleRun sampleRunStarted {} ["true"]
    "false" ["echo never"] {} sampleWorldSwept sampleWorldPrepared sampleWorldTrue
    sampleWorldFalse "exit code 1" (by decide) (by decide) (by decide)
    (by decide)).1

/-- C7 at the failing input: the run id is the empty string and the runtime lists one
container that has other labels but no `AtlasBuildContainerID` label.  `Destroy` stops,
kills and removes it. -/
theorem Destroy_with_empty_RunID :
    Run.Destroy {} { RunID := "" }
        { containers := [{ ID := "db", Labels := [("app", "postgres")] }] } =
      (none,
        { containers := [],
          log := [RunCall.Destroy, RunCall.ContainerList, RunCall.ContainerStop "db" 10,
            RunCall.ContainerKill "db" "KILL", RunCall.ContainerRemove "db" true true] }) := by
  decide

/-! ## The context of a run -/

/-- C13 at the failing input: the clone of a context with `Tty` set has `Tty` unset, and
the clone of a context with a `Stdin` has none; for every context the clone has the same
`Stdout`, `Stderr`, `Prefix`, `Privileged`, `DockerInDocker`, `Debug` and `Silent`. -/
theorem Clone_drops_Tty :
    ({ Tty := true } : RunContext).Clone.Tty = false ∧
      ({ Stdin := some "os.Stdin" } : RunContext).Clone.Stdin = none ∧
      ∀ c : RunContext, c.Clone.Stdout = c.Stdout ∧ c.Clone.Stderr = c.Stderr ∧
        c.Clone.Prefix = c.Prefix ∧ c.Clone.Privileged = c.Privileged ∧
        c.Clone.DockerInDocker = c.DockerInDocker ∧ c.Clone.Debug = c.Debug ∧
        c.Clone.Silent = c.Silent ∧ c.Clone.User = c.User ∧ c.Clone.WorkDir = c.WorkDir :=
  ⟨rfl, rfl, fun _ => ⟨rfl, rfl, rfl, rfl, rfl, rfl, rfl, rfl, rfl⟩⟩

/-! ## Run: the returned error -/

/-- C12. When the initial `Destroy` succeeds and the steps after it stop with the error
`err`, `Run` returns exactly `err`; the deferred `Destroy` runs, and whatever it returns,
nil or an error, is kept apart and does not change the returned error. -/
theorem Run_returns_the_original_failure (env : RunEnv) (run run1 : Run)
    (runCtx : RunContext) (commands : List String) (w w1 w2 : World) (err : String)
    (hsweep : Run.Destroy env run w = (none, w1))
    (hbody : Run.body env run runCtx commands w1 = (some (Failure.error err), run1, w2)) :
    (Run.Run env run runCtx commands w).err = some (Failure.error err) ∧
      (Run.Run env run runCtx commands w).teardown =
        some (Run.deferred env run1 runCtx w2).1 := by
  simp [Run.Run, hsweep, hbody]

/-- Witness for C12: the command `false` fails and the deferred `Destroy` fails as well. -/
theorem Run_returns_the_original_failure_witness :
    (Run.Run RunEnv.falseFailsRemoveFails sampleRun {} ["false"] {}).err =
        some (Failure.error "exit code 1") ∧
      (Run.Run RunEnv.falseFailsRemoveFails sampleRun {} ["false"] {}).teardown =
        some (some "removal of container is already in progress") :=
  (Run_returns_the_original_failure RunEnv.falseFailsRemoveFails sampleRun sampleRunStarted {}
    ["false"] {} (Run.Destroy RunEnv.falseFailsRemoveFails sampleRun {}).2
    (Run.body RunEnv.falseFailsRemoveFails sampleRun {} ["false"]
      (Run.Destroy RunEnv.falseFailsRemoveFails sampleRun {}).2).2.2 "exit code 1"
    (by decide) (by decide)).imp id (fun h => h.trans (by decide))

/-! ## The tag digests of a push -/

theorem mapGet_mapSet_same {α : Type} (m : List (String × α)) (k : String) (v : α) :
    mapGet (mapSet m k v) k = some v := by
  simp [mapGet, mapSet]

theorem find_after_filter {α : Type} (m : List (String × α)) (k key : String)
    (h : key ≠ k) :
    List.find? (fun p => decide (p.1 = key)) (List.filter (fun p => decide (p.1 ≠ k)) m) =
      List.find? (fun p => decide (p.1 = key)) m := by
  induction m with
  | nil => rfl
  | cons p ps ih =>
    by_cases hp : p.1 = k
    · have hpk : ¬ p.1 = key := fun e => h (e.symm.trans hp)
      have hf : List.filter (fun p => decide (p.1 ≠ k)) (p :: ps) =
          List.filter (fun p => decide (p.1 ≠ k)) ps := by
        rw [List.filter_cons]; simp [hp]
      rw [hf, ih, List.find?_cons]
      simp [hpk]
    · have hf : List.filter (fun p => decide (p.1 ≠ k)) (p :: ps) =
          p :: List.filter (fun p => decide (p.1 ≠ k)) ps := by
        rw [List.filter_cons]; simp [hp]
      rw [hf, List.find?_cons, List.find?_cons, ih]

theorem mapGet_mapSet_other {α : Type} (m : List (String × α)) (k key : String) (v : α)
    (h : key ≠ k) : mapGet (mapSet m k v) key = mapGet m key := by
  have hk : ¬ k = key := fun e => h e.symm
  unfold mapGet mapSet
  rw [List.find?_cons]
  simp only [hk, decide_False]
  rw [find_after_filter m k key h]

theorem Dockerfile.handleLine_TagDigests (unmarshal : String → Except String ResponseMessage)
    (fullTag : String) (dockerFile : Dockerfile) (line : List Char) :
    (Dockerfile.handleLine unmarshal fullTag dockerFile line).1.TagDigests =
      match recordedDigest unmarshal line with
      | some d => mapSet dockerFile.TagDigests fullTag d
      | none => dockerFile.TagDigests := by
  unfold Dockerfile.handleLine recordedDigest
  cases unmarshal (String.mk line) with
  | error err => rfl
  | ok msg =>
    by_cases h1 : msg.Aux.ID = ""
    · by_cases h2 : msg.Aux.Digest ≠ "" ∧ msg.Aux.Tag ≠ ""
      · simp [h1, h2]
      · by_cases h3 : msg.Error = "" <;> simp [h1, h2, h3]
    · simp [h1]

theorem Dockerfile.stream_no_line (unmarshal : String → Except String ResponseMessage)
    (fullTag : String) (dockerFile : Dockerfile) (tail : List Char) (h : '\n' ∉ tail) :
    Dockerfile.streamMessagesToChannel unmarshal dockerFile tail fullTag =
      (dockerFile, [{ EOF := true }]) := by
  have hread : ∀ l : List Char, '\n' ∉ l → (ReadString '\n' l).2.1 = some ioError.EOF := by
    intro l
    induction l with
    | nil => intro _; rfl
    | cons c cs ih =>
      intro hl
      have hc : c ≠ '\n' := fun e => hl (by simp [e])
      have hcs : '\n' ∉ cs := fun e => hl (by simp [e])
      simp [ReadString, hc, ih hcs]
  unfold Dockerfile.streamMessagesToChannel
  simp only [Dockerfile.streamLoop]
  have := hread tail h
  rcases hrs : ReadString '\n' tail with ⟨line, err, rest⟩
  rw [hrs] at this
  simp only [] at this
  subst this
  rfl

/-- C11, as stated, fails: a well-formed push record with a non-empty `aux.Tag` and a
non-empty `aux.Digest` that also carries an `aux.ID` sets the image id of the Dockerfile
and leaves `TagDigests` without an entry for the full tag. -/
theorem Dockerfile_stream_digest_with_ID_counterexample :
    samplePushUnmarshal linePushedWithID =
        Except.ok
          { Aux := { ID := "sha256:1f", Tag := "blah1", Digest := "sha256:aa", Size := 527 } } ∧
      mapGet (Dockerfile.streamMessagesToChannel samplePushUnmarshal {} linePushedWithID.data
        "docker.atl-paas.net/deng/test/ok:blah1").1.TagDigests
        "docker.atl-paas.net/deng/test/ok:blah1" = none := by
  decide

/-- C11, amended: while a push stream is decoded for the full tag `fullTag`, every
well-formed record with an empty `aux.ID`, a non-empty `aux.Tag` and a non-empty
`aux.Digest` sets `TagDigests[fullTag]` to the tag, digest and size of that record, and no
other line changes it: after the stream is drained the entry under `fullTag` is that of the
last such record (the entry from before when there is none), and the entries under every
other key are as before. -/
theorem Dockerfile_stream_TagDigests (unmarshal : String → Except String ResponseMessage)
    (fullTag : String) (lines : List (List Char)) (tail : List Char)
    (hlines : ∀ l ∈ lines, '\n' ∉ l) (htail : '\n' ∉ tail) (dockerFile : Dockerfile) :
    (∀ key, key ≠ fullTag →
      mapGet (Dockerfile.streamMessagesToChannel unmarshal dockerFile
        ((lines.map (fun l => l ++ ['\n'])).flatten ++ tail) fullTag).1.TagDigests key =
      mapGet dockerFile.TagDigests key) ∧
    mapGet (Dockerfile.streamMessagesToChannel unmarshal dockerFile
        ((lines.map (fun l => l ++ ['\n'])).flatten ++ tail) fullTag).1.TagDigests fullTag =
      lines.foldl (fun held l =>
          match recordedDigest unmarshal (l ++ ['\n']) with
          | some d => some d
          | none => held)
        (mapGet dockerFile.TagDigests fullTag) := by
  induction lines generalizing dockerFile with
  | nil =>
    simp [Dockerfile.stream_no_line unmarshal fullTag dockerFile tail htail]
  | cons l ls ih =>
    have hl : '\n' ∉ l := hlines l (by simp)
    have hshape : (List.map (fun l => l ++ ['\n']) (l :: ls)).flatten ++ tail =
        l ++ '\n' :: ((List.map (fun l => l ++ ['\n']) ls).flatten ++ tail) := by simp
    rw [hshape, Dockerfile.stream_line unmarshal fullTag dockerFile l _ hl]
    simp only [List.foldl_cons]
    have ih1 := ih (fun x hx => hlines x (by simp [hx]))
      (Dockerfile.handleLine unmarshal fullTag dockerFile (l ++ ['\n'])).1
    have hTD := Dockerfile.handleLine_TagDigests unmarshal fullTag dockerFile (l ++ ['\n'])
    cases hrec : recordedDigest unmarshal (l ++ ['\n']) with
    | none =>
      rw [hrec] at hTD
      simp only [] at hTD
      rw [hTD] at ih1
      exact ih1
    | some d =>
      rw [hrec] at hTD
      simp only [] at hTD
      rw [hTD] at ih1
      refine ⟨fun key hkey => ?_, ?_⟩
      · rw [ih1.1 key hkey, mapGet_mapSet_other _ _ _ _ hkey]
      · rw [ih1.2, mapGet_mapSet_same]

/-- Witness for C11, amended: one push result record, decoded for a full tag. -/
theorem Dockerfile_stream_TagDigests_witness :
    mapGet (Dockerfile.streamMessagesToChannel samplePushUnmarshal {}
        (([linePushed.data.dropLast].map (fun l => l ++ ['\n'])).flatten ++ [])
        "docker.atl-paas.net/deng/test/ok:blah1").1.TagDigests
        "docker.atl-paas.net/deng/test/ok:blah1" =
      some { Tag := "blah1", Digest := "sha256:aa", Size := 527 } :=
  ((Dockerfile_stream_TagDigests samplePushUnmarshal "docker.atl-paas.net/deng/test/ok:blah1"
    [linePushed.data.dropLast] [] (by decide) (by decide) {}).2).trans (by decide)

/-! ## User names -/

theorem usernameHead_is_usernameTail (c : Char) (h : usernameHead c = true) :
    usernameTail c = true := by
  simp only [usernameHead, usernameTail, decide_eq_true_eq] at h ⊢
  rcases h with h | h
  · exact Or.inl h
  · exact Or.inr (Or.inr (Or.inl h))

theorem ValidUsernameRegexMatch_shape (user : String)
    (h : ValidUsernameRegexMatch user = true) :
    ∃ body last, user.data = body ++ [last] ∧ body.all usernameTail = true ∧
      (usernameTail last = true ∨ last = '$') := by
  unfold ValidUsernameRegexMatch at h
  cases hd : user.data with
  | nil => rw [hd] at h; simp at h
  | cons c rest =>
    rw [hd] at h
    simp only [Bool.and_eq_true, Bool.or_eq_true, decide_eq_true_eq] at h
    obtain ⟨hc, hrest⟩ := h
    have hct := usernameHead_is_usernameTail c hc
    rcases hrest with ⟨hall, _⟩ | hdollar
    · have hne : c :: rest ≠ [] := by simp
      refine ⟨(c :: rest).dropLast, (c :: rest).getLast hne,
        (List.dropLast_append_getLast hne).symm, ?_, Or.inl ?_⟩
      · rw [List.all_eq_true] at hall ⊢
        intro x hx
        rcases List.mem_cons.1 (List.mem_of_mem_dropLast hx) with rfl | hxr
        · exact hct
        · exact hall x hxr
      · rcases List.mem_cons.1 (List.getLast_mem hne) with heq | hmem
        · rw [heq]; exact hct
        · exact (List.all_eq_true.1 hall) _ hmem
    · cases hrev : rest.reverse with
      | nil => rw [hrev] at hdollar; simp at hdollar
      | cons d body =>
        rw [hrev] at hdollar
        have hrest : rest = body.reverse ++ [d] := by
          have := congrArg List.reverse hrev
          simpa using this
        by_cases hd2 : d = '$'
        · subst hd2
          simp only [Bool.and_eq_true, decide_eq_true_eq] at hdollar
          refine ⟨c :: body.reverse, '$', by simp [hrest], ?_, Or.inr rfl⟩
          rw [List.all_eq_true]
          intro x hx
          rcases List.mem_cons.1 hx with rfl | hxr
          · exact hct
          · exact (List.all_eq_true.1 hdollar.1) x (List.mem_reverse.1 hxr)
        · exfalso
          revert hdollar
          split
          · rename_i heq
            simp only [List.cons.injEq] at heq
            exact absurd heq.1 hd2
          · simp

/-- C17, as stated, fails: the user name "bob$" matches the user name pattern although it
holds a character that is neither letter, digit, underscore nor dash; `makeSureUserExists`
issues its provisioning commands for it and `execSingleCommand` passes it on as the exec
user. -/
theorem makeSureUserExists_dollar_counterexample :
    ValidUsernameRegexMatch "bob$" = true ∧
      "bob$".data.all usernameTail = false ∧
      (Run.execConfig { User := "bob$" } "whoami").User = "bob$" ∧
      ((Run.makeSureUserExists {} { User := "bob$" } "c0" {}).2.log.filter
          RunCall.isExec).length = 4 ∧
      (Run.makeSureUserExists {} { User := "bob$" } "c0" {}).2.log.head? =
        some (RunCall.ContainerExecCreate "c0"
          { User := "root", Privileged := true, AttachStdin := true, AttachStderr := true,
            AttachStdout := true, WorkingDir := "/",
            Cmd := ["/bin/sh", "-c",
              "sh -c 'id -u bob$ 2>/dev/null || adduser -D bob$ >/dev/null 2>&1  || adduser --disabled-password --gecos \"\" bob$ >/dev/null 2>&1'"] }) := by
  decide

/-- C17, amended: for an empty user name, or one that does not match the user name
pattern, `makeSureUserExists` makes no call and returns nil; the exec user that
`execSingleCommand` passes to the runtime is either unset or the user name of the context,
which then matches the pattern; and a name that matches the pattern consists of lower-case
letters, digits, underscores and dashes, except that its last character may be a dollar
sign. -/
theorem makeSureUserExists_only_for_matching_names (env : RunEnv) (runCtx : RunContext)
    (containerID : String) (w : World) :
    ((runCtx.User = "" ∨ ValidUsernameRegexMatch runCtx.User = false) →
        Run.makeSureUserExists env runCtx containerID w = (none, w)) ∧
      (∀ command, (Run.execConfig runCtx command).User = "" ∨
        ((Run.execConfig runCtx command).User = runCtx.User ∧
          ValidUsernameRegexMatch runCtx.User = true)) ∧
      (ValidUsernameRegexMatch runCtx.User = true →
        ∃ body last, runCtx.User.data = body ++ [last] ∧ body.all usernameTail = true ∧
          (usernameTail last = true ∨ last = '$')) := by
  refine ⟨?_, ?_, ValidUsernameRegexMatch_shape runCtx.User⟩
  · intro h
    unfold Run.makeSureUserExists
    have hc : runCtx.User = "" ∨ ¬ ValidUsernameRegexMatch runCtx.User = true := by
      rcases h with h | h
      · exact Or.inl h
      · exact Or.inr (by simp [h])
    split
    · rfl
    · rename_i hn
      exact absurd hc hn
  · intro command
    unfold Run.execConfig
    by_cases hu : runCtx.User ≠ "" ∧ ValidUsernameRegexMatch runCtx.User = true
    · right
      simp [hu]
    · left
      simp only [hu, if_false]
      split <;> rfl

/-! ## Run: the calls of each step -/

theorem Run_IsRunningInDocker_plain (env : RunEnv) (w : World) :
    World.Extends (fun c => c.isPlain = true) w (Run.IsRunningInDocker env w).2 := by
  unfold Run.IsRunningInDocker
  split <;> exact World.Extends.call _ (World.Extends.refl _ w) rfl

theorem Run_execSingleCommand_plain (env : RunEnv) (runCtx : RunContext) (containerID : String)
    (command : String) (svcCmd : Bool) (w : World) :
    World.Extends (fun c => c.isPlain = true) w
      (Run.execSingleCommand env runCtx containerID command svcCmd w).2 := by
  unfold Run.execSingleCommand
  simp only []
  split
  · rename_i err w1 heq
    split at heq
    · rw [← (Prod.mk.inj heq).2]
      exact World.Extends.call _ (World.Extends.refl _ w) rfl
    · cases heq
  · rename_i w1 heq
    have h1 : World.Extends (fun c => c.isPlain = true) w w1 := by
      split at heq
      · rw [← (Prod.mk.inj heq).2]
        exact World.Extends.call _ (World.Extends.refl _ w) rfl
      · cases heq; exact World.Extends.refl _ w
    split
    · exact World.Extends.call _ h1 rfl
    · split <;> exact World.Extends.call _ (World.Extends.call _ h1 rfl) rfl

theorem Run_execSingleCommand_plain_of {env : RunEnv} {runCtx : RunContext}
    {containerID command : String} {svcCmd : Bool} {w w1 : World} {res : Option Failure}
    (h : Run.execSingleCommand env runCtx containerID command svcCmd w = (res, w1)) :
    World.Extends (fun c => c.isPlain = true) w w1 := by
  have := Run_execSingleCommand_plain env runCtx containerID command svcCmd w
  rw [h] at this; exact this

theorem Run_makeSureImagePulled_plain (env : RunEnv) (run : Run) (runCtx : RunContext)
    (w : World) :
    World.Extends (fun c => c.isPlain = true) w
      (Run.makeSureImagePulled env run runCtx w).2 := by
  have h1 : World.Extends (fun c => c.isPlain = true) w
      (w.call (.ImageList run.Reference)) :=
    World.Extends.call _ (World.Extends.refl _ w) rfl
  unfold Run.makeSureImagePulled
  simp only []
  split
  · exact h1
  · split
    · split
      · exact World.Extends.call _ h1 rfl
      · split
        · exact World.Extends.call _ h1 rfl
        · split <;> exact World.Extends.call _ (World.Extends.call _ h1 rfl) rfl
    · exact h1

theorem Run_makeSureUserExists_plain (env : RunEnv) (runCtx : RunContext)
    (containerID : String) (w : World) :
    World.Extends (fun c => c.isPlain = true) w
      (Run.makeSureUserExists env runCtx containerID w).2 := by
  unfold Run.makeSureUserExists
  split
  · exact World.Extends.refl _ w
  · simp only []
    split
    · rename_i f w1 heq
      exact Run_execSingleCommand_plain_of heq
    · rename_i w1 heq
      have h1 := Run_execSingleCommand_plain_of heq
      split
      · rename_i f w2 heq2
        split at heq2
        · exact h1.trans (Run_execSingleCommand_plain_of heq2)
        · cases heq2
      · rename_i w2 heq2
        have h2 : World.Extends (fun c => c.isPlain = true) w1 w2 := by
          split at heq2
          · exact Run_execSingleCommand_plain_of heq2
          · cases heq2; exact World.Extends.refl _ w1
        split
        · exact (h1.trans h2).trans (Run_execSingleCommand_plain env _ containerID _ true w2)
        · exact h1.trans h2


theorem Run_copyToContainer_plain (env : RunEnv) (run : Run) (runCtx : RunContext)
    (hostPath contPath : String) (w : World) :
    World.Extends (fun c => c.isPlain = true) w
      (Run.copyToContainer env run runCtx hostPath contPath w).2 := by
  have hdbg : ∀ text, World.Extends (fun c => c.isPlain = true) w
      (runCtx.writeStdout text w).2 := fun text =>
    RunContext.writeStdout_extends _ runCtx text w (fun _ => rfl)
  unfold Run.copyToContainer
  simp only []
  split
  · rename_i f w1 heq
    split at heq
    · have := hdbg ("COPY " ++ hostPath ++ " " ++ run.containerID ++ ":" ++ contPath ++ "\n")
      rw [heq] at this; exact this
    · cases heq
  · rename_i w1 heq
    have h1 : World.Extends (fun c => c.isPlain = true) w w1 := by
      split at heq
      · have := hdbg ("COPY " ++ hostPath ++ " " ++ run.containerID ++ ":" ++ contPath ++ "\n")
        rw [heq] at this; exact this
      · cases heq; exact World.Extends.refl _ w
    have h2 : World.Extends (fun c => c.isPlain = true) w (w1.call (.osStat hostPath)) :=
      World.Extends.call _ h1 rfl
    clear heq hdbg h1
    split
    · exact h2
    · rename_i isDir hstat
      clear hstat
      have hcont : ∀ (dst : String) (w3 : World) (last : Option Failure × World),
          World.Extends (fun c => c.isPlain = true) w w3 →
          World.Extends (fun c => c.isPlain = true)
            ((w3.call (.TarWithOptions hostPath)).call (.CopyToContainer run.containerID dst))
            last.2 →
          World.Extends (fun c => c.isPlain = true) w
            (match env.TarWithOptions w3.log hostPath with
              | some err =>
                (some (Failure.error ("failed to create tar archive out of the path: " ++
                  hostPath ++ ": " ++ err)), w3.call (.TarWithOptions hostPath))
              | none =>
                match env.CopyToContainer (w3.call (.TarWithOptions hostPath)).log
                    run.containerID dst with
                | some err =>
                  (some (Failure.error ("failed to copy files into container " ++
                    run.containerID ++ " from path: " ++ hostPath ++ ": " ++ err)),
                    (w3.call (.TarWithOptions hostPath)).call
                      (.CopyToContainer run.containerID dst))
                | none => last).2 := by
        intro dst w3 last h3 hlast
        split
        · exact World.Extends.call _ h3 rfl
        · split
          · exact World.Extends.call _ (World.Extends.call _ h3 rfl) rfl
          · exact (World.Extends.call (.CopyToContainer run.containerID dst)
              (World.Extends.call (.TarWithOptions hostPath) h3 rfl) rfl).trans hlast
      cases isDir
      · simp only [Bool.not_false, if_true, true_and]
        split
        · rename_i f w3 heq3
          split at heq3
          · exact h2.trans (Run_execSingleCommand_plain_of heq3)
          · cases heq3
        · rename_i w3 heq3
          have h3 : World.Extends (fun c => c.isPlain = true) w w3 := by
            split at heq3
            · exact h2.trans (Run_execSingleCommand_plain_of heq3)
            · cases heq3; exact h2
          apply hcont (Dir contPath) w3 _ h3
          split
          · exact Run_execSingleCommand_plain env _ _ _ true _
          · exact World.Extends.refl _ _
      · simp only [Bool.not_true, Bool.false_eq_true, if_false, false_and]
        split
        · rename_i f w3 heq3
          split at heq3
          · exact h2.trans (Run_execSingleCommand_plain_of heq3)
          · cases heq3
        · rename_i w3 heq3
          have h3 : World.Extends (fun c => c.isPlain = true) w w3 := by
            split at heq3
            · exact h2.trans (Run_execSingleCommand_plain_of heq3)
            · cases heq3; exact h2
          exact hcont contPath w3 _ h3 (World.Extends.refl _ _)

theorem Run_copyVolumesToContainerLoop_plain (env : RunEnv) (run : Run) (runCtx : RunContext)
    (vs : List Volume) :
    ∀ w : World, World.Extends (fun c => c.isPlain = true) w
      (Run.copyVolumesToContainerLoop env run runCtx vs w).2 := by
  induction vs with
  | nil => intro w; exact World.Extends.refl _ w
  | cons v vs ih =>
    intro w
    have h1 := Run_copyToContainer_plain env run runCtx v.HostPath v.ContPath w
    unfold Run.copyVolumesToContainerLoop
    split
    · rename_i f w1 heq
      rw [heq] at h1; exact h1
    · rename_i w1 heq
      rw [heq] at h1; exact h1.trans (ih w1)

theorem Run_copyVolumesToContainer_plain (env : RunEnv) (run : Run) (runCtx : RunContext)
    (w : World) :
    World.Extends (fun c => c.isPlain = true) w
      (Run.copyVolumesToContainer env run runCtx w).2 := by
  have hdbg := RunContext.writeStdout_extends (fun c => c.isPlain = true) runCtx
    "Docker In Docker mode activated: copying volumes into container!\n" w (fun _ => rfl)
  unfold Run.copyVolumesToContainer
  simp only []
  split
  · rename_i f w1 heq
    split at heq
    · rw [heq] at hdbg; exact hdbg
    · cases heq
  · rename_i w1 heq
    have h1 : World.Extends (fun c => c.isPlain = true) w w1 := by
      split at heq
      · rw [heq] at hdbg; exact hdbg
      · cases heq; exact World.Extends.refl _ w
    exact h1.trans (Run_copyVolumesToContainerLoop_plain env run runCtx _ w1)

theorem Run_execCommands_plain (env : RunEnv) (run : Run) (runCtx : RunContext)
    (commands : List String) :
    ∀ w : World, World.Extends (fun c => c.isPlain = true) w
      (Run.execCommands env run runCtx commands w).2 := by
  induction commands with
  | nil => intro w; exact World.Extends.refl _ w
  | cons cmd cmds ih =>
    intro w
    unfold Run.execCommands
    split
    · rename_i f w1 heq
      exact Run_execSingleCommand_plain_of heq
    · rename_i w1 heq
      exact (Run_execSingleCommand_plain_of heq).trans (ih w1)

/-! ## Run: the binds of the container -/

/-- C18. When the image is there, `Run` creates the container once, and the bind list of
that `ContainerCreate` call is settled by the probe `IsRunningInDocker` made just before:
first the bind of the runtime socket exactly when `DockerInDocker` is set, then, when the
probe says host, one bind `hostPath:contPath` per declared volume in declaration order, with
`:ro` added exactly for the mode "ro", and no volume bind when the probe says nested.  The
other calls of the preparation are no container creation. -/
theorem Run_binds_follow_the_probe (env : RunEnv) (run : Run) (runCtx : RunContext)
    (w w1 w2 : World) (inDocker : Bool)
    (hpull : Run.makeSureImagePulled env run runCtx w = (none, w1))
    (hprobe : Run.IsRunningInDocker env w1 = (inDocker, w2)) :
    ∃ config hostConfig rest,
      (Run.prepare env run runCtx w).2.2.log =
        w2.log ++ RunCall.ContainerCreate config hostConfig run.RunID :: rest ∧
      (∀ c ∈ rest, c.isPlain = true) ∧
      World.Extends (fun c => c.isPlain = true) w w2 ∧
      hostConfig.Binds =
        (if runCtx.DockerInDocker then ["/var/run/docker.sock:/var/run/docker.sock"] else []) ++
          (if inDocker then []
            else run.Volumes.map (fun v =>
              v.HostPath ++ ":" ++ v.ContPath ++ (if v.Mode = "ro" then ":ro" else ""))) := by
  have hw2 : World.Extends (fun c => c.isPlain = true) w w2 := by
    have h1 := Run_makeSureImagePulled_plain env run runCtx w
    have h2 := Run_IsRunningInDocker_plain env w1
    rw [hpull] at h1
    rw [hprobe] at h2
    exact h1.trans h2
  have hbinds : Run.binds run runCtx inDocker =
      (if runCtx.DockerInDocker then ["/var/run/docker.sock:/var/run/docker.sock"] else []) ++
        (if inDocker then []
          else run.Volumes.map (fun v =>
            v.HostPath ++ ":" ++ v.ContPath ++ (if v.Mode = "ro" then ":ro" else ""))) := by
    unfold Run.binds DockerSockPath
    cases inDocker
    · simp only [Bool.not_false, if_true, Bool.false_eq_true, if_false]
      congr 1
      apply List.map_congr_left
      intro v _
      split <;> simp
    · simp
  have key : ∀ wc : World, wc.log = w2.log ++
        [RunCall.ContainerCreate
          ⟨run.Reference, [(ContainersLabelName, run.RunID)],
            env.SafeSplit DefaultContainerCommand, [], run.Env⟩
          ⟨"default", runCtx.Privileged, Run.binds run runCtx inDocker⟩ run.RunID] →
      World.Extends (fun c => c.isPlain = true) wc (Run.prepare env run runCtx w).2.2 := by
    intro wc hwc
    have hbase : ∀ wx : World, wx.log = wc.log → ∀ wy,
        World.Extends (fun c => c.isPlain = true) wx wy →
        World.Extends (fun c => c.isPlain = true) wc wy := by
      intro wx hwx wy hxy
      obtain ⟨ext, hext, hq⟩ := hxy
      exact ⟨ext, by rw [hext, hwx], hq⟩
    unfold Run.prepare
    simp only [hpull, hprobe]
    split
    · exact hbase _ (by rw [hwc]; simp [World.call]) _ (World.Extends.refl _ _)
    · rename_i id hcreate
      have hstart : World.Extends (fun c => c.isPlain = true) wc
          (World.call ⟨w2.containers ++ [⟨id, [(ContainersLabelName, run.RunID)]⟩],
            w2.log ++ [RunCall.ContainerCreate
              ⟨run.Reference, [(ContainersLabelName, run.RunID)],
                env.SafeSplit DefaultContainerCommand, [], run.Env⟩
              ⟨"default", runCtx.Privileged, Run.binds run runCtx inDocker⟩ run.RunID]⟩
            (.ContainerStart id)) :=
        ⟨[.ContainerStart id], by rw [hwc]; simp [World.call], by simp [RunCall.isPlain]⟩
      have h5 := Run_makeSureUserExists_plain env runCtx id
        (World.call ⟨w2.containers ++ [⟨id, [(ContainersLabelName, run.RunID)]⟩],
          w2.log ++ [RunCall.ContainerCreate
            ⟨run.Reference, [(ContainersLabelName, run.RunID)],
              env.SafeSplit DefaultContainerCommand, [], run.Env⟩
            ⟨"default", runCtx.Privileged, Run.binds run runCtx inDocker⟩ run.RunID]⟩
          (.ContainerStart id))
      split
      · exact hstart
      · split
        · rename_i f w5 huser
          rw [huser] at h5
          exact hstart.trans h5
        · rename_i w5 huser
          rw [huser] at h5
          have h6 := Run_IsRunningInDocker_plain env w5
          split
          · rename_i w6 hprobe2
            rw [hprobe2] at h6
            have h7 := Run_copyVolumesToContainer_plain env { run with containerID := id }
              runCtx w6
            exact (hstart.trans h5).trans (h6.trans h7)
          · rename_i w6 hprobe2
            rw [hprobe2] at h6
            exact (hstart.trans h5).trans h6
  obtain ⟨rest, hrest, hq⟩ := key
    (w2.call (RunCall.ContainerCreate
      ⟨run.Reference, [(ContainersLabelName, run.RunID)],
        env.SafeSplit DefaultContainerCommand, [], run.Env⟩
      ⟨"default", runCtx.Privileged, Run.binds run runCtx inDocker⟩ run.RunID))
    (by simp [World.call])
  refine ⟨⟨run.Reference, [(ContainersLabelName, run.RunID)],
      env.SafeSplit DefaultContainerCommand, [], run.Env⟩,
    ⟨"default", runCtx.Privileged, Run.binds run runCtx inDocker⟩, rest, ?_, hq, hw2, hbinds⟩
  rw [hrest]
  simp [World.call]

/-- Witness for C18: on the host, with `DockerInDocker` set, a read-only and a read-write
volume. -/
theorem Run_binds_follow_the_probe_witness :
    ∃ config hostConfig rest,
      (Run.prepare {} sampleRunWithVolumes { DockerInDocker := true } {}).2.2.log =
        [RunCall.ImageList "alpine", RunCall.ReadFile "/proc/1/cgroup"] ++
          RunCall.ContainerCreate config hostConfig "r1" :: rest ∧
      hostConfig.Binds =
        ["/var/run/docker.sock:/var/run/docker.sock", "/src:/test:ro", "/out:/tmp/out"] := by
  obtain ⟨config, hostConfig, rest, hlog, _, _, hb⟩ :=
    Run_binds_follow_the_probe {} sampleRunWithVolumes { DockerInDocker := true } {}
      (Run.makeSureImagePulled {} sampleRunWithVolumes { DockerInDocker := true } {}).2
      (Run.IsRunningInDocker {}
        (Run.makeSureImagePulled {} sampleRunWithVolumes { DockerInDocker := true } {}).2).2
      false (by decide) (by decide)
  exact ⟨config, hostConfig, rest, hlog, hb.trans (by decide)⟩


/-! ## Registry credentials and references -/

/-- C14 at two failing inputs.  For the user "bob" with the password "pa:ss" the store
yields the header "Basic Ym9iOnBhOnNz"; the payload is split at every colon, so the auth
configuration gets the password "pa".  For the password "pass?" the standard base64
encoding "Ym9iOnBhc3M/" holds a slash, which the URL alphabet used for decoding does not
have, so an error is returned instead of an auth configuration. -/
theorem Basic_credentials_cut_or_rejected :
    base64Encode base64Std "bob:pa:ss" = "Ym9iOnBhOnNz" ∧
      authConfigFromHeader (RegistryEnv.withHeader "Basic Ym9iOnBhOnNz") "docker.atl-paas.net"
          "Basic Ym9iOnBhOnNz" =
        Except.ok { Username := "bob", Password := "pa" } ∧
      (RegistryFromImageReference (RegistryEnv.withHeader "Basic Ym9iOnBhOnNz")
          "docker.atl-paas.net/deng/test/ok:blah1" []).1 =
        Except.ok { AuthHeader :=
          base64Encode base64URL "\x7b\"username\":\"bob\",\"password\":\"pa\"\x7d" } ∧
      base64Encode base64Std "bob:pass?" = "Ym9iOnBhc3M/" ∧
      (RegistryFromImageReference (RegistryEnv.withHeader "Basic Ym9iOnBhc3M/")
          "docker.atl-paas.net/deng/test/ok:blah1" []).1 =
        Except.error (Failure.error
          "failed to decode Basic auth header values for repo \"docker.atl-paas.net\": illegal base64 data at input byte 11") := by
  decide

/-- C15, as stated, fails: for the authorization header "Digest dXNlcg" no error is
returned; the header as a whole becomes the registry token of the auth configuration, which
is encoded into the auth header of the result. -/
theorem Digest_header_is_encoded_counterexample :
    HasPrefix "Digest dXNlcg" "Basic " = false ∧
      (RegistryFromImageReference (RegistryEnv.withHeader "Digest dXNlcg")
          "docker.atl-paas.net/deng/test/ok:blah1" []).1 =
        Except.ok { AuthHeader :=
          base64Encode base64URL "\x7b\"registrytoken\":\"Digest dXNlcg\"\x7d" } := by
  decide

/-- C15, amended: no scheme is rejected.  Every authorization header that does not start
with "Basic ", whatever its scheme, becomes the registry token of the auth configuration
unchanged, and the result is the URL base64 encoding of the JSON of that configuration; an
error comes back only when `json.Marshal` fails. -/
theorem other_headers_pass_as_registry_token (env : RegistryEnv) (reference : String)
    (log : List RegistryCall) (ref : ParsedReference) (authHeader : String)
    (hparse : env.ParseReference reference = Except.ok ref)
    (hresolve : env.Resolve ref.RegistryStr = Except.ok (Except.ok authHeader))
    (hscheme : HasPrefix authHeader "Basic " = false) :
    authConfigFromHeader env ref.RegistryStr authHeader =
        Except.ok { RegistryToken := authHeader } ∧
      (RegistryFromImageReference env reference log).1 =
        match env.Marshal { RegistryToken := authHeader } with
        | .error err => Except.error (Failure.error err)
        | .ok encodedJSON =>
          Except.ok { AuthHeader := base64Encode base64URL encodedJSON } := by
  have hcfg : authConfigFromHeader env ref.RegistryStr authHeader =
      Except.ok { RegistryToken := authHeader } := by
    simp [authConfigFromHeader, hscheme]
  refine ⟨hcfg, ?_⟩
  simp only [RegistryFromImageReference, hparse, hresolve, hcfg, encodeDockerAuthHeader]
  cases env.Marshal { RegistryToken := authHeader } <;> rfl

/-- Witness for C15, amended: a bearer header. -/
theorem other_headers_pass_as_registry_token_witness :
    (RegistryFromImageReference (RegistryEnv.withHeader "Bearer abc")
        "docker.atl-paas.net/deng/test/ok:blah1" []).1 =
      Except.ok { AuthHeader :=
        base64Encode base64URL "\x7b\"registrytoken\":\"Bearer abc\"\x7d" } :=
  (other_headers_pass_as_registry_token (RegistryEnv.withHeader "Bearer abc")
    "docker.atl-paas.net/deng/test/ok:blah1" []
    { Context := "docker.atl-paas.net/deng/test/ok", RegistryStr := "docker.atl-paas.net",
      Text := "docker.atl-paas.net/deng/test/ok:blah1" }
    "Bearer abc" (by decide) (by decide) (by decide)).2

/-- C16, as stated, fails: for the reference "ubuntu@sha256:de77..." of the tests, whose
name is written "ubuntu", `ImageFromReference` returns the completed name
"index.docker.io/library/ubuntu". -/
theorem ImageFromReference_completes_the_name_counterexample :
    (ImageFromReference (RegistryEnv.withHeader "")
        "ubuntu@sha256:de774a3145f7ca4f0bd144c7d4ffb2931e06634f11529653b23eba85aef8e378"
        []).1 = ("index.docker.io/library/ubuntu", none) := by
  decide

/-- C16, amended: for every reference, the only call of `ImageFromReference` is the call of
the parser, so nothing goes to the network.  When the parser accepts the reference, the
text of the context of the parsed reference is returned with a nil error, and that is the
name `ResolveDockerImageReference` reports for the reference whenever it resolves it.  When
the parser rejects the reference, the empty name is returned with the error
`parsing reference "<reference>": <error of the parser>`. -/
theorem ImageFromReference_returns_the_context (env : RegistryEnv) (reference : String)
    (log : List RegistryCall) :
    (ImageFromReference env reference log).2 = log ++ [RegistryCall.ParseReference reference] ∧
      (∀ ref, env.ParseReference reference = Except.ok ref →
        (ImageFromReference env reference log).1 = (ref.Context, none)) ∧
      (∀ image, (ResolveDockerImageReference env reference log).1 = Except.ok image →
        (ImageFromReference env reference log).1 = (image.Name, none)) ∧
      (∀ err, env.ParseReference reference = Except.error err →
        (ImageFromReference env reference log).1 =
          ("", some ("parsing reference " ++ env.Quote reference ++ ": " ++ err))) := by
  refine ⟨?_, ?_, ?_, ?_⟩
  · unfold ImageFromReference
    split <;> rfl
  · intro ref hparse
    simp [ImageFromReference, hparse]
  · intro image himage
    unfold ResolveDockerImageReference at himage
    unfold ImageFromReference
    rcases hparse : env.ParseReference reference with err | ref
    · rw [hparse] at himage
      simp at himage
    · rw [hparse] at himage
      simp only [] at himage ⊢
      rcases hremote : env.remoteImage ref.Text with err | img
      · rw [hremote] at himage
        simp at himage
      · rw [hremote] at himage
        simp only [] at himage
        rcases img with err | hash
        · simp at himage
        · simp only [Except.ok.injEq] at himage
          rw [← himage]
  · intro err hparse
    simp [ImageFromReference, hparse]

/-- Witness for C16, amended: the reference of `TestDockerImageFromReference`, for which
the parser answers with the context "docker.atl-paas.net/deng/test/ok". -/
theorem ImageFromReference_returns_the_context_witness :
    (ImageFromReference (RegistryEnv.withHeader "") "docker.atl-paas.net/deng/test/ok:blah1"
        []).1 = ("docker.atl-paas.net/deng/test/ok", none) ∧
      (ImageFromReference (RegistryEnv.withHeader "") "docker.atl-paas.net/deng/test/ok:blah1"
        []).2 = [] ++ [RegistryCall.ParseReference "docker.atl-paas.net/deng/test/ok:blah1"] :=
  ⟨(ImageFromReference_returns_the_context (RegistryEnv.withHeader "")
      "docker.atl-paas.net/deng/test/ok:blah1" []).2.1
      { Context := "docker.atl-paas.net/deng/test/ok", RegistryStr := "docker.atl-paas.net",
        Text := "docker.atl-paas.net/deng/test/ok:blah1" } (by decide),
   (ImageFromReference_returns_the_context (RegistryEnv.withHeader "")
      "docker.atl-paas.net/deng/test/ok:blah1" []).1⟩

/-! ## Payloads without a colon, and the exec configuration -/

/-- C26 at the authorization header "Basic Ym9i": the payload decodes to "bob", which holds
no colon, so its split has one piece and reading the second piece for the password stops
the call with a panic; no registry and no error is returned. -/
theorem Basic_payload_without_colon_panics :
    base64Encode base64URL "bob" = "Ym9i" ∧
      Split "bob" ':' = ["bob"] ∧
      (RegistryFromImageReference (RegistryEnv.withHeader "Basic Ym9i")
          "docker.atl-paas.net/deng/test/ok:blah1" []).1 =
        Except.error (Failure.panic "index out of range [1] with length 1") := by
  decide

/-- C30 at a run context that is not privileged: the exec configuration sent to the runtime
is privileged all the same; the command is trimmed and run by "/bin/sh -c", and the working
directory and the user are those of the context. -/
theorem exec_is_privileged_for_every_context :
    (Run.execConfig { Privileged := false, WorkDir := "/src", User := "bob" } " make test\n")
        = { Privileged := true, Cmd := ["/bin/sh", "-c", "make test"], AttachStdout := true, AttachStderr := true, AttachStdin := true, WorkingDir := "/src", User := "bob" } ∧
      (Run.execConfig { Privileged := false } "true").Privileged = true ∧
      (Run.execSingleCommand RunEnv.falseFails { Privileged := false } "c0" "true" true {}).2.log.head?
        = some (RunCall.ContainerExecCreate "c0" (Run.execConfig { Privileged := false } "true")) := by
  decide

end Docker

namespace Util

theorem splitL_no_sep (sep : Char) (k : List Char) (h : sep ∉ k) :
    Docker.splitL sep k = [k] := by
  induction k with
  | nil => rfl
  | cons c cs ih =>
    have hc : c ≠ sep := fun e => h (by simp [e])
    have hcs : sep ∉ cs := fun e => h (by simp [e])
    simp only [Docker.splitL, if_neg hc, ih hcs]

theorem splitL_piece (sep : Char) (k rest : List Char) (h : sep ∉ k) :
    Docker.splitL sep (k ++ sep :: rest) = k :: Docker.splitL sep rest := by
  induction k with
  | nil => simp [Docker.splitL]
  | cons c cs ih =>
    have hc : c ≠ sep := fun e => h (by simp [e])
    have hcs : sep ∉ cs := fun e => h (by simp [e])
    have step : ∀ l, Docker.splitL sep (c :: l)
        = (match Docker.splitL sep l with
          | [] => [[c]]
          | piece :: pieces => (c :: piece) :: pieces) := by
      intro l
      simp only [Docker.splitL, if_neg hc]
    rw [List.cons_append, step, ih hcs]

theorem splitL_intercalate (sep : Char) (k : List Char) (ks : List (List Char))
    (h : ∀ x ∈ k :: ks, sep ∉ x) :
    Docker.splitL sep (List.intercalate [sep] (k :: ks)) = k :: ks := by
  induction ks generalizing k with
  | nil =>
    simpa [List.intercalate] using splitL_no_sep sep k (h k (by simp))
  | cons k2 ks ih =>
    have e : List.intercalate [sep] (k :: k2 :: ks)
        = k ++ sep :: List.intercalate [sep] (k2 :: ks) := by
      simp [List.intercalate]
    rw [e, splitL_piece sep k _ (h k (by simp)),
      ih k2 (fun x hx => h x (List.mem_cons_of_mem _ hx))]

theorem Split_dotted (keys : List String) (hne : keys ≠ [])
    (hdot : ∀ k ∈ keys, '.' ∉ k.data) : Docker.Split (dotted keys) '.' = keys := by
  cases keys with
  | nil => exact absurd rfl hne
  | cons k ks =>
    have h : ∀ x ∈ k.data :: ks.map String.data, '.' ∉ x := by
      intro x hx
      rcases List.mem_cons.1 hx with e | hx
      · rw [e]; exact hdot k (by simp)
      · rcases List.mem_map.1 hx with ⟨y, hy, e⟩
        rw [← e]; exact hdot y (List.mem_cons_of_mem _ hy)
    have := splitL_intercalate '.' k.data (ks.map String.data) h
    simp only [Docker.Split, dotted, List.map_cons]
    rw [this]
    have hid : ∀ l : List String, List.map String.mk (List.map String.data l) = l := by
      intro l
      induction l with
      | nil => rfl
      | cons x xs ih => simp only [List.map_cons, ih]
    simp only [List.map_cons, hid]

theorem getValPart_lookup (fmt : Fmt) (key path : String) (value v : Value)
    (hty : value.inTypeSwitch = true) (h : lookup value key = some v) :
    getValPart fmt key value path = .returns v none := by
  cases value with
  | mapMap m =>
    simp only [lookup] at h
    simp only [getValPart]
    rcases hm : Docker.mapGet m key with _ | x
    · rw [hm] at h; simp at h
    · rw [hm] at h; simp only [Option.map_some', Option.some.injEq] at h; subst h; rfl
  | mapString m =>
    simp only [lookup] at h
    simp only [getValPart]
    rcases hm : Docker.mapGet m key with _ | x
    · rw [hm] at h; simp at h
    · rw [hm] at h; simp only [Option.map_some', Option.some.injEq] at h; subst h; rfl
  | map m =>
    simp only [lookup] at h
    simp only [getValPart]
    rcases hm : Docker.mapGet m key with _ | x
    · rw [hm] at h; simp at h
    · rw [hm] at h; simp only [Option.some.injEq] at h; subst h; rfl
  | nil => simp [Value.inTypeSwitch] at hty
  | string s => simp [Value.inTypeSwitch] at hty
  | int i => simp [Value.inTypeSwitch] at hty
  | bool b => simp [Value.inTypeSwitch] at hty
  | array a => simp [Value.inTypeSwitch] at hty
  | mapOther t m => simp [Value.inTypeSwitch] at hty
  | other t x => simp [Value.inTypeSwitch] at hty

theorem getValPart_missing (fmt : Fmt) (key path : String) (m : Value)
    (hmap : m.inTypeSwitch = true) (h : lookup m key = none) :
    getValPart fmt key m path = .returns m.zeroElement (some (keyNotPresent key path)) := by
  cases m with
  | mapMap m =>
    simp only [lookup] at h
    simp only [getValPart, Value.zeroElement]
    rcases hm : Docker.mapGet m key with _ | x
    · rfl
    · rw [hm] at h; simp at h
  | mapString m =>
    simp only [lookup] at h
    simp only [getValPart, Value.zeroElement]
    rcases hm : Docker.mapGet m key with _ | x
    · rfl
    · rw [hm] at h; simp at h
  | map m =>
    simp only [lookup] at h
    simp only [getValPart, Value.zeroElement]
    rcases hm : Docker.mapGet m key with _ | x
    · rfl
    · rw [hm] at h; simp at h
  | nil => simp [Value.inTypeSwitch] at hmap
  | string s => simp [Value.inTypeSwitch] at hmap
  | int i => simp [Value.inTypeSwitch] at hmap
  | bool b => simp [Value.inTypeSwitch] at hmap
  | array a => simp [Value.inTypeSwitch] at hmap
  | mapOther t m => simp [Value.inTypeSwitch] at hmap
  | other t x => simp [Value.inTypeSwitch] at hmap

theorem getValueLoop_lookupAll (fmt : Fmt) (path : String) (keys : List String)
    (obj v : Value) (h : lookupAll obj keys = some v) (hw : walked obj keys = true) :
    getValueLoop fmt path keys obj = .returns v none := by
  induction keys generalizing obj with
  | nil => simp only [lookupAll, Option.some.injEq] at h; simp [getValueLoop, h]
  | cons k ks ih =>
    simp only [lookupAll] at h
    rcases hl : lookup obj k with _ | v1
    · rw [hl] at h; simp at h
    · rw [hl] at h
      simp only [Option.some_bind] at h
      simp only [walked, hl, Bool.and_eq_true] at hw
      simp only [getValueLoop, getValPart_lookup fmt k path obj v1 hw.1 hl]
      exact ih v1 h hw.2

theorem getValueLoop_append (fmt : Fmt) (path : String) (pre rest : List String)
    (obj m : Value) (h : lookupAll obj pre = some m) (hw : walked obj pre = true) :
    getValueLoop fmt path (pre ++ rest) obj = getValueLoop fmt path rest m := by
  induction pre generalizing obj with
  | nil => simp only [lookupAll, Option.some.injEq] at h; simp [h]
  | cons k ks ih =>
    simp only [lookupAll] at h
    rcases hl : lookup obj k with _ | v1
    · rw [hl] at h; simp at h
    · rw [hl] at h
      simp only [Option.some_bind] at h
      simp only [walked, hl, Bool.and_eq_true] at hw
      simp only [List.cons_append, getValueLoop, getValPart_lookup fmt k path obj v1 hw.1 hl]
      exact ih v1 h hw.2

theorem lookupAll_not_nil (keys : List String) (v : Value) (hne : keys ≠ [])
    (h : lookupAll .nil keys = some v) : False := by
  cases keys with
  | nil => exact hne rfl
  | cons k ks => simp [lookupAll, lookup] at h

theorem GetValue_not_nil (fmt : Fmt) (key : String) (value : Value) (h : value ≠ .nil) :
    GetValue fmt key value = getValueLoop fmt key (Docker.Split key '.') value := by
  cases value <;> first | exact absurd rfl h | rfl

/-- C19, as stated, fails: in the object `{"a": map[string]int{"b": 1}}`, built from nested
maps with string keys, the lookups a and b succeed and reach 1, yet `GetValue` on "a.b"
returns nil with the error for an unsupported value type, the level `map[string]int` being
none of the types of the type switch. -/
theorem GetValue_other_map_type_counterexample :
    lookupAll (.map [("a", .mapOther "map[string]int" [("b", .int 1)])]) ["a", "b"]
        = some (.int 1) ∧
      dotted ["a", "b"] = "a.b" ∧
      GetValue sampleFmt "a.b" (.map [("a", .mapOther "map[string]int" [("b", .int 1)])])
        = .returns .nil
            (some "unsupported value type for key [key:b] of [path:a.b] [value:map[b:1]]") := by
  refine ⟨rfl, by decide, rfl⟩

/-- C19, amended: for a non-empty list of keys without dots and an object in which the
successive lookups all succeed, every level in which a key is looked up being of type
`map[string]interface{}`, `map[string]string` or `map[string]map[string]interface{}`,
`GetValue` on the dotted path returns the value those lookups reach, with a nil error. -/
theorem GetValue_follows_the_lookups (fmt : Fmt) (keys : List String) (obj v : Value)
    (hne : keys ≠ []) (hdot : ∀ k ∈ keys, '.' ∉ k.data)
    (h : lookupAll obj keys = some v) (hw : walked obj keys = true) :
    GetValue fmt (dotted keys) obj = .returns v none := by
  have hobj : obj ≠ .nil := by
    intro e; rw [e] at h; exact lookupAll_not_nil keys v hne h
  rw [GetValue_not_nil fmt _ obj hobj, Split_dotted keys hne hdot]
  exact getValueLoop_lookupAll fmt _ keys obj v h hw

theorem GetValue_follows_the_lookups_witness :
    GetValue sampleFmt (dotted ["a", "b", "c", "d"]) sampleObject = .returns (.int 10) none ∧
    GetValue sampleFmt (dotted ["a", "b", "str", "val"]) sampleObject
      = .returns (.string "val") none :=
  ⟨GetValue_follows_the_lookups sampleFmt ["a", "b", "c", "d"] sampleObject (.int 10)
      (by decide) (by decide) rfl rfl,
   GetValue_follows_the_lookups sampleFmt ["a", "b", "str", "val"] sampleObject (.string "val")
      (by decide) (by decide) rfl rfl⟩

/-- C20, as stated, fails: the empty `map[string]int` is a non-nil map object of which "a"
is not a key, yet `GetValue` on "a" returns the error for an unsupported value type and not
the error for a key that is not present. -/
theorem GetValue_missing_key_other_map_counterexample :
    (Value.mapOther "map[string]int" []).isMap = true ∧
      lookup (.mapOther "map[string]int" []) "a" = none ∧
      GetValue sampleFmt "a" (.mapOther "map[string]int" [])
        = .returns .nil
            (some "unsupported value type for key [key:a] of [path:a] [value:map[]]") := by
  refine ⟨rfl, rfl, rfl⟩

/-- C20, amended: when the segments before a segment `k` resolve, through levels of the
three map types of the type switch, to a value of one of these types of which `k` is not a
key, `GetValue` returns the error `key not present. [key:k] of [path:<the whole path>]`,
with the zero value of the map's element type as result, whatever the segments after `k`
are. -/
theorem GetValue_missing_key (fmt : Fmt) (pre post : List String) (k : String)
    (obj m : Value) (hdot : ∀ x ∈ pre ++ k :: post, '.' ∉ x.data)
    (hpre : lookupAll obj pre = some m) (hw : walked obj pre = true)
    (hmap : m.inTypeSwitch = true) (hk : lookup m k = none) :
    GetValue fmt (dotted (pre ++ k :: post)) obj
      = .returns m.zeroElement
          (some ("key not present. [key:" ++ k ++ "] of [path:" ++
            dotted (pre ++ k :: post) ++ "]")) := by
  have hobj : obj ≠ .nil := by
    intro e
    rw [e] at hpre
    cases pre with
    | nil =>
      simp only [lookupAll, Option.some.injEq] at hpre
      rw [← hpre] at hmap; simp [Value.inTypeSwitch] at hmap
    | cons p ps => exact lookupAll_not_nil (p :: ps) m (by simp) hpre
  rw [GetValue_not_nil fmt _ obj hobj, Split_dotted _ (by simp) hdot,
    getValueLoop_append fmt _ pre (k :: post) obj m hpre hw]
  simp only [getValueLoop, getValPart_missing fmt k _ m hmap hk]
  rfl

theorem GetValue_missing_key_witness :
    GetValue sampleFmt (dotted ["a", "b", "c", "d"]) (.map [])
      = .returns .nil (some ("key not present. [key:a] of [path:a.b.c.d]")) ∧
    GetValue sampleFmt (dotted ["a", "b", "x", "d"]) sampleObject
      = .returns .nil (some ("key not present. [key:x] of [path:a.b.x.d]")) :=
  ⟨GetValue_missing_key sampleFmt [] ["b", "c", "d"] "a" (.map []) (.map [])
      (by decide) rfl rfl rfl rfl,
   GetValue_missing_key sampleFmt ["a", "b"] ["d"] "x" sampleObject _
      (by decide) rfl rfl rfl rfl⟩

/-! ## The example of the doc comment, and slices -/

/-- C21, as stated, fails: on the object of the doc comment of `GetValue`,
`{"a": {"b": "c"}}`, the path "a.b.c" looks the segment "c" up in the string "c", which is
of none of the types `getValPart` walks through, and the result is nil with the error for
an unsupported value type. -/
theorem GetValue_doc_example_counterexample :
    GetValue sampleFmt "a.b.c" (.map [("a", .map [("b", .string "c")])])
      = .returns .nil
          (some "unsupported value type for key [key:c] of [path:a.b.c] [value:c]") := by
  rfl

/-- C21, amended: on the object `{"a": {"b": "c"}}` the value "c" is reached by the path of
its keys, "a.b", with a nil error, as the values of the tests of the package are; the path
"a.b.c" gets nil and the error for an unsupported value type, whatever `%v` prints. -/
theorem GetValue_doc_example_by_its_keys (fmt : Fmt) :
    GetValue fmt "a.b" (.map [("a", .map [("b", .string "c")])])
        = .returns (.string "c") none ∧
      GetValue fmt "a.b.c" (.map [("a", .map [("b", .string "c")])])
        = .returns .nil
            (some ("unsupported value type for key [key:c] of [path:a.b.c] [value:" ++
              fmt.v (.string "c") ++ "]")) := by
  constructor <;> rfl

/-- C25 at the slice `[1]`: the segment "-1" parses to the integer -1, which is below the
length 1, so the element at index -1 is read and the run time stops the call with a panic,
in `getValPart` and so in `GetValue`; the segment "1" gets the error for an index out of
bounds, and the segment "0" the element. -/
theorem getValPart_negative_index_panics (fmt : Fmt) :
    getValPart fmt "-1" (.array [.int 1]) "-1"
        = .panics "runtime error: index out of range [-1]" ∧
      GetValue fmt "-1" (.array [.int 1])
        = .panics "runtime error: index out of range [-1]" ∧
      GetValue fmt "a.-1" (.map [("a", .array [.int 1])])
        = .panics "runtime error: index out of range [-1]" ∧
      getValPart fmt "1" (.array [.int 1]) "1"
        = .returns .nil (some ("index out of bounds. [index:" ++ "1" ++ "] [array:" ++
            fmt.v (.array [.int 1]) ++ "] of [path:" ++ "1" ++ "]")) ∧
      getValPart fmt "0" (.array [.int 1]) "0" = .returns (.int 1) none := by
  refine ⟨?_, ?_, ?_, ?_, ?_⟩ <;> rfl

end Util

namespace Git

/-! ## Short hashes -/

/-- C28 where no repository can be opened: `Hash` returns the empty string with the error,
and `HashShort` stops with a panic on `hash[:7]` instead of returning that error; a full
hash is cut to its first 7 letters. -/
theorem HashShort_panics_when_Hash_fails :
    GitImpl.Hash GitEnv.noRepository { RootPath := "/src" }
        = ("", some "repository does not exist") ∧
      GitImpl.HashShort GitEnv.noRepository { RootPath := "/src" }
        = .error "runtime error: slice bounds out of range [:7] with length 0" ∧
      GitImpl.HashShort (GitEnv.withHead "abc12") { RootPath := "/src" }
        = .error "runtime error: slice bounds out of range [:7] with length 5" ∧
      GitImpl.HashShort (GitEnv.withHead "0123456789abcdef0123456789abcdef01234567")
          { RootPath := "/src" }
        = .ok ("0123456", none) := by
  decide

end Git

namespace Build

/-! ## Platforms -/

/-- C27 at the filter "linux" with the configured platform linux/amd64: the entry has no
colon, its first piece is the `GOOS`, and reading the second piece stops the call with a
panic.  With the filter "linux:amd64" the platform is returned, and with "-" the configured
list. -/
theorem ActivePlatforms_entry_without_colon_panics :
    Context.ActivePlatforms { Platforms := [⟨"linux", "amd64"⟩], FilterPlatforms := "linux" }
        = .error "runtime error: index out of range [1] with length 1" ∧
      Context.ActivePlatforms { Platforms := [⟨"", "amd64"⟩], FilterPlatforms := "" }
        = .error "runtime error: index out of range [1] with length 1" ∧
      Context.ActivePlatforms
          { Platforms := [⟨"darwin", "amd64"⟩, ⟨"linux", "amd64"⟩], FilterPlatforms := "linux:amd64" }
        = .ok ([⟨"linux", "amd64"⟩], "Active platforms:  [\x7blinux amd64\x7d]\n") ∧
      Context.ActivePlatforms
          { Platforms := [⟨"darwin", "amd64"⟩, ⟨"linux", "amd64"⟩], FilterPlatforms := "-" }
        = .ok ([⟨"darwin", "amd64"⟩, ⟨"linux", "amd64"⟩], "") := by
  decide

/-- C29 for the platform linux/amd64 and the `GOPATH` "/go": `GoEnv` returns six strings,
three empty ones followed by the entry of `GoBuildEnv` and the two platform entries. -/
theorem GoEnv_starts_with_empty_strings :
    Platform.GoEnv (GoBuildEnv "/go") ⟨"linux", "amd64"⟩
        = ["", "", "", "GOPATH=/go", "GOOS=linux", "GOARCH=amd64"] ∧
      (Platform.GoEnv (GoBuildEnv "/go") ⟨"linux", "amd64"⟩).length = 6 ∧
      (GoBuildEnv "/go").length + 2 = 3 := by
  decide

end Build

namespace Config

/-! ## Defaults and environment -/

theorem mem_zip_map_self {α β : Type} (f : α → β) (l : List α) (p : α × β)
    (h : p ∈ List.zip l (l.map f)) : p.2 = f p.1 := by
  induction l with
  | nil => simp at h
  | cons x xs ih =>
    simp only [List.map_cons, List.zip_cons_cons, List.mem_cons] at h
    rcases h with h | h
    · rw [h]
    · exact ih h

theorem AddDefaults_fst (rawConfig : List (String × Util.Value)) (cfg : List StructField) :
    (AddDefaults rawConfig cfg).1 = cfg.map (fun f => (addDefault rawConfig f).1) := by
  induction cfg with
  | nil => rfl
  | cons f fs ih => simp only [AddDefaults, List.map_cons, ih]

theorem AddEnv_fst (environ : List (String × String)) (cfg : List StructField) :
    (AddEnv environ cfg).1 = cfg.map (fun f => (addEnv environ f).1) := by
  induction cfg with
  | nil => rfl
  | cons f fs ih => simp only [AddEnv, List.map_cons, ih]

theorem setFieldValue_sets (f : StructField) (v : String) :
    (setFieldValue f v).1.Name = f.Name ∧ (setFieldValue f v).1.Tag = f.Tag ∧
      (setFieldValue f v).1.CanSet = f.CanSet ∧
      (f.CanSet = false → (setFieldValue f v).1 = f) ∧
      (f.CanSet = true →
        (∀ s, f.value = .string s → (setFieldValue f v).1.value = .string v) ∧
        (∀ b, f.value = .bool b → (setFieldValue f v).1.value = .bool (decide (v = "true"))) ∧
        (∀ i n, f.value = .int64 i → Atoi v = some n →
          (setFieldValue f v).1.value = .int64 n) ∧
        (∀ i, f.value = .int64 i → Atoi v = none → (setFieldValue f v).1 = f) ∧
        (∀ t, f.value = .other t → (setFieldValue f v).1 = f)) := by
  obtain ⟨name, tag, canSet, value⟩ := f
  cases canSet
  · simp [setFieldValue]
  · cases value with
    | string s => simp [setFieldValue]
    | bool b => simp [setFieldValue]
    | other t => simp [setFieldValue]
    | int64 i =>
      rcases h : Atoi v with _ | n
      · simp [setFieldValue, h]
      · simp [setFieldValue, h]

/-- C22, as stated, fails: with every yaml name of `TestConfig` bound in the raw map, the
key "-" included, the fields `IsParallel` and `IsSkipTests`, whose yaml name is "-", are set
to their defaults all the same; the other fields are left as they were. -/
theorem AddDefaults_dash_field_counterexample :
    rawIsNil [("-", Util.Value.string "x"), ("outDir", .string ""), ("version", .string ""),
        ("armoryURL", .string ""), ("trebuchetURL", .string "")] "-" = false ∧
      (AddDefaults [("-", Util.Value.string "x"), ("outDir", .string ""),
          ("version", .string ""), ("armoryURL", .string ""), ("trebuchetURL", .string "")]
          (TestConfig "bla" "1.0" "http://blabla" "http://t" false "true")).1
        = TestConfig "bla" "1.0" "http://blabla" "http://t" true "false" := by
  decide

/-- C22, amended: `AddDefaults` keeps the number, names, tags and settability of the fields.
A field whose yaml name is not "-" and is bound to a non-nil value in the raw map is left
unchanged, and so is a field that cannot be set.  A settable field whose yaml name is "-",
or is absent from the raw map or bound to nil, is set from its `default` tag: a string to
the tag, a bool to whether the tag is "true", an int64 to the integer the tag parses to;
an int64 whose tag is no integer and a field of another type are left unchanged. -/
theorem AddDefaults_sets_undefined_fields (rawConfig : List (String × Util.Value))
    (cfg : List StructField) :
    (AddDefaults rawConfig cfg).1.length = cfg.length ∧
      ∀ p ∈ List.zip cfg (AddDefaults rawConfig cfg).1,
        p.2.Name = p.1.Name ∧ p.2.Tag = p.1.Tag ∧ p.2.CanSet = p.1.CanSet ∧
        (rawIsNil rawConfig (getYamlFieldName p.1) = false → getYamlFieldName p.1 ≠ "-" →
          p.2 = p.1) ∧
        (p.1.CanSet = false → p.2 = p.1) ∧
        (p.1.CanSet = true →
          (rawIsNil rawConfig (getYamlFieldName p.1) = true ∨ getYamlFieldName p.1 = "-") →
          (∀ s, p.1.value = .string s → p.2.value = .string (p.1.TagGet "default")) ∧
          (∀ b, p.1.value = .bool b →
            p.2.value = .bool (decide (p.1.TagGet "default" = "true"))) ∧
          (∀ i n, p.1.value = .int64 i → Atoi (p.1.TagGet "default") = some n →
            p.2.value = .int64 n) ∧
          (∀ i, p.1.value = .int64 i → Atoi (p.1.TagGet "default") = none → p.2 = p.1) ∧
          (∀ t, p.1.value = .other t → p.2 = p.1)) := by
  rw [AddDefaults_fst]
  refine ⟨by simp, ?_⟩
  rintro ⟨f, g⟩ hp
  have hg : g = (addDefault rawConfig f).1 := mem_zip_map_self _ cfg (f, g) hp
  subst hg
  have hset := setFieldValue_sets f (f.TagGet "default")
  by_cases hc : rawIsNil rawConfig (getYamlFieldName f) = true ∨ getYamlFieldName f = "-"
  · have e : (addDefault rawConfig f).1 = (setFieldValue f (f.TagGet "default")).1 := by
      simp only [addDefault, if_pos hc]
    simp only [e]
    refine ⟨hset.1, hset.2.1, hset.2.2.1, ?_, hset.2.2.2.1, fun h _ => hset.2.2.2.2 h⟩
    intro h1 h2
    rcases hc with hc | hc
    · rw [h1] at hc; exact absurd hc (by decide)
    · exact absurd hc h2
  · have e : (addDefault rawConfig f).1 = f := by
      simp only [addDefault, if_neg hc]
    dsimp only
    rw [e]
    refine ⟨rfl, rfl, rfl, fun _ _ => rfl, fun _ => rfl, fun _ h => absurd h hc⟩

/-- C23, as stated, fails: with `PORT` set to "abc" and `MODE` set to "slow", the field
`Port` of type `int64` keeps the 5 it held (a warning is printed), and the field `Mode` of a
named string type keeps "fast". -/
theorem AddEnv_unparsable_integer_counterexample :
    Getenv [("PORT", "abc"), ("MODE", "slow")] "PORT" = "abc" ∧
      AddEnv [("PORT", "abc"), ("MODE", "slow")] (sampleServerConfig 5 "fast")
        = (sampleServerConfig 5 "fast", [.Print "WARN: 'abc' is not integer\n"]) := by
  decide

/-- C23, amended: `AddEnv` keeps the number, names, tags and settability of the fields.  A
field whose `env` tag is missing or names a variable that is unset or empty is left
unchanged, and so is a field that cannot be set.  A settable field whose variable has a
non-empty value is set from it, whatever it held: a string to the value, a bool to whether
the value is "true", an int64 to the integer the value parses to; an int64 whose variable is
no integer and a field of another type are left unchanged. -/
theorem AddEnv_sets_fields_from_variables (environ : List (String × String))
    (cfg : List StructField) :
    (AddEnv environ cfg).1.length = cfg.length ∧
      ∀ p ∈ List.zip cfg (AddEnv environ cfg).1,
        p.2.Name = p.1.Name ∧ p.2.Tag = p.1.Tag ∧ p.2.CanSet = p.1.CanSet ∧
        (Docker.mapGet p.1.Tag "env" = none → p.2 = p.1) ∧
        (Getenv environ (p.1.TagGet "env") = "" → p.2 = p.1) ∧
        (p.1.CanSet = false → p.2 = p.1) ∧
        (p.1.CanSet = true → Getenv environ (p.1.TagGet "env") ≠ "" →
          (∀ s, p.1.value = .string s →
            p.2.value = .string (Getenv environ (p.1.TagGet "env"))) ∧
          (∀ b, p.1.value = .bool b →
            p.2.value = .bool (decide (Getenv environ (p.1.TagGet "env") = "true"))) ∧
          (∀ i n, p.1.value = .int64 i → Atoi (Getenv environ (p.1.TagGet "env")) = some n →
            p.2.value = .int64 n) ∧
          (∀ i, p.1.value = .int64 i → Atoi (Getenv environ (p.1.TagGet "env")) = none →
            p.2 = p.1) ∧
          (∀ t, p.1.value = .other t → p.2 = p.1)) := by
  rw [AddEnv_fst]
  refine ⟨by simp, ?_⟩
  rintro ⟨f, g⟩ hp
  have hg : g = (addEnv environ f).1 := mem_zip_map_self _ cfg (f, g) hp
  subst hg
  have hset := setFieldValue_sets f (Getenv environ (f.TagGet "env"))
  have hnone : Docker.mapGet f.Tag "env" = none → Getenv environ (f.TagGet "env") = "" := by
    intro h
    simp [StructField.TagGet, h, Getenv]
  by_cases hc : Getenv environ (f.TagGet "env") = ""
  · have e : (addEnv environ f).1 = f := by
      simp only [addEnv, hc, ne_eq, not_true_eq_false, if_false]
    dsimp only
    rw [e]
    exact ⟨rfl, rfl, rfl, fun _ => rfl, fun _ => rfl, fun _ => rfl, fun _ h => absurd hc h⟩
  · have e : (addEnv environ f).1 = (setFieldValue f (Getenv environ (f.TagGet "env"))).1 := by
      simp only [addEnv, ne_eq, hc, not_false_eq_true, if_true]
    simp only [e]
    exact ⟨hset.1, hset.2.1, hset.2.2.1, fun h => absurd (hnone h) hc, fun h => absurd h hc,
      hset.2.2.2.1, fun h _ => hset.2.2.2.2 h⟩


/-- C22 on `TestConfig` with the raw keys armoryURL and outDir bound: the field
`TrebuchetURL` receives its default and the field `ArmoryURL` is kept. -/
theorem AddDefaults_sets_undefined_fields_witness :
    ((trebuchetURLField "", trebuchetURLField "https://trebuchet.prod.atl-paas.net") ∈
        List.zip (TestConfig "bla" "" "http://blabla" "" false "")
          (AddDefaults [("armoryURL", .string ""), ("outDir", .string "")]
            (TestConfig "bla" "" "http://blabla" "" false "")).1 ∧
      (trebuchetURLField "https://trebuchet.prod.atl-paas.net").value
        = .string ((trebuchetURLField "").TagGet "default")) ∧
    ((armoryURLField "http://blabla", armoryURLField "http://blabla") ∈
        List.zip (TestConfig "bla" "" "http://blabla" "" false "")
          (AddDefaults [("armoryURL", .string ""), ("outDir", .string "")]
            (TestConfig "bla" "" "http://blabla" "" false "")).1) :=
  ⟨⟨by decide,
    ((AddDefaults_sets_undefined_fields [("armoryURL", .string ""), ("outDir", .string "")]
      (TestConfig "bla" "" "http://blabla" "" false "")).2
      (trebuchetURLField "", trebuchetURLField "https://trebuchet.prod.atl-paas.net")
      (by decide)).2.2.2.2.2 rfl (by decide) |>.1 "" rfl⟩,
   by decide⟩

/-- C23 on the defaults of `TestConfig` with `OUT_DIR` set to "somedir" and `PARALLEL` set
to "false": the field `OutDir` holds "somedir" and the field `IsParallel` false. -/
theorem AddEnv_sets_fields_from_variables_witness :
    ((outDirField "bin", outDirField "somedir") ∈
        List.zip (TestConfig "bin" "" "a" "t" true "false")
          (AddEnv [("ARMORY_URL", "http://blablabla"), ("OUT_DIR", "somedir"),
            ("PARALLEL", "false")] (TestConfig "bin" "" "a" "t" true "false")).1 ∧
      (outDirField "somedir").value = .string "somedir") ∧
    ((isParallelField true, isParallelField false) ∈
        List.zip (TestConfig "bin" "" "a" "t" true "false")
          (AddEnv [("ARMORY_URL", "http://blablabla"), ("OUT_DIR", "somedir"),
            ("PARALLEL", "false")] (TestConfig "bin" "" "a" "t" true "false")).1 ∧
      (isParallelField false).value = .bool false) :=
  ⟨⟨by decide,
    ((AddEnv_sets_fields_from_variables
      [("ARMORY_URL", "http://blablabla"), ("OUT_DIR", "somedir"), ("PARALLEL", "false")]
      (TestConfig "bin" "" "a" "t" true "false")).2
      (outDirField "bin", outDirField "somedir") (by decide)).2.2.2.2.2.2
      rfl (by decide) |>.1 "bin" rfl⟩,
   ⟨by decide,
    ((AddEnv_sets_fields_from_variables
      [("ARMORY_URL", "http://blablabla"), ("OUT_DIR", "somedir"), ("PARALLEL", "false")]
      (TestConfig "bin" "" "a" "t" true "false")).2
      (isParallelField true, isParallelField false) (by decide)).2.2.2.2.2.2
      rfl (by decide) |>.2.1 true rfl⟩⟩

/-! ## Reading from the console -/

theorem asked_iff (f : StructField) :
    asked f = true ↔ f.CanSet = true ∧ (f.value = .string "" ∨ f.value = .other "") := by
  obtain ⟨name, tag, canSet, value⟩ := f
  have hs : ∀ s : String, s.data.length = 0 ↔ s = "" := by
    intro s
    constructor
    · intro h
      have : s.data = [] := List.length_eq_zero.1 h
      exact String.ext this
    · intro h; rw [h]; rfl
  have hl : ∀ s : String, s.length = 0 ↔ s = "" := fun s => hs s
  cases value with
  | string s => cases canSet <;> simp [asked, FieldValue.String, hl]
  | other t => cases canSet <;> simp [asked, FieldValue.String, hl]
  | int64 i => cases canSet <;> simp [asked, FieldValue.String]
  | bool b => cases canSet <;> simp [asked, FieldValue.String]

theorem setFieldValue_prints_nothing_when_asked (f : StructField) (v : String)
    (h : asked f = true) : (setFieldValue f v).2 = [] := by
  rcases (asked_iff f).1 h with ⟨hc, hv | hv⟩
  · simp [setFieldValue, hc, hv]
  · simp [setFieldValue, hc, hv]

theorem readField_not_asked (reader : ConsoleReader) (f : StructField)
    (lg : List ConsoleCall) (h : asked f = false) : readField reader f lg = (f, lg) := by
  simp [readField, h]

theorem readField_log (reader : ConsoleReader) (f : StructField) (lg : List ConsoleCall)
    (h : asked f = true) :
    (readField reader f lg).2 = lg ++ [.Print (prompt f), readCall f] := by
  simp only [readField, h, if_true]
  split
  · simp [setFieldValue_prints_nothing_when_asked f _ h]
  · simp

theorem ReadConfig_append (reader : ConsoleReader) (pre rest : List StructField)
    (log : List ConsoleCall) :
    ReadConfig reader (pre ++ rest) log
      = ((ReadConfig reader pre log).1 ++ (ReadConfig reader rest (ReadConfig reader pre log).2).1,
          (ReadConfig reader rest (ReadConfig reader pre log).2).2) := by
  induction pre generalizing log with
  | nil => simp [ReadConfig]
  | cons f fs ih =>
    have h := ih (readField reader f log).2
    simp only [List.cons_append, ReadConfig, List.append_eq]
    rw [h]

theorem ReadConfig_length (reader : ConsoleReader) (cfg : List StructField)
    (log : List ConsoleCall) : (ReadConfig reader cfg log).1.length = cfg.length := by
  induction cfg generalizing log with
  | nil => rfl
  | cons f fs ih => simp only [ReadConfig, List.length_cons, ih]

theorem ReadConfig_reads (reader : ConsoleReader) (cfg : List StructField)
    (log : List ConsoleCall) :
    ((ReadConfig reader cfg log).2.filter ConsoleCall.isRead).length
      = (log.filter ConsoleCall.isRead).length + (cfg.filter asked).length := by
  induction cfg generalizing log with
  | nil => simp [ReadConfig]
  | cons f fs ih =>
    simp only [ReadConfig, ih]
    rcases h : asked f with _ | _
    · simp [readField_not_asked reader f log h, List.filter_cons, h]
    · have hr : (readCall f).isRead = true := by
        simp only [readCall]; split <;> rfl
      have hp : ConsoleCall.isRead (.Print (prompt f)) = false := rfl
      simp only [readField_log reader f log h, List.filter_append, List.filter_cons, hp, hr,
        h, List.filter_nil, List.length_append, List.length_cons, List.length_nil, if_true,
        Bool.false_eq_true, if_false]
      omega

theorem ReadConfig_none_asked (reader : ConsoleReader) (cfg : List StructField)
    (log : List ConsoleCall) (h : ∀ f ∈ cfg, asked f = false) :
    ReadConfig reader cfg log = (cfg, log) := by
  induction cfg generalizing log with
  | nil => rfl
  | cons f fs ih =>
    have hf := h f (by simp)
    simp only [ReadConfig, readField_not_asked reader f log hf,
      ih log (fun g hg => h g (List.mem_cons_of_mem _ hg))]

theorem readField_stores (reader : ConsoleReader) (f : StructField) (lg : List ConsoleCall)
    (hc : f.CanSet = true) (hv : f.value = .string "")
    (h1 : answer reader f (lg ++ [.Print (prompt f)]) ≠ "")
    (h2 : answer reader f (lg ++ [.Print (prompt f)]) ≠ "\n") :
    (readField reader f lg).1
      = { f with value := .string (answer reader f (lg ++ [.Print (prompt f)])) } := by
  have ha : asked f = true := (asked_iff f).2 ⟨hc, Or.inl hv⟩
  have hpos : 0 < (answer reader f (lg ++ [.Print (prompt f)])).data.length := by
    rcases hd : (answer reader f (lg ++ [.Print (prompt f)])).data with _ | ⟨c, cs⟩
    · exact absurd (String.ext hd) h1
    · rw [hd]; exact Nat.succ_pos _
  simp only [readField, ha, if_true, hpos, h2, ne_eq, not_false_eq_true, and_self]
  simp [setFieldValue, hc, hv]

theorem readField_keeps (reader : ConsoleReader) (f : StructField) (lg : List ConsoleCall)
    (h : answer reader f (lg ++ [.Print (prompt f)]) = "" ∨
      answer reader f (lg ++ [.Print (prompt f)]) = "\n" ∨ f.value = .other "") :
    (readField reader f lg).1 = f := by
  rcases ha : asked f with _ | _
  · rw [readField_not_asked reader f lg ha]
  · simp only [readField, ha, if_true]
    rcases h with h | h | h
    · simp [h]
    · simp [h]
    · split
      · simp [setFieldValue, h]
      · rfl

/-- C24, as stated, fails: the answer "\n" to the question for the empty field `Version` is
not empty, yet the field stays empty; and the answer "x" to the question for the empty
field `Mode`, of a named string type, is not stored either. -/
theorem ReadConfig_newline_answer_counterexample :
    ReadConfig (ConsoleReader.always "\n") (TestConfig "bin" "" "u" "t" true "true") []
        = (TestConfig "bin" "" "u" "t" true "true",
            [.Print "Enter Version []: ", .ReadLine]) ∧
      ReadConfig (ConsoleReader.always "x") (sampleServerConfig 5 "") []
        = (sampleServerConfig 5 "", [.Print "Enter Mode []: ", .ReadLine]) := by
  decide

/-- C24, amended: `ReadConfig` keeps the number of fields and treats each field by
`readField`, on the calls made for the fields before it.  A field is asked for exactly when
it can be set and is an empty string, of type string or of a named string type.  A field
that is not asked for causes no call and is left unchanged.  A field that is asked for
causes one prompt and one read; an answer that is neither empty nor a lone newline is
stored in a field of type string, and every other answer, and every answer for a field of a
named string type, leaves the field unchanged.  The reader is called once for each field
asked for, and when no field is asked for nothing is called and nothing changes. -/
theorem ReadConfig_asks_for_empty_string_fields (reader : ConsoleReader)
    (cfg : List StructField) (log : List ConsoleCall) :
    (ReadConfig reader cfg log).1.length = cfg.length ∧
      (∀ pre f post, cfg = pre ++ f :: post →
        (ReadConfig reader cfg log).1[pre.length]?
          = some (readField reader f (ReadConfig reader pre log).2).1) ∧
      (∀ f, asked f = true ↔
          f.CanSet = true ∧ (f.value = .string "" ∨ f.value = .other "")) ∧
      (∀ f lg, asked f = false → readField reader f lg = (f, lg)) ∧
      (∀ f lg, asked f = true →
        (readField reader f lg).2 = lg ++ [.Print (prompt f), readCall f] ∧
        (f.value = .string "" → answer reader f (lg ++ [.Print (prompt f)]) ≠ "" →
          answer reader f (lg ++ [.Print (prompt f)]) ≠ "\n" →
          (readField reader f lg).1
            = { f with value := .string (answer reader f (lg ++ [.Print (prompt f)])) }) ∧
        (answer reader f (lg ++ [.Print (prompt f)]) = "" ∨
            answer reader f (lg ++ [.Print (prompt f)]) = "\n" ∨ f.value = .other "" →
          (readField reader f lg).1 = f)) ∧
      ((ReadConfig reader cfg log).2.filter ConsoleCall.isRead).length
        = (log.filter ConsoleCall.isRead).length + (cfg.filter asked).length ∧
      ((∀ f ∈ cfg, asked f = false) → ReadConfig reader cfg log = (cfg, log)) := by
  refine ⟨ReadConfig_length reader cfg log, ?_, asked_iff, readField_not_asked reader, ?_,
    ReadConfig_reads reader cfg log, ReadConfig_none_asked reader cfg log⟩
  · intro pre f post hcfg
    rw [hcfg, ReadConfig_append]
    have hlen : (ReadConfig reader pre log).1.length ≤ pre.length := by
      rw [ReadConfig_length]
    rw [List.getElem?_append_right hlen, ReadConfig_length, Nat.sub_self]
    simp [ReadConfig]
  · intro f lg ha
    exact ⟨readField_log reader f lg ha,
      fun hv h1 h2 => readField_stores reader f lg ((asked_iff f).1 ha).1 hv h1 h2,
      readField_keeps reader f lg⟩

/-- C24 on the defaults of `TestConfig` with the reader of the tests, which answers "1.0.0":
the field `Version`, the only empty settable string, is asked for once and holds the
answer afterwards. -/
theorem ReadConfig_asks_for_empty_string_fields_witness :
    (ReadConfig (ConsoleReader.always "1.0.0") (TestConfig "bin" "" "u" "t" true "false") []).1[1]?
        = some (versionField "1.0.0") ∧
      ReadConfig (ConsoleReader.always "SomeString")
          (TestConfig "bin" "1.0.0" "u" "t" true "false") []
        = (TestConfig "bin" "1.0.0" "u" "t" true "false", []) :=
  ⟨((ReadConfig_asks_for_empty_string_fields (ConsoleReader.always "1.0.0")
      (TestConfig "bin" "" "u" "t" true "false") []).2.1 [outDirField "bin"]
      (versionField "") _ rfl).trans (by decide),
   (ReadConfig_asks_for_empty_string_fields (ConsoleReader.always "SomeString")
      (TestConfig "bin" "1.0.0" "u" "t" true "false") []).2.2.2.2.2.2 (by decide)⟩

end Config
